import Mathlib

/-!
# Forum core: sessions, login throttle, ownership guard, votes, cascade deletion, reports

A shallow embedding of the Go sources under `internal/` and of the properties
stated about them.

Conventions of the embedding

* The SQLite database is a record of tables, each table a list of rows in
  insertion (rowid) order.  A `SELECT ... WHERE` is a filter over that list,
  `QueryRow(...).Scan` takes the first row of the result and yields an error
  when there is none.
* Rows carry the columns that the repository reads or writes by value.  The
  `created_at` / `uploaded_at` columns, which the modelled operations never
  compare, are left out.
* Foreign keys are declared in the migrations but the connection string does
  not switch their enforcement on, so they constrain nothing here.
* A Go `error` is `Option String` (`none` is `nil`).  A write statement takes a
  flag saying whether the storage layer fails it; a failed statement changes
  nothing.  Reads do not fail for storage reasons.
* Instants and durations are integers counting nanoseconds.  A `time.Time`
  handed to the database is a `Time`: the instant together with the offset of
  the zone it is expressed in, because the driver binds it as the text
  `2006-01-02 15:04:05.999999999-07:00` and SQLite compares these texts, not
  the instants.  The server's zone (`time.Local`) is part of the `Env`.
* Everything the handlers obtain from outside the repository (clock readings,
  the fresh uuid, template loading, storage failures) comes from an `Env`;
  functions of the Go libraries with no executable counterpart here come from
  a `Lib`.
-/

namespace Forum

/-! ## Go library functions -/

/-- Library functions taken as parameters: `strings.ToLower` (Unicode aware)
and `bcrypt.CompareHashAndPassword` (`true` stands for a `nil` error). -/
structure Lib where
  ToLower : String → String
  CompareHashAndPassword : String → String → Bool

/-- Go `error`: `none` is `nil`. -/
abbrev error := Option String

/-- The error reported by a failed storage statement. -/
def storageErr : error := some "storage error"

/-- The predicate `unicode.IsSpace`. -/
def isSpace (c : Char) : Bool :=
  let n := c.toNat
  n == 9 || n == 10 || n == 11 || n == 12 || n == 13 || n == 32 || n == 0x85 || n == 0xA0 ||
  n == 0x1680 || (0x2000 ≤ n && n ≤ 0x200a) || n == 0x2028 || n == 0x2029 || n == 0x202f ||
  n == 0x205f || n == 0x3000

/-- The function `strings.TrimSpace`. -/
def TrimSpace (s : String) : String :=
  String.mk ((s.data.dropWhile isSpace).reverse.dropWhile isSpace).reverse

/-- The call `strings.ReplaceAll(s, " ", "")`. -/
def removeSpaces (s : String) : String :=
  String.mk (s.data.filter (fun c => c != ' '))

/-- The function `utf8.RuneCountInString` on a valid UTF-8 string. -/
def RuneCountInString (s : String) : Int := s.length

def maxInt64 : Int := 9223372036854775807
def minInt64 : Int := -9223372036854775808

/-- Value of a decimal digit, `none` for any other character. -/
def digitVal (c : Char) : Option Int :=
  if '0' ≤ c ∧ c ≤ '9' then some (c.toNat - 48 : Int) else none

/-- Reads an unsigned decimal numeral, most significant digit first. -/
def parseDigits : List Char → Int → Option Int
  | [], acc => some acc
  | c :: cs, acc =>
    match digitVal c with
    | some d => parseDigits cs (acc * 10 + d)
    | none => none

/-- The function `strconv.Atoi` on a 64-bit platform: an optional sign, then
one or more decimal digits, the value within the range of `int`. -/
def Atoi (s : String) : Option Int :=
  let body (neg : Bool) (ds : List Char) : Option Int :=
    match ds with
    | [] => none
    | _ =>
      match parseDigits ds 0 with
      | none => none
      | some n =>
        let v := if neg then -n else n
        if minInt64 ≤ v ∧ v ≤ maxInt64 then some v else none
  match s.data with
  | '-' :: ds => body true ds
  | '+' :: ds => body false ds
  | ds => body false ds

/-- The function `strconv.Itoa`. -/
def Itoa (n : Int) : String :=
  if n < 0 then "-" ++ toString n.natAbs else toString n.natAbs

/-- The function `strconv.ParseBool`. -/
def ParseBool (s : String) : Option Bool :=
  if s = "1" ∨ s = "t" ∨ s = "T" ∨ s = "TRUE" ∨ s = "true" ∨ s = "True" then some true
  else if s = "0" ∨ s = "f" ∨ s = "F" ∨ s = "FALSE" ∨ s = "false" ∨ s = "False" then some false
  else none

/-! ## Times handed to the database -/

/-- A `time.Time` as the database driver handles it: the instant `ns`, in
nanoseconds since the epoch, and the offset east of UTC, in seconds, of the
zone the value is expressed in.  The driver binds such a value as the text
`2006-01-02 15:04:05.999999999-07:00`: the wall-clock reading in that zone,
the fraction of the second without trailing zeros (nothing when it is zero),
then the offset as `+hh:mm` or `-hh:mm`. -/
structure Time where
  ns : Int
  offset : Int
deriving DecidableEq, Repr

/-- The wall-clock reading that the text of a time starts with, in
nanoseconds: the instant shifted by the offset. -/
def Time.wall (t : Time) : Int := t.ns + t.offset * 1000000000

/-- Sort key of the offset suffix of the text.  The suffix shows the offset in
whole minutes (Go division, towards zero); `+` sorts before `-`, then the
two-digit hours and minutes sort as the number of minutes. -/
def Time.zoneKey (t : Time) : Int × Int :=
  let zone := Int.tdiv t.offset 60
  if zone < 0 then (1, -zone) else (0, zone)

/-- Whether the text of `a` sorts before the text of `b` in the binary order
in which SQLite compares a stored time with a bound one.  For years 0000 to
9999 the date and time fields have fixed width, so the texts are ordered by
wall-clock second; within one second by the fraction (a sign character sorts
before the point, the point before a digit); and texts with the same
wall-clock reading by their offset suffix. -/
def Time.textLess (a b : Time) : Bool :=
  decide (a.wall < b.wall) ||
    (a.wall == b.wall &&
      (decide (a.zoneKey.1 < b.zoneKey.1) ||
        (a.zoneKey.1 == b.zoneKey.1 && decide (a.zoneKey.2 < b.zoneKey.2))))

/-! ## Rows (`internal/models/models.go`, `internal/db/migrations.go`) -/

structure User where
  ID : Int
  Email : String
  Username : String
  PasswordHash : String
  Role : String
deriving DecidableEq, Repr

structure Post where
  ID : Int
  UserID : Int
  Title : String
  Content : String
deriving DecidableEq, Repr

structure Comment where
  ID : Int
  PostID : Int
  UserID : Int
  Content : String
deriving DecidableEq, Repr

structure Category where
  ID : Int
  Name : String
deriving DecidableEq, Repr

structure PostCategory where
  PostID : Int
  CategoryID : Int
deriving DecidableEq, Repr

structure Like where
  ID : Int
  UserID : Int
  PostID : Option Int
  CommentID : Option Int
  IsLike : Bool
deriving DecidableEq, Repr

structure Image where
  ID : Int
  PostID : Int
  FilePath : String
deriving DecidableEq, Repr

structure Notification where
  ID : Int
  UserID : Int
  Type_ : String
  FromUserID : Option Int
  PostID : Option Int
  CommentID : Option Int
  IsRead : Bool
deriving DecidableEq, Repr

structure Report where
  ID : Int
  ReporterID : Int
  PostID : Option Int
  CommentID : Option Int
  Reason : String
  Status : String
deriving DecidableEq, Repr

structure Session where
  SessionID : String
  UserID : Int
  Expires : Time
deriving DecidableEq, Repr

/-- The `sqlite_sequence` table: per `AUTOINCREMENT` table, the largest id
handed out so far. -/
structure Sequence where
  users : Int
  posts : Int
  comments : Int
  categories : Int
  likes : Int
  images : Int
  notifications : Int
  reports : Int
deriving DecidableEq, Repr

/-- The database. -/
structure Store where
  users : List User
  posts : List Post
  comments : List Comment
  categories : List Category
  post_categories : List PostCategory
  likes : List Like
  sessions : List Session
  images : List Image
  notifications : List Notification
  reports : List Report
  seq : Sequence
deriving DecidableEq, Repr

/-- Largest element of a list of ids, `0` for the empty list. -/
def maxID (ids : List Int) : Int := ids.foldl max 0

/-- The id an `INTEGER PRIMARY KEY AUTOINCREMENT` column assigns next: one
more than the largest id that ever existed in the table. -/
def nextID (seq : Int) (ids : List Int) : Int := max seq (maxID ids) + 1

/-! ## Repository (`internal/db/db.go`): posts and comments -/

/-- Repository method `GetPostByID`; `none` is the error of `Scan`. -/
def Repository.GetPostByID (db : Store) (postID : Int) : Option Post :=
  db.posts.find? (fun p => p.ID == postID)

/-- Repository method `PostExists`. -/
def Repository.PostExists (db : Store) (id : Int) : Bool :=
  db.posts.any (fun p => p.ID == id)

/-- Repository method `UpdatePost`. -/
def Repository.UpdatePost (db : Store) (postID : Int) (title content : String) (fail : Bool) :
    error × Store :=
  if fail then (storageErr, db)
  else (none, { db with posts := db.posts.map (fun p =>
    if p.ID == postID then { p with Title := title, Content := content } else p) })

/-- Repository method `GetCommentByID`; `none` is the error of `Scan`. -/
def Repository.GetCommentByID (db : Store) (commentID : Int) : Option Comment :=
  db.comments.find? (fun c => c.ID == commentID)

/-- Repository method `DeleteComment`. -/
def Repository.DeleteComment (db : Store) (commentID : Int) (fail : Bool) : error × Store :=
  if fail then (storageErr, db)
  else (none, { db with comments := db.comments.filter (fun c => !(c.ID == commentID)) })

/-- Repository method `UpdateComment`. -/
def Repository.UpdateComment (db : Store) (commentID : Int) (newContent : String) (fail : Bool) :
    error × Store :=
  if fail then (storageErr, db)
  else (none, { db with comments := db.comments.map (fun c =>
    if c.ID == commentID then { c with Content := newContent } else c) })

/-- Repository method `CreateComment`. -/
def Repository.CreateComment (db : Store) (comment : Comment) (fail : Bool) : error × Store :=
  if fail then (storageErr, db)
  else
    let id := nextID db.seq.comments (db.comments.map (fun c => c.ID))
    (none, { db with
      comments := db.comments ++ [{ comment with ID := id }],
      seq := { db.seq with comments := id } })

/-! ### Transactions -/

/-- An open transaction: the committed store it started from and the store as
the statements of the transaction see it. -/
structure Tx where
  base : Store
  work : Store

/-- The call `db.Begin()`. -/
def Begin (db : Store) (fail : Bool) : Option Tx :=
  if fail then none else some ⟨db, db⟩

/-- The call `tx.Exec`: a statement that fails changes nothing. -/
def Tx.Exec (tx : Tx) (stmt : Store → Store) (fail : Bool) : error × Tx :=
  if fail then (storageErr, tx) else (none, { tx with work := stmt tx.work })

/-- The call `tx.Rollback()`: the store is the one the transaction began on. -/
def Tx.Rollback (tx : Tx) : Store := tx.base

/-- The call `tx.Commit()`: on success the work of the transaction becomes the
store; a commit that fails leaves the store as it was. -/
def Tx.Commit (tx : Tx) (fail : Bool) : error × Store :=
  if fail then (storageErr, tx.base) else (none, tx.work)

/-- Repository method `DeletePost`.  `fault 0` fails `Begin`, `fault 1` to
`fault 7` fail the seven `DELETE` statements in order, `fault 8` fails the
commit. -/
def Repository.DeletePost (db : Store) (postID : Int) (fault : Nat → Bool) : error × Store :=
  match Begin db (fault 0) with
  | none => (storageErr, db)
  | some tx =>
    match tx.Exec (fun s => { s with
        comments := s.comments.filter (fun c => !(c.PostID == postID)) }) (fault 1) with
    | (some e, tx) => (some e, tx.Rollback)
    | (none, tx) =>
    match tx.Exec (fun s => { s with
        likes := s.likes.filter (fun l => !(l.PostID == some postID)) }) (fault 2) with
    | (some e, tx) => (some e, tx.Rollback)
    | (none, tx) =>
    match tx.Exec (fun s => { s with
        post_categories := s.post_categories.filter (fun c => !(c.PostID == postID)) })
        (fault 3) with
    | (some e, tx) => (some e, tx.Rollback)
    | (none, tx) =>
    match tx.Exec (fun s => { s with
        images := s.images.filter (fun i => !(i.PostID == postID)) }) (fault 4) with
    | (some e, tx) => (some e, tx.Rollback)
    | (none, tx) =>
    match tx.Exec (fun s => { s with
        notifications := s.notifications.filter (fun n => !(n.PostID == some postID)) })
        (fault 5) with
    | (some e, tx) => (some e, tx.Rollback)
    | (none, tx) =>
    match tx.Exec (fun s => { s with
        reports := s.reports.filter (fun r => !(r.PostID == some postID)) }) (fault 6) with
    | (some e, tx) => (some e, tx.Rollback)
    | (none, tx) =>
    match tx.Exec (fun s => { s with
        posts := s.posts.filter (fun p => !(p.ID == postID)) }) (fault 7) with
    | (some e, tx) => (some e, tx.Rollback)
    | (none, tx) => tx.Commit (fault 8)

/-! ## Requests, responses, environment -/

/-- What a handler reads from `*http.Request`. -/
structure Request where
  Method : String
  /-- Value of the `session_id` cookie, when the request carries one. -/
  Cookie : Option String
  /-- Context value `"userID"`, set by the authentication middleware. -/
  ctxUserID : Option Int
  /-- Context value `"role"`. -/
  ctxRole : Option String
  /-- The lookup `r.URL.Query().Get`. -/
  Query : String → String
  /-- The lookup `r.FormValue`. -/
  FormValue : String → String

/-- What a handler writes to `http.ResponseWriter`. -/
inductive Response where
  /-- Written by `http.Redirect`. -/
  | Redirect (url : String) (code : Nat)
  /-- Written by `http.SetCookie` followed by `http.Redirect`. -/
  | CookieRedirect (name value : String) (expires : Int) (url : String) (code : Nat)
  /-- Written by `http.Error`. -/
  | Error (msg : String) (code : Nat)
  /-- Written by `renderError`. -/
  | ErrorPage (code : Nat) (title message : String)
  /-- A template was executed. -/
  | Template (file : String)
  /-- The JSON object written by the like handler. -/
  | JSON (likes dislikes : Int)
deriving DecidableEq, Repr

/-- What a handler obtains from outside while serving one request. -/
structure Env where
  /-- Instant of `time.Now()` inside `GetSession`. -/
  tSession : Int
  /-- Reading of `time.Now()` at the throttle check of `Login`. -/
  now : Int
  /-- Instant of `time.Now()` when `Login` computes the session expiry. -/
  tIssue : Int
  /-- Result of `uuid.New().String()`. -/
  uuid : String
  /-- Whether `template.ParseFiles` succeeds. -/
  tmplOK : Bool
  /-- Whether the k-th write statement (from 0) issued while serving the
  request fails in the storage layer. -/
  fault : Nat → Bool
  /-- The server's time zone (`time.Local`): the offset east of UTC, in
  seconds, in force at an instant. -/
  zone : Int → Int

/-- The `time.Time` for instant `t` in the server's zone: what `time.Now()`
yields at `t`, and what `Add` yields when its result is the instant `t`. -/
def Env.localTime (env : Env) (t : Int) : Time := ⟨t, env.zone t⟩

def StatusSeeOther : Nat := 303
def StatusBadRequest : Nat := 400
def StatusUnauthorized : Nat := 401
def StatusForbidden : Nat := 403
def StatusNotFound : Nat := 404
def StatusMethodNotAllowed : Nat := 405
def StatusInternalServerError : Nat := 500

/-- Role read from the request context: `role, _ := ... .(string)`. -/
def ctxRoleString (r : Request) : String := r.ctxRole.getD ""

/-! ## Handlers: editing and deleting posts and comments -/

/-- Handler `PostHandler.EditPost` (`internal/handlers/posts.go`). -/
def PostHandler.EditPost (env : Env) (db : Store) (r : Request) : Response × Store :=
  match r.ctxUserID with
  | none => (.Redirect "/login?error=Authentication required" StatusSeeOther, db)
  | some userID =>
    let role := ctxRoleString r
    match Atoi (r.Query "id") with
    | none => (.Redirect "/posts?error=Invalid post ID" StatusSeeOther, db)
    | some postID =>
      if postID ≤ 0 then (.Redirect "/posts?error=Invalid post ID" StatusSeeOther, db)
      else
        match Repository.GetPostByID db postID with
        | none => (.Redirect "/posts?error=Post not found" StatusSeeOther, db)
        | some post =>
          if post.UserID ≠ userID ∧ role ≠ "admin" ∧ role ≠ "moderator" then
            (.ErrorPage StatusForbidden "403 Forbidden" "No permission to edit", db)
          else if r.Method = "GET" then
            if env.tmplOK then (.Template "edit_post.html", db)
            else (.ErrorPage StatusInternalServerError "500 Internal Server Error"
              "Internal server error", db)
          else if r.Method = "POST" then
            let title := TrimSpace (r.FormValue "title")
            let content := TrimSpace (r.FormValue "content")
            let titleLen := RuneCountInString title
            let contentLen := RuneCountInString content
            if titleLen < 5 ∨ titleLen > 100 then
              (.Redirect ("/edit-post?id=" ++ Itoa postID ++
                "&error=Title must be 5-100 characters") StatusSeeOther, db)
            else if contentLen < 10 ∨ contentLen > 5000 then
              (.Redirect ("/edit-post?id=" ++ Itoa postID ++
                "&error=Content must be 10-5000 characters") StatusSeeOther, db)
            else if title = "" ∨ content = "" then
              (.Redirect ("/edit-post?id=" ++ Itoa postID ++ "&error=Fill all fields")
                StatusSeeOther, db)
            else
              match Repository.UpdatePost db postID title content (env.fault 0) with
              | (some _, db1) =>
                (.Redirect ("/edit-post?id=" ++ Itoa postID ++ "&error=Update error")
                  StatusSeeOther, db1)
              | (none, db1) =>
                (.Redirect ("/post?id=" ++ Itoa postID ++ "&success=Post updated")
                  StatusSeeOther, db1)
          else (.ErrorPage StatusMethodNotAllowed "405 Method Not Allowed"
            "Method not allowed", db)

/-- Handler `PostHandler.DeletePost` (`internal/handlers/posts.go`). -/
def PostHandler.DeletePost (env : Env) (db : Store) (r : Request) : Response × Store :=
  if r.Method ≠ "DELETE" then (.Error "Method not supported" StatusMethodNotAllowed, db)
  else
    match r.ctxUserID with
    | none => (.Redirect "/login?error=Authentication required" StatusSeeOther, db)
    | some userID =>
      let role := ctxRoleString r
      match Atoi (r.Query "id") with
      | none => (.Redirect "/posts?error=Invalid post ID" StatusSeeOther, db)
      | some postID =>
        if postID ≤ 0 then (.Redirect "/posts?error=Invalid post ID" StatusSeeOther, db)
        else
          match Repository.GetPostByID db postID with
          | none => (.Redirect "/posts?error=Post not found" StatusSeeOther, db)
          | some post =>
            if post.UserID ≠ userID ∧ role ≠ "admin" ∧ role ≠ "moderator" then
              (.Error "No permission to delete" StatusForbidden, db)
            else
              match Repository.DeletePost db postID env.fault with
              | (some _, db1) =>
                (.Redirect ("/post?id=" ++ Itoa postID ++ "&error=Error deleting post")
                  StatusSeeOther, db1)
              | (none, db1) => (.Redirect "/posts?success=Post deleted" StatusSeeOther, db1)

/-- Handler `CommentHandler.DeleteComment` (`internal/handlers/comments.go`). -/
def CommentHandler.DeleteComment (env : Env) (db : Store) (r : Request) : Response × Store :=
  match r.ctxUserID with
  | none => (.Redirect "/login?error=Требуется авторизация" StatusSeeOther, db)
  | some userID =>
    let role := ctxRoleString r
    match Atoi (r.Query "id") with
    | none => (.Redirect "/posts?error=Неверный ID комментария" StatusSeeOther, db)
    | some commentID =>
      if commentID ≤ 0 then
        (.Redirect "/posts?error=Неверный ID комментария" StatusSeeOther, db)
      else
        match Repository.GetCommentByID db commentID with
        | none => (.Redirect "/posts?error=Комментарий не найден" StatusSeeOther, db)
        | some comment =>
          if comment.UserID ≠ userID ∧ role ≠ "admin" ∧ role ≠ "moderator" then
            (.Error "Нет прав на удаление" StatusForbidden, db)
          else
            match Repository.DeleteComment db commentID (env.fault 0) with
            | (some _, db1) =>
              (.Redirect ("/post?id=" ++ Itoa comment.PostID ++
                "&error=Ошибка удаления комментария") StatusSeeOther, db1)
            | (none, db1) =>
              (.Redirect ("/post?id=" ++ Itoa comment.PostID ++
                "&success=Комментарий удалён") StatusSeeOther, db1)

/-- Handler `CommentHandler.EditComment` (`internal/handlers/comments.go`). -/
def CommentHandler.EditComment (env : Env) (db : Store) (r : Request) : Response × Store :=
  match r.ctxUserID with
  | none => (.Redirect "/login?error=Требуется авторизация" StatusSeeOther, db)
  | some userID =>
    let role := ctxRoleString r
    match Atoi (r.Query "id") with
    | none => (.Redirect "/posts?error=Неверный ID комментария" StatusSeeOther, db)
    | some commentID =>
      if commentID ≤ 0 then
        (.Redirect "/posts?error=Неверный ID комментария" StatusSeeOther, db)
      else
        match Repository.GetCommentByID db commentID with
        | none => (.Redirect "/posts?error=Комментарий не найден" StatusSeeOther, db)
        | some comment =>
          if comment.UserID ≠ userID ∧ role ≠ "admin" ∧ role ≠ "moderator" then
            (.Error "Нет прав на редактирование" StatusForbidden, db)
          else if r.Method = "POST" then
            let newContent := TrimSpace (r.FormValue "content")
            if newContent = "" then
              (.Redirect ("/edit-comment?id=" ++ Itoa commentID ++
                "&error=Текст не может быть пустым") StatusSeeOther, db)
            else
              let contentLen := RuneCountInString newContent
              if contentLen < 2 ∨ contentLen > 1000 then
                (.Redirect ("/edit-comment?id=" ++ Itoa commentID ++
                  "&error=Комментарий должен быть от 2 до 1000 символов") StatusSeeOther, db)
              else
                match Repository.UpdateComment db commentID newContent (env.fault 0) with
                | (some _, db1) =>
                  (.Redirect ("/edit-comment?id=" ++ Itoa commentID ++
                    "&error=Ошибка обновления") StatusSeeOther, db1)
                | (none, db1) =>
                  (.Redirect ("/post?id=" ++ Itoa comment.PostID ++
                    "&success=Комментарий обновлён") StatusSeeOther, db1)
          else if env.tmplOK then (.Template "edit_comment.html", db)
          else (.Error "Внутренняя ошибка сервера" StatusInternalServerError, db)

/-! ## Repository: users and sessions -/

/-- Comparison key of the `NOCASE` collation: ASCII upper case letters folded
to lower case. -/
def nocase (s : String) : String := String.mk (s.data.map Char.toLower)

/-- Repository method `GetUserByUsername`: the columns `id`, `email`,
`username`, `password_hash` of the first row whose `username` (a `COLLATE
NOCASE` column) equals the lower-cased argument. -/
def Repository.GetUserByUsername (lib : Lib) (db : Store) (username : String) : Option User :=
  let username := lib.ToLower username
  (db.users.find? (fun u => nocase u.Username == nocase username)).map
    (fun u => { ID := u.ID, Email := u.Email, Username := u.Username,
                PasswordHash := u.PasswordHash, Role := "" })

/-- Repository method `CreateSession`.  `session_id` is the primary key of the
table: inserting a value already present fails. -/
def Repository.CreateSession (db : Store) (session : Session) (fail : Bool) : error × Store :=
  if fail then (storageErr, db)
  else if db.sessions.any (fun s => s.SessionID == session.SessionID) then
    (some "UNIQUE constraint failed: sessions.session_id", db)
  else (none, { db with sessions := db.sessions ++ [session] })

/-- Repository method `GetSession`, with the reading `now` of `time.Now()`.
The condition `expires > ?` compares the stored text with the text bound for
`now`. -/
def Repository.GetSession (db : Store) (sessionID : String) (now : Time) : Option Session :=
  db.sessions.find? (fun s => s.SessionID == sessionID && now.textLess s.Expires)

/-- Repository method `DeleteSession`. -/
def Repository.DeleteSession (db : Store) (sessionID : String) (fail : Bool) : error × Store :=
  if fail then (storageErr, db)
  else (none, { db with sessions := db.sessions.filter (fun s => !(s.SessionID == sessionID)) })

/-- Repository method `DeleteUserSessions`. -/
def Repository.DeleteUserSessions (db : Store) (userID : Int) (exceptSessionID : String)
    (fail : Bool) : error × Store :=
  if fail then (storageErr, db)
  else
    let doomed (s : Session) : Bool := s.UserID == userID && s.SessionID != exceptSessionID
    (none, { db with sessions := db.sessions.filter (fun s => !doomed s) })

/-- Repository method `CleanExpiredSessions`, with the reading `now` of
`time.Now()`.  The condition `expires < ?` compares texts, as in
`GetSession`. -/
def Repository.CleanExpiredSessions (db : Store) (now : Time) (fail : Bool) : error × Store :=
  if fail then (storageErr, db)
  else (none, { db with sessions := db.sessions.filter (fun s => !(s.Expires.textLess now)) })

/-! ## Login (`internal/handlers/auth.go`) -/

/-- The constant `time.Minute`, in nanoseconds. -/
def Minute : Int := 60 * 1000000000
/-- The constant `time.Hour`, in nanoseconds. -/
def Hour : Int := 60 * Minute

def maxLoginAttempts : Nat := 5
def loginBlockDuration : Int := 10 * Minute

/-- The method `Time.Sub`: the difference of two instants as a `Duration`,
which saturates at the bounds of a 64-bit integer. -/
def Sub (t u : Int) : Int :=
  if t - u > maxInt64 then maxInt64 else if t - u < minInt64 then minInt64 else t - u

/-- The server: the database and the process-wide map `loginAttempts`
(`none`: the key is absent). -/
structure State where
  db : Store
  loginAttempts : String → Option (List Int)

/-- Map read `m[k]`: the zero value (a nil slice) for an absent key. -/
def attemptsOf (m : String → Option (List Int)) (k : String) : List Int := (m k).getD []

/-- Map write `m[k] = v`. -/
def setAttempts (m : String → Option (List Int)) (k : String) (v : List Int) :
    String → Option (List Int) :=
  fun x => if x = k then some v else m x

/-- Map removal `delete(m, k)`. -/
def deleteAttempts (m : String → Option (List Int)) (k : String) :
    String → Option (List Int) :=
  fun x => if x = k then none else m x

/-- The user name as `Login` normalises it. -/
def loginUsername (lib : Lib) (r : Request) : String :=
  removeSpaces (TrimSpace (lib.ToLower (r.FormValue "username")))

/-- The failures of the last ten minutes: the loop building `recent`. -/
def recentAttempts (attempts : List Int) (now : Int) : List Int :=
  attempts.filter (fun t => decide (Sub now t < loginBlockDuration))

def tooManyAttemptsURL : String :=
  "/login?error=Слишком много неудачных попыток. Попробуйте через 10 минут."

def badCredentialsURL : String := "/login?error=Неверный логин или пароль"

/-- The `POST` branch of `AuthHandler.Login`. -/
def loginPost (lib : Lib) (env : Env) (st : State) (r : Request) : Response × State :=
  let username := loginUsername lib r
  let password := r.FormValue "password"
  let now := env.now
  let attempts := attemptsOf st.loginAttempts username
  let recent := recentAttempts attempts now
  if recent.length ≥ maxLoginAttempts then (.Redirect tooManyAttemptsURL StatusSeeOther, st)
  else
    let la := setAttempts st.loginAttempts username recent
    match Repository.GetUserByUsername lib st.db username with
    | none =>
      (.Redirect badCredentialsURL StatusSeeOther,
        { st with loginAttempts := setAttempts la username (attemptsOf la username ++ [now]) })
    | some user =>
      if !lib.CompareHashAndPassword user.PasswordHash password then
        (.Redirect badCredentialsURL StatusSeeOther,
          { st with loginAttempts := setAttempts la username (attemptsOf la username ++ [now]) })
      else
        let la := deleteAttempts la username
        let sessionID := env.uuid
        let expiresAt := env.localTime (env.tIssue + 24 * Hour)
        let session : Session := { SessionID := sessionID, UserID := user.ID, Expires := expiresAt }
        match Repository.CreateSession st.db session (env.fault 0) with
        | (some _, db1) =>
          (.Redirect "/login?error=Ошибка входа" StatusSeeOther, { db := db1, loginAttempts := la })
        | (none, db1) =>
          let db2 := (Repository.DeleteUserSessions db1 user.ID sessionID (env.fault 1)).2
          (.CookieRedirect "session_id" sessionID expiresAt.ns "/?success=Вход выполнен"
            StatusSeeOther, { db := db2, loginAttempts := la })

/-- Whether the request carries the cookie of a session that `GetSession`
accepts. -/
def hasValidSession (env : Env) (db : Store) (r : Request) : Bool :=
  match r.Cookie with
  | none => false
  | some c => (Repository.GetSession db c (env.localTime env.tSession)).isSome

/-- Handler `AuthHandler.Login`. -/
def AuthHandler.Login (lib : Lib) (env : Env) (st : State) (r : Request) : Response × State :=
  if hasValidSession env st.db r then (.Redirect "/" StatusSeeOther, st)
  else if r.Method = "GET" then
    if env.tmplOK then (.Template "login.html", st)
    else (.Error "Внутренняя ошибка сервера" StatusInternalServerError, st)
  else if r.Method = "POST" then loginPost lib env st r
  else (.Error "Метод не поддерживается" StatusMethodNotAllowed, st)

/-! ## Votes and notifications -/

/-- The row lookup of `CreateLike`: by post when `PostID` is set, else by
comment when `CommentID` is set, else none at all. -/
def likeQuery (like : Like) : Option (Like → Bool) :=
  match like.PostID, like.CommentID with
  | some p, _ => some (fun l => l.UserID == like.UserID && l.PostID == some p)
  | none, some c => some (fun l => l.UserID == like.UserID && l.CommentID == some c)
  | none, none => none

/-- Repository method `CreateLike`. -/
def Repository.CreateLike (db : Store) (like : Like) (fail : Bool) : error × Store :=
  match likeQuery like with
  | none => (none, db)
  | some q =>
    match db.likes.find? q with
    | some existing =>
      if fail then (storageErr, db)
      else (none, { db with likes := db.likes.filter (fun l => !(l.ID == existing.ID)) })
    | none =>
      if fail then (storageErr, db)
      else
        let id := nextID db.seq.likes (db.likes.map (fun l => l.ID))
        (none, { db with
          likes := db.likes ++ [{ like with ID := id }],
          seq := { db.seq with likes := id } })

/-- Repository method `GetLikesDislikes`. -/
def Repository.GetLikesDislikes (db : Store) (postID : Int) : Int × Int :=
  (((db.likes.filter (fun l => l.PostID == some postID && l.IsLike)).length : Int),
   ((db.likes.filter (fun l => l.PostID == some postID && !l.IsLike)).length : Int))

/-- Repository method `GetCommentLikesDislikes`. -/
def Repository.GetCommentLikesDislikes (db : Store) (commentID : Int) : Int × Int :=
  (((db.likes.filter (fun l => l.CommentID == some commentID && l.IsLike)).length : Int),
   ((db.likes.filter (fun l => l.CommentID == some commentID && !l.IsLike)).length : Int))

/-- Repository method `CreateNotification`. -/
def Repository.CreateNotification (db : Store) (userID : Int) (notifType : String)
    (fromUserID postID commentID : Option Int) (fail : Bool) : error × Store :=
  if fail then (storageErr, db)
  else
    let id := nextID db.seq.notifications (db.notifications.map (fun n => n.ID))
    let row : Notification := ⟨id, userID, notifType, fromUserID, postID, commentID, false⟩
    (none, { db with
      notifications := db.notifications ++ [row],
      seq := { db.seq with notifications := id } })

/-- The notification type the like handler derives from `is_like`. -/
def likeNotifType (isLike : Bool) : String := if !isLike then "dislike" else "like"

/-- The part of `LikeHandler.Like` after the target has been parsed into
`like`: existence check, toggle, notification, counts. -/
def likeProcess (env : Env) (db : Store) (userID : Int) (like : Like) : Response × Store :=
  let checked : Option Response :=
    match like.PostID, like.CommentID with
    | some p, _ =>
      if !Repository.PostExists db p then some (.Error "Post does not exist" StatusNotFound) else none
    | none, some c =>
      match Repository.GetCommentByID db c with
      | none => some (.Error "Comment does not exist" StatusNotFound)
      | some comment =>
        if !Repository.PostExists db comment.PostID then
          some (.Error "Comment post does not exist" StatusNotFound)
        else none
    | none, none => none
  match checked with
  | some resp => (resp, db)
  | none =>
    match Repository.CreateLike db like (env.fault 0) with
    | (some _, db1) => (.Error "Error processing like" StatusInternalServerError, db1)
    | (none, db1) =>
      let db2 :=
        match like.PostID, like.CommentID with
        | some p, _ =>
          match Repository.GetPostByID db1 p with
          | some post =>
            if post.UserID ≠ userID then
              (Repository.CreateNotification db1 post.UserID (likeNotifType like.IsLike) (some userID)
                like.PostID none (env.fault 1)).2
            else db1
          | none => db1
        | none, some c =>
          match Repository.GetCommentByID db1 c with
          | some comment =>
            if comment.UserID ≠ userID then
              (Repository.CreateNotification db1 comment.UserID (likeNotifType like.IsLike) (some userID)
                none like.CommentID (env.fault 1)).2
            else db1
          | none => db1
        | none, none => db1
      let counts : Int × Int :=
        match like.PostID, like.CommentID with
        | some p, _ => Repository.GetLikesDislikes db2 p
        | none, some c => Repository.GetCommentLikesDislikes db2 c
        | none, none => (0, 0)
      (.JSON counts.1 counts.2, db2)

/-- Handler `LikeHandler.Like` (`internal/handlers/likes.go`). -/
def LikeHandler.Like (env : Env) (db : Store) (r : Request) : Response × Store :=
  if r.Method ≠ "POST" then (.Error "Method not supported" StatusMethodNotAllowed, db)
  else
    match r.ctxUserID with
    | none => (.Error "Authentication required" StatusUnauthorized, db)
    | some userID =>
      let postIDStr := r.Query "post_id"
      let commentIDStr := r.Query "comment_id"
      match ParseBool (r.Query "is_like") with
      | none => (.Error "Invalid is_like parameter" StatusBadRequest, db)
      | some isLike =>
        let like : Forum.Like :=
          { ID := 0, UserID := userID, PostID := none, CommentID := none, IsLike := isLike }
        if postIDStr ≠ "" then
          match Atoi postIDStr with
          | none => (.Error "Invalid post ID" StatusBadRequest, db)
          | some postID => likeProcess env db userID { like with PostID := some postID }
        else if commentIDStr ≠ "" then
          match Atoi commentIDStr with
          | none => (.Error "Invalid comment ID" StatusBadRequest, db)
          | some commentID => likeProcess env db userID { like with CommentID := some commentID }
        else (.Error "Post ID or comment ID missing" StatusBadRequest, db)

/-- Handler `CommentHandler.AddComment` (`internal/handlers/comments.go`). -/
def CommentHandler.AddComment (env : Env) (db : Store) (r : Request) : Response × Store :=
  match r.ctxUserID with
  | none => (.Redirect "/login?error=Требуется авторизация" StatusSeeOther, db)
  | some userID =>
    if r.Method ≠ "POST" then (.Error "Метод не поддерживается" StatusMethodNotAllowed, db)
    else
      match Atoi (r.FormValue "post_id") with
      | none => (.Redirect "/posts?error=Неверный ID поста" StatusSeeOther, db)
      | some postID =>
        if postID ≤ 0 then (.Redirect "/posts?error=Неверный ID поста" StatusSeeOther, db)
        else
          let content := TrimSpace (r.FormValue "content")
          if content = "" then
            (.Redirect ("/post?id=" ++ Itoa postID ++ "&error=Комментарий не может быть пустым")
              StatusSeeOther, db)
          else
            let contentLen := RuneCountInString content
            if contentLen < 2 ∨ contentLen > 1000 then
              (.Redirect ("/post?id=" ++ Itoa postID ++
                "&error=Комментарий должен быть от 2 до 1000 символов") StatusSeeOther, db)
            else if !Repository.PostExists db postID then
              (.Redirect "/posts?error=Пост не существует" StatusSeeOther, db)
            else
              let comment : Comment :=
                { ID := 0, PostID := postID, UserID := userID, Content := content }
              match Repository.CreateComment db comment (env.fault 0) with
              | (some _, db1) =>
                (.Redirect ("/post?id=" ++ Itoa postID ++ "&error=Ошибка создания комментария")
                  StatusSeeOther, db1)
              | (none, db1) =>
                let db2 :=
                  match Repository.GetPostByID db1 postID with
                  | some post =>
                    if post.UserID ≠ userID then
                      (Repository.CreateNotification db1 post.UserID "comment" (some userID) (some postID)
                        none (env.fault 1)).2
                    else db1
                  | none => db1
                (.Redirect ("/post?id=" ++ Itoa postID ++ "&success=Комментарий успешно добавлен")
                  StatusSeeOther, db2)

/-! ## Vocabulary of the stated properties -/

/-- Status code of a response; a rendered template and the JSON answer are
written with the default status 200. -/
def Response.code : Response → Nat
  | .Redirect _ c => c
  | .CookieRedirect _ _ _ _ c => c
  | .Error _ c => c
  | .ErrorPage c _ _ => c
  | .Template _ => 200
  | .JSON _ _ => 200

/-- The ownership rule as the specification words it: the actor owns the
resource, or the actor is a moderator or an administrator. -/
def permitted (ownerID actorID : Int) (role : String) : Prop :=
  actorID = ownerID ∨ role = "moderator" ∨ role = "admin"

/-- What a vote refers to: a post or a comment. -/
inductive Target where
  | post (id : Int)
  | comment (id : Int)
deriving DecidableEq, Repr

/-- State of a (voter, target) pair. -/
inductive VoteState where
  | NoVote
  | Liked
  | Disliked
deriving DecidableEq, Repr

/-- The `models.Like` that the like handler builds for a voter, a target and a
direction: exactly one of `PostID` and `CommentID` is set. -/
def voteFor (voter : Int) (target : Target) (wantLike : Bool) : Like :=
  match target with
  | .post p => { ID := 0, UserID := voter, PostID := some p, CommentID := none, IsLike := wantLike }
  | .comment c =>
    { ID := 0, UserID := voter, PostID := none, CommentID := some c, IsLike := wantLike }

/-- Whether a vote row belongs to a (voter, target) pair. -/
def pairPred (voter : Int) (target : Target) (l : Like) : Bool :=
  match target with
  | .post p => l.UserID == voter && l.PostID == some p
  | .comment c => l.UserID == voter && l.CommentID == some c

/-- The vote rows of a (voter, target) pair. -/
def pairRows (db : Store) (voter : Int) (target : Target) : List Like :=
  db.likes.filter (pairPred voter target)

/-- The state of a pair that has at most one vote row; `none` when it has
several. -/
def pairState (db : Store) (voter : Int) (target : Target) : Option VoteState :=
  match pairRows db voter target with
  | [] => some .NoVote
  | [row] => some (if row.IsLike then .Liked else .Disliked)
  | _ => none

/-- The state a vote in the given direction stands for. -/
def votedState (wantLike : Bool) : VoteState := if wantLike then .Liked else .Disliked

/-- Like and dislike counts of a target, as the repository computes them. -/
def targetCounts (db : Store) (target : Target) : Int × Int :=
  match target with
  | .post p => Repository.GetLikesDislikes db p
  | .comment c => Repository.GetCommentLikesDislikes db c

/-- The store after two consecutive `CreateLike` calls with identical
arguments, neither of them failed by the storage layer. -/
def toggleTwice (db : Store) (voter : Int) (target : Target) (wantLike : Bool) : Store :=
  (Repository.CreateLike (Repository.CreateLike db (voteFor voter target wantLike) false).2
    (voteFor voter target wantLike) false).2

/-- The store without post `postID` and without the rows of the six dependent
tables whose `post_id` is `postID`. -/
def cascade (db : Store) (postID : Int) : Store :=
  { db with
    comments := db.comments.filter (fun c => !(c.PostID == postID)),
    likes := db.likes.filter (fun l => !(l.PostID == some postID)),
    post_categories := db.post_categories.filter (fun c => !(c.PostID == postID)),
    images := db.images.filter (fun i => !(i.PostID == postID)),
    notifications := db.notifications.filter (fun n => !(n.PostID == some postID)),
    reports := db.reports.filter (fun r => !(r.PostID == some postID)),
    posts := db.posts.filter (fun p => !(p.ID == postID)) }

/-! ## Concrete data for the instances below -/

/-- A stand-in library: ASCII lower-casing, and a password check that accepts
the stored string itself. -/
def toyLib : Lib :=
  ⟨fun s => String.mk (s.data.map Char.toLower), fun hash password => hash == password⟩

/-- Clock readings 0, 5, 0; fresh uuid `"t2"`; templates load; no storage
failure; the server's zone is UTC. -/
def exEnv : Env := ⟨0, 5, 0, "t2", true, fun _ => false, fun _ => 0⟩

/-- Users alice (1) and bob (2); post 1 and comment 1 belong to bob; the post
has a category link, an image and a report; alice holds the session `"t1"`,
which expires at instant 100 (UTC). -/
def exStore : Store :=
  ⟨[⟨1, "a@x.com", "alice", "secret1", "user"⟩, ⟨2, "b@x.com", "bob", "secret2", "user"⟩],
   [⟨1, 2, "Hello", "First post"⟩],
   [⟨1, 1, 2, "hi"⟩],
   [⟨1, "General"⟩], [⟨1, 1⟩], [], [⟨"t1", 1, ⟨100, 0⟩⟩], [⟨1, 1, "a.png"⟩], [],
   [⟨1, 1, some 1, none, "spam", "open"⟩],
   ⟨2, 1, 1, 1, 0, 1, 0, 1⟩⟩

/-- The store `exStore` after alice has liked post 1. -/
def exLikedStore : Store :=
  { exStore with likes := [⟨1, 1, some 1, none, true⟩], seq := ⟨2, 1, 1, 1, 1, 1, 0, 1⟩ }

/-- Alice (role `user`) addresses id 1 with a `DELETE` request. -/
def exDeleteReq : Request := ⟨"DELETE", none, some 1, some "user", fun _ => "1", fun _ => ""⟩

/-- A login form for bob. -/
def exLoginBob : Request :=
  ⟨"POST", none, none, none, fun _ => "", fun k => if k = "username" then " Bob" else "secret2"⟩

/-- A login form for alice with her password. -/
def exLoginAlice : Request :=
  ⟨"POST", none, none, none, fun _ => "", fun k => if k = "username" then "Alice" else "secret1"⟩

/-- Five failures are recorded for bob, at instants 0 to 4. -/
def exThrottled : State := ⟨exStore, fun u => if u = "bob" then some [0, 1, 2, 3, 4] else none⟩

/-- No failure is recorded for anyone. -/
def exState : State := ⟨exStore, fun _ => none⟩

/-- Alice comments on post 1. -/
def exCommentReq : Request :=
  ⟨"POST", none, some 1, some "user", fun _ => "", fun k => if k = "post_id" then "1" else "nice"⟩

/-- Alice sends a like for post 1. -/
def exLikeReq : Request :=
  ⟨"POST", none, some 1, some "user",
   fun k => if k = "post_id" then "1" else if k = "is_like" then "true" else "", fun _ => ""⟩

/-! ## Registration (`AuthHandler.Register`, `CreateUser`, `IsEmailOrUsernameTaken`) -/

/-- Repository method `IsEmailOrUsernameTaken`: whether the count of rows whose
`email` or `username` (both `COLLATE NOCASE` columns) equals the lower-cased
argument is positive. -/
def Repository.IsEmailOrUsernameTaken (lib : Lib) (db : Store) (email username : String) :
    Bool :=
  let email := lib.ToLower email
  let username := lib.ToLower username
  let count := (db.users.filter (fun u =>
    nocase u.Email == nocase email || nocase u.Username == nocase username)).length
  decide (count > 0)

/-- Repository method `CreateUser`.  `hash` stands for
`bcrypt.GenerateFromPassword` (`none`: it returns an error).  The columns
`email` and `username` are `UNIQUE ... COLLATE NOCASE`: an insert that collides
with a stored row on either fails.  `role` takes its default `'user'`. -/
def Repository.CreateUser (lib : Lib) (db : Store) (user : User) (plainPassword : String)
    (hash : String → Option String) (fail : Bool) : error × Store :=
  let email := lib.ToLower user.Email
  let username := lib.ToLower user.Username
  match hash plainPassword with
  | none => (some "bcrypt: cannot hash the password", db)
  | some passwordHash =>
    if fail then (storageErr, db)
    else if db.users.any (fun u =>
        nocase u.Email == nocase email || nocase u.Username == nocase username) then
      (some "UNIQUE constraint failed: users", db)
    else
      let id := nextID db.seq.users (db.users.map (fun u => u.ID))
      let row : User := ⟨id, email, username, passwordHash, "user"⟩
      (none, { db with users := db.users ++ [row], seq := { db.seq with users := id } })

/-- Repository method `GetUserByEmail`. -/
def Repository.GetUserByEmail (lib : Lib) (db : Store) (email : String) : Option User :=
  let email := lib.ToLower email
  db.users.find? (fun u => nocase u.Email == nocase email)

/-- ASCII letter. -/
def isAsciiLetter (c : Char) : Bool :=
  let n := c.toNat
  (97 ≤ n && n ≤ 122) || (65 ≤ n && n ≤ 90)

/-- Character class `[a-zA-Z0-9]`. -/
def isAsciiAlnum (c : Char) : Bool :=
  let n := c.toNat
  isAsciiLetter c || (48 ≤ n && n ≤ 57)

/-- Character class `[a-zA-Z0-9._%+-]` of the local part. -/
def isLocalChar (c : Char) : Bool :=
  isAsciiAlnum c || c == '.' || c == '_' || c == '%' || c == '+' || c == '-'

/-- Character class `[a-zA-Z0-9.-]` of the domain. -/
def isDomainChar (c : Char) : Bool :=
  isAsciiAlnum c || c == '.' || c == '-'

/-- Whether the text matches the `emailRegex` of `Register`, the pattern
`^[a-zA-Z0-9._%+-]+@[a-zA-Z0-9.-]+\.[a-zA-Z]{2,}$`.  No class of the pattern
holds `@`, so the local part ends at the first `@`; the last class holds no
`.`, so the top-level domain starts after the last `.` of what follows. -/
def matchEmail (s : String) : Bool :=
  let localPart := s.data.takeWhile (fun c => c != '@')
  match s.data.dropWhile (fun c => c != '@') with
  | [] => false
  | _ :: rest =>
    let tld := (rest.reverse.takeWhile (fun c => c != '.')).reverse
    match rest.reverse.dropWhile (fun c => c != '.') with
    | [] => false
    | _ :: revDomain =>
      !localPart.isEmpty && localPart.all isLocalChar &&
      !revDomain.isEmpty && revDomain.all isDomainChar &&
      decide (tld.length ≥ 2) && tld.all isAsciiLetter

/-- The e-mail address as `Register` normalises it. -/
def registerEmail (lib : Lib) (r : Request) : String :=
  TrimSpace (lib.ToLower (r.FormValue "email"))

/-- The user name as `Register` normalises it. -/
def registerUsername (lib : Lib) (r : Request) : String :=
  removeSpaces (TrimSpace (lib.ToLower (r.FormValue "username")))

/-- The field checks of `Register`, in their order: the redirect of the first
check that fails, `none` when all pass. -/
def registerCheck (email username password : String) : Option String :=
  if email = "" ∨ username = "" then
    some "/register?error=Email и username не могут быть пустыми"
  else if RuneCountInString username < 3 ∨ RuneCountInString username > 30 then
    some "/register?error=Имя пользователя должно быть от 3 до 30 символов"
  else if RuneCountInString password < 6 ∨ RuneCountInString password > 50 then
    some "/register?error=Пароль должен быть от 6 до 50 символов"
  else if !matchEmail email then some "/register?error=Некорректный формат email"
  else none

def takenURL : String := "/register?error=Email или username уже заняты"

/-- The `POST` branch of `AuthHandler.Register`. -/
def registerPost (lib : Lib) (env : Env) (hash : String → Option String) (db : Store)
    (r : Request) : Response × Store :=
  let email := registerEmail lib r
  let username := registerUsername lib r
  let password := TrimSpace (r.FormValue "password")
  match registerCheck email username password with
  | some url => (.Redirect url StatusSeeOther, db)
  | none =>
    if Repository.IsEmailOrUsernameTaken lib db email username then
      (.Redirect takenURL StatusSeeOther, db)
    else
      let user : User := ⟨0, email, username, "", ""⟩
      match Repository.CreateUser lib db user password hash (env.fault 0) with
      | (some _, db1) => (.Redirect "/register?error=Ошибка регистрации" StatusSeeOther, db1)
      | (none, db1) => (.Redirect "/login?success=Регистрация успешна" StatusSeeOther, db1)

/-- Handler `AuthHandler.Register`. -/
def AuthHandler.Register (lib : Lib) (env : Env) (hash : String → Option String) (db : Store)
    (r : Request) : Response × Store :=
  if hasValidSession env db r then (.Redirect "/" StatusSeeOther, db)
  else if r.Method = "GET" then
    if env.tmplOK then (.Template "register.html", db)
    else (.Error "Внутренняя ошибка сервера" StatusInternalServerError, db)
  else if r.Method = "POST" then registerPost lib env hash db r
  else (.Error "Метод не поддерживается" StatusMethodNotAllowed, db)

/-! ## Authentication middleware (`internal/middleware/auth.go`) -/

/-- Repository method `CreateCategory`; the column `name` is `UNIQUE`. -/
def Repository.CreateCategory (db : Store) (name : String) (fail : Bool) : error × Store :=
  if fail then (storageErr, db)
  else if db.categories.any (fun c => c.Name == name) then
    (some "UNIQUE constraint failed: categories.name", db)
  else
    let id := nextID db.seq.categories (db.categories.map (fun c => c.ID))
    (none, { db with
      categories := db.categories ++ [⟨id, name⟩],
      seq := { db.seq with categories := id } })

/-- Handler `CategoryHandler.CreateCategory`. -/
def CategoryHandler.CreateCategory (env : Env) (db : Store) (r : Request) : Response × Store :=
  if r.Method ≠ "POST" then
    (.ErrorPage StatusMethodNotAllowed "405 Method Not Allowed" "Метод не поддерживается", db)
  else
    let role := ctxRoleString r
    if role ≠ "admin" then (.ErrorPage StatusForbidden "403 Forbidden" "Доступ запрещён", db)
    else
      let name := r.FormValue "name"
      if name = "" then
        (.Redirect "/categories?error=Введите название категории" StatusSeeOther, db)
      else
        match Repository.CreateCategory db name (env.fault 0) with
        | (some _, db1) =>
          (.Redirect "/categories?error=Ошибка создания категории" StatusSeeOther, db1)
        | (none, db1) => (.Redirect "/categories?success=Категория создана" StatusSeeOther, db1)

/-! ## Vocabulary of the stated properties, continued -/

/-- Two form values are equal up to letter case: lower-casing makes them
equal. -/
def sameUpToCase (lib : Lib) (a b : String) : Prop := lib.ToLower a = lib.ToLower b

/-- The vote-uniqueness invariant: every (voter, target) pair has at most one
vote row. -/
def votesUnique (db : Store) : Prop :=
  ∀ (voter : Int) (target : Target), (pairRows db voter target).length ≤ 1

/-! ## Concrete data, continued -/

/-- A stand-in for `bcrypt.GenerateFromPassword` that returns the password. -/
def toyHash : String → Option String := fun password => some password

/-- The example store with no user registered yet. -/
def exNoUsers : Store := { exStore with users := [], seq := ⟨0, 1, 1, 1, 0, 1, 0, 1⟩ }

/-- A request that carries alice's session cookie. -/
def exCookieReq : Request := ⟨"GET", some "t1", none, none, fun _ => "", fun _ => ""⟩

/-- A moderator asks for the category `News`. -/
def exCategoryReq : Request :=
  ⟨"POST", none, some 2, some "moderator", fun _ => "", fun _ => "News"⟩

/-- The example store with a vote of alice on comment 1, a comment of post 1. -/
def exCommentVoteStore : Store :=
  { exStore with likes := [⟨1, 1, none, some 1, true⟩], seq := ⟨2, 1, 1, 1, 1, 1, 0, 1⟩ }

/-! ## Repository: the remaining write methods -/

/-- Repository method `CreatePost`: the new id and the error. -/
def Repository.CreatePost (db : Store) (post : Post) (fail : Bool) : (Int × error) × Store :=
  if fail then ((0, storageErr), db)
  else
    let id := nextID db.seq.posts (db.posts.map (fun p => p.ID))
    let row : Post := ⟨id, post.UserID, post.Title, post.Content⟩
    ((id, none), { db with posts := db.posts ++ [row], seq := { db.seq with posts := id } })

/-- Repository method `AddPostCategory`. -/
def Repository.AddPostCategory (db : Store) (postID categoryID : Int) (fail : Bool) :
    error × Store :=
  if fail then (storageErr, db)
  else (none, { db with post_categories := db.post_categories ++ [⟨postID, categoryID⟩] })

/-- Repository method `AddImage`. -/
def Repository.AddImage (db : Store) (postID : Int) (filePath : String) (fail : Bool) :
    error × Store :=
  if fail then (storageErr, db)
  else
    let id := nextID db.seq.images (db.images.map (fun i => i.ID))
    (none, { db with images := db.images ++ [⟨id, postID, filePath⟩],
                     seq := { db.seq with images := id } })

/-- Repository method `MarkNotificationRead`. -/
def Repository.MarkNotificationRead (db : Store) (notificationID : Int) (fail : Bool) :
    error × Store :=
  if fail then (storageErr, db)
  else (none, { db with notifications := db.notifications.map (fun n =>
    if n.ID == notificationID then { n with IsRead := true } else n) })

/-- Repository method `CreateReport`. -/
def Repository.CreateReport (db : Store) (reporterID : Int) (postID commentID : Option Int)
    (reason : String) (fail : Bool) : error × Store :=
  if fail then (storageErr, db)
  else
    let id := nextID db.seq.reports (db.reports.map (fun r => r.ID))
    let row : Report := ⟨id, reporterID, postID, commentID, reason, "open"⟩
    (none, { db with reports := db.reports ++ [row], seq := { db.seq with reports := id } })

/-- Repository method `CloseReport`. -/
def Repository.CloseReport (db : Store) (reportID : Int) (fail : Bool) : error × Store :=
  if fail then (storageErr, db)
  else (none, { db with reports := db.reports.map (fun r =>
    if r.ID == reportID then { r with Status := "closed" } else r) })

/-- One `INSERT OR IGNORE INTO categories (name)` of `RunMigrations`. -/
def insertCategoryOrIgnore (db : Store) (name : String) : Store :=
  if db.categories.any (fun c => c.Name == name) then db
  else
    let id := nextID db.seq.categories (db.categories.map (fun c => c.ID))
    { db with categories := db.categories ++ [⟨id, name⟩],
              seq := { db.seq with categories := id } }

/-- Repository method `RunMigrations` on a database whose tables exist: the
`CREATE TABLE IF NOT EXISTS` statements change nothing; the three initial
categories are inserted unless present.  `fault 0` fails one of the table
statements, `fault 1` to `fault 3` fail the category inserts in order; the
statements before a failed one stay applied. -/
def Repository.RunMigrations (db : Store) (fault : Nat → Bool) : error × Store :=
  if fault 0 then (storageErr, db)
  else if fault 1 then (storageErr, db)
  else
    let db1 := insertCategoryOrIgnore db "Programming"
    if fault 2 then (storageErr, db1)
    else
      let db2 := insertCategoryOrIgnore db1 "Games"
      if fault 3 then (storageErr, db2)
      else (none, insertCategoryOrIgnore db2 "General")

/-- A call of one of the repository methods that write to the database, with
its arguments. -/
inductive RepoWrite where
  | CreateUser (user : User) (plainPassword : String) (hash : String → Option String)
      (fail : Bool)
  | CreateSession (session : Session) (fail : Bool)
  | DeleteSession (sessionID : String) (fail : Bool)
  | DeleteUserSessions (userID : Int) (exceptSessionID : String) (fail : Bool)
  | CleanExpiredSessions (now : Time) (fail : Bool)
  | CreatePost (post : Post) (fail : Bool)
  | AddPostCategory (postID categoryID : Int) (fail : Bool)
  | CreateLike (like : Like) (fail : Bool)
  | CreateComment (comment : Comment) (fail : Bool)
  | DeleteComment (commentID : Int) (fail : Bool)
  | UpdateComment (commentID : Int) (newContent : String) (fail : Bool)
  | CreateCategory (name : String) (fail : Bool)
  | UpdatePost (postID : Int) (title content : String) (fail : Bool)
  | DeletePost (postID : Int) (fault : Nat → Bool)
  | AddImage (postID : Int) (filePath : String) (fail : Bool)
  | CreateNotification (userID : Int) (notifType : String)
      (fromUserID postID commentID : Option Int) (fail : Bool)
  | MarkNotificationRead (notificationID : Int) (fail : Bool)
  | CreateReport (reporterID : Int) (postID commentID : Option Int) (reason : String)
      (fail : Bool)
  | CloseReport (reportID : Int) (fail : Bool)
  | RunMigrations (fault : Nat → Bool)

/-- The store after a repository write. -/
def RepoWrite.run (lib : Lib) (db : Store) : RepoWrite → Store
  | .CreateUser user plainPassword hash fail =>
    (Repository.CreateUser lib db user plainPassword hash fail).2
  | .CreateSession session fail => (Repository.CreateSession db session fail).2
  | .DeleteSession sessionID fail => (Repository.DeleteSession db sessionID fail).2
  | .DeleteUserSessions userID exceptSessionID fail =>
    (Repository.DeleteUserSessions db userID exceptSessionID fail).2
  | .CleanExpiredSessions now fail => (Repository.CleanExpiredSessions db now fail).2
  | .CreatePost post fail => (Repository.CreatePost db post fail).2
  | .AddPostCategory postID categoryID fail =>
    (Repository.AddPostCategory db postID categoryID fail).2
  | .CreateLike like fail => (Repository.CreateLike db like fail).2
  | .CreateComment comment fail => (Repository.CreateComment db comment fail).2
  | .DeleteComment commentID fail => (Repository.DeleteComment db commentID fail).2
  | .UpdateComment commentID newContent fail =>
    (Repository.UpdateComment db commentID newContent fail).2
  | .CreateCategory name fail => (Repository.CreateCategory db name fail).2
  | .UpdatePost postID title content fail =>
    (Repository.UpdatePost db postID title content fail).2
  | .DeletePost postID fault => (Repository.DeletePost db postID fault).2
  | .AddImage postID filePath fail => (Repository.AddImage db postID filePath fail).2
  | .CreateNotification userID notifType fromUserID postID commentID fail =>
    (Repository.CreateNotification db userID notifType fromUserID postID commentID fail).2
  | .MarkNotificationRead notificationID fail =>
    (Repository.MarkNotificationRead db notificationID fail).2
  | .CreateReport reporterID postID commentID reason fail =>
    (Repository.CreateReport db reporterID postID commentID reason fail).2
  | .CloseReport reportID fail => (Repository.CloseReport db reportID fail).2
  | .RunMigrations fault => (Repository.RunMigrations db fault).2

/-! ## Reports (`internal/handlers/reports.go`) -/

/-- Handler `ReportHandler.SubmitReport`; `referer` is `r.Referer()`. -/
def ReportHandler.SubmitReport (env : Env) (referer : String) (db : Store) (r : Request) :
    Response × Store :=
  if r.Method ≠ "POST" then (.Error "Метод не поддерживается" StatusMethodNotAllowed, db)
  else
    match r.ctxUserID with
    | none => (.Redirect "/login?error=Требуется авторизация" StatusSeeOther, db)
    | some userID =>
      let postIDStr := r.FormValue "post_id"
      let commentIDStr := r.FormValue "comment_id"
      let reason := r.FormValue "reason"
      if reason = "" then (.Redirect (referer ++ "?error=Укажите причину") StatusSeeOther, db)
      else
        let postIDPtr : Option Int := if postIDStr ≠ "" then Atoi postIDStr else none
        let commentIDPtr : Option Int := if commentIDStr ≠ "" then Atoi commentIDStr else none
        if postIDPtr = none ∧ commentIDPtr = none then
          (.Redirect "/?error=Ошибка жалобы" StatusSeeOther, db)
        else
          match Repository.CreateReport db userID postIDPtr commentIDPtr reason (env.fault 0) with
          | (some _, db1) => (.Redirect "/?error=Ошибка создания жалобы" StatusSeeOther, db1)
          | (none, db1) => (.Redirect "/?success=Жалоба отправлена" StatusSeeOther, db1)

/-! ## The throttle table over a sequence of requests -/

/-- The throttle table after a sequence of `Login` requests served one after
the other, each with its own environment and against whatever the database is
when it is served. -/
def loginTable (lib : Lib) (m : String → Option (List Int)) :
    List (Env × Store × Request) → String → Option (List Int)
  | [] => m
  | (env, db, r) :: rest =>
    loginTable lib (AuthHandler.Login lib env ⟨db, m⟩ r).2.loginAttempts rest

/-- The empty throttle table. -/
def emptyTable : String → Option (List Int) := fun _ => none

/-! ## Concrete data for the throttle, reports and registration -/

/-- A login form for a name nobody registered. -/
def exLoginCarol : Request :=
  ⟨"POST", none, none, none, fun _ => "", fun k => if k = "username" then "carol" else "guess"⟩

/-- A login form for carol with another password. -/
def exLoginCarolAgain : Request :=
  ⟨"POST", none, none, none, fun _ => "", fun k => if k = "username" then "carol" else "other"⟩

/-- A login form for bob with a wrong password. -/
def exLoginBobWrong : Request :=
  ⟨"POST", none, none, none, fun _ => "", fun k => if k = "username" then "bob" else "guess"⟩

/-- An environment like `exEnv` whose throttle clock reads `t`. -/
def exEnvAt (t : Int) : Env := ⟨0, t, 0, "t2", true, fun _ => false, fun _ => 0⟩

/-- Six login attempts for carol at instants 0 to 5. -/
def exSixAttempts : List (Env × Store × Request) :=
  [(exEnvAt 0, exStore, exLoginCarol), (exEnvAt 1, exStore, exLoginCarol),
   (exEnvAt 2, exStore, exLoginCarol), (exEnvAt 3, exStore, exLoginCarol),
   (exEnvAt 4, exStore, exLoginCarol), (exEnvAt 5, exStore, exLoginCarol)]

/-- A report form that names both a post and a comment. -/
def exReportBoth : Request :=
  ⟨"POST", none, some 1, some "user", fun _ => "",
   fun k => if k = "post_id" then "1" else if k = "comment_id" then "1" else "spam"⟩

/-- Dave's registration form: the password has a blank on either side. -/
def exRegisterDave : Request :=
  ⟨"POST", none, none, none, fun _ => "",
   fun k => if k = "email" then "d@x.com" else if k = "username" then "dave" else " secret1 "⟩

/-- Dave's login form, with the user name and password he registered with. -/
def exLoginDave : Request :=
  ⟨"POST", none, none, none, fun _ => "",
   fun k => if k = "username" then "dave" else " secret1 "⟩

/-! ## Concrete data for a change of the zone offset -/

/-- The offsets of `America/New_York` in the autumn of 2000: four hours west
of UTC until 2000-10-29 06:00:00 UTC, five hours west from then on. -/
def exZone : Int → Int := fun t => if t < 972799200000000000 then -14400 else -18000

/-- A server in that zone serving a login at 2000-10-28 06:30:00 UTC (02:30
local time); everything else as in `exEnv`. -/
def exAutumnEnv : Env := ⟨0, 5, 972714600000000000, "t2", true, fun _ => false, exZone⟩

/-- Alice holds a session that expires at 2000-10-29 06:30:00 UTC: 01:30 local
time, after the clocks went back. -/
def exAutumnStore : Store :=
  { exStore with sessions := [⟨"t1", 1, ⟨972801000000000000, -18000⟩⟩] }

/-- Alice holds a session that expires at 2000-10-29 05:50:00 UTC: 01:50 local
time, before the clocks go back. -/
def exSummerStore : Store :=
  { exStore with sessions := [⟨"t1", 1, ⟨972798600000000000, -14400⟩⟩] }

/-! # Properties -/

/-! ## Ownership guard -/

theorem guard_iff (ownerID userID : Int) (role : String) :
    (ownerID ≠ userID ∧ role ≠ "admin" ∧ role ≠ "moderator") ↔
      ¬ permitted ownerID userID role := by
  unfold permitted
  constructor
  · rintro ⟨h1, h2, h3⟩ (h | h | h)
    · exact h1 h.symm
    · exact h3 h
    · exact h2 h
  · intro h
    exact ⟨fun e => h (Or.inl e.symm), fun e => h (Or.inr (Or.inr e)),
      fun e => h (Or.inr (Or.inl e))⟩

theorem EditPost_guard (env : Env) (db : Store) (r : Request) (userID id : Int) (post : Post)
    (hauth : r.ctxUserID = some userID) (hid : Atoi (r.Query "id") = some id) (hpos : 0 < id)
    (hp : Repository.GetPostByID db id = some post) :
    ((PostHandler.EditPost env db r).1.code = StatusForbidden ↔
      ¬ permitted post.UserID userID (ctxRoleString r)) ∧
    (¬ permitted post.UserID userID (ctxRoleString r) → (PostHandler.EditPost env db r).2 = db) := by
  have hpos' : ¬ id ≤ 0 := not_le.mpr hpos
  unfold PostHandler.EditPost
  simp only [hauth, hid, hp, hpos', if_false]
  by_cases h : post.UserID ≠ userID ∧ ctxRoleString r ≠ "admin" ∧ ctxRoleString r ≠ "moderator"
  · rw [if_pos h]
    exact ⟨⟨fun _ => (guard_iff _ _ _).1 h, fun _ => rfl⟩, fun _ => rfl⟩
  · rw [if_neg h]
    have hperm : ¬ ¬ permitted post.UserID userID (ctxRoleString r) :=
      fun hc => h ((guard_iff _ _ _).2 hc)
    refine ⟨⟨fun hc => ?_, fun hc => absurd hc hperm⟩, fun hc => absurd hc hperm⟩
    exfalso
    revert hc
    split_ifs <;> (try split) <;>
      simp [Response.code, StatusInternalServerError, StatusSeeOther, StatusMethodNotAllowed,
        StatusForbidden]

theorem DeletePost_guard (env : Env) (db : Store) (r : Request) (userID id : Int) (post : Post)
    (hauth : r.ctxUserID = some userID) (hid : Atoi (r.Query "id") = some id) (hpos : 0 < id)
    (hp : Repository.GetPostByID db id = some post) :
    (r.Method = "DELETE" → ((PostHandler.DeletePost env db r).1.code = StatusForbidden ↔
      ¬ permitted post.UserID userID (ctxRoleString r))) ∧
    (¬ permitted post.UserID userID (ctxRoleString r) → (PostHandler.DeletePost env db r).2 = db) := by
  have hpos' : ¬ id ≤ 0 := not_le.mpr hpos
  unfold PostHandler.DeletePost
  by_cases hm : r.Method ≠ "DELETE"
  · rw [if_pos hm]
    exact ⟨fun e => absurd e hm, fun _ => rfl⟩
  rw [if_neg hm]
  simp only [hauth, hid, hp, hpos', if_false]
  by_cases h : post.UserID ≠ userID ∧ ctxRoleString r ≠ "admin" ∧ ctxRoleString r ≠ "moderator"
  · rw [if_pos h]
    exact ⟨fun _ => ⟨fun _ => (guard_iff _ _ _).1 h, fun _ => rfl⟩, fun _ => rfl⟩
  · rw [if_neg h]
    have hperm : ¬ ¬ permitted post.UserID userID (ctxRoleString r) :=
      fun hc => h ((guard_iff _ _ _).2 hc)
    refine ⟨fun _ => ⟨fun hc => ?_, fun hc => absurd hc hperm⟩, fun hc => absurd hc hperm⟩
    exfalso
    revert hc
    split <;> simp [Response.code, StatusSeeOther, StatusForbidden]

theorem DeleteComment_guard (env : Env) (db : Store) (r : Request) (userID id : Int)
    (c : Comment)
    (hauth : r.ctxUserID = some userID) (hid : Atoi (r.Query "id") = some id) (hpos : 0 < id)
    (hp : Repository.GetCommentByID db id = some c) :
    ((CommentHandler.DeleteComment env db r).1.code = StatusForbidden ↔
      ¬ permitted c.UserID userID (ctxRoleString r)) ∧
    (¬ permitted c.UserID userID (ctxRoleString r) → (CommentHandler.DeleteComment env db r).2 = db) := by
  have hpos' : ¬ id ≤ 0 := not_le.mpr hpos
  unfold CommentHandler.DeleteComment
  simp only [hauth, hid, hp, hpos', if_false]
  by_cases h : c.UserID ≠ userID ∧ ctxRoleString r ≠ "admin" ∧ ctxRoleString r ≠ "moderator"
  · rw [if_pos h]
    exact ⟨⟨fun _ => (guard_iff _ _ _).1 h, fun _ => rfl⟩, fun _ => rfl⟩
  · rw [if_neg h]
    have hperm : ¬ ¬ permitted c.UserID userID (ctxRoleString r) :=
      fun hc => h ((guard_iff _ _ _).2 hc)
    refine ⟨⟨fun hc => ?_, fun hc => absurd hc hperm⟩, fun hc => absurd hc hperm⟩
    exfalso
    revert hc
    split <;> simp [Response.code, StatusSeeOther, StatusForbidden]

theorem EditComment_guard (env : Env) (db : Store) (r : Request) (userID id : Int) (c : Comment)
    (hauth : r.ctxUserID = some userID) (hid : Atoi (r.Query "id") = some id) (hpos : 0 < id)
    (hp : Repository.GetCommentByID db id = some c) :
    ((CommentHandler.EditComment env db r).1.code = StatusForbidden ↔
      ¬ permitted c.UserID userID (ctxRoleString r)) ∧
    (¬ permitted c.UserID userID (ctxRoleString r) → (CommentHandler.EditComment env db r).2 = db) := by
  have hpos' : ¬ id ≤ 0 := not_le.mpr hpos
  unfold CommentHandler.EditComment
  simp only [hauth, hid, hp, hpos', if_false]
  by_cases h : c.UserID ≠ userID ∧ ctxRoleString r ≠ "admin" ∧ ctxRoleString r ≠ "moderator"
  · rw [if_pos h]
    exact ⟨⟨fun _ => (guard_iff _ _ _).1 h, fun _ => rfl⟩, fun _ => rfl⟩
  · rw [if_neg h]
    have hperm : ¬ ¬ permitted c.UserID userID (ctxRoleString r) :=
      fun hc => h ((guard_iff _ _ _).2 hc)
    refine ⟨⟨fun hc => ?_, fun hc => absurd hc hperm⟩, fun hc => absurd hc hperm⟩
    exfalso
    revert hc
    split_ifs <;> (try split) <;>
      simp [Response.code, StatusInternalServerError, StatusSeeOther, StatusForbidden]

/-- C1: for `EditPost`, `DeletePost`, `EditComment` and `DeleteComment`, an
authenticated actor and an existing resource named by the request: the handler
answers 403 Forbidden exactly when the actor is neither the owner nor a
moderator nor an administrator, and for such an actor the store is left
exactly as it was.  `EditPost`, `EditComment` and `DeleteComment` reach the
guard whatever the method; `DeletePost` reaches it on a `DELETE` request (any
other method is turned away before the guard, the store unchanged as well). -/
theorem C1_ownership_guard (env : Env) (db : Store) (r : Request) (actor id : Int)
    (hauth : r.ctxUserID = some actor) (hid : Atoi (r.Query "id") = some id) (hpos : 0 < id) :
    (∀ post, Repository.GetPostByID db id = some post →
      ((PostHandler.EditPost env db r).1.code = StatusForbidden ↔
        ¬ permitted post.UserID actor (ctxRoleString r)) ∧
      (¬ permitted post.UserID actor (ctxRoleString r) → (PostHandler.EditPost env db r).2 = db) ∧
      (r.Method = "DELETE" → ((PostHandler.DeletePost env db r).1.code = StatusForbidden ↔
        ¬ permitted post.UserID actor (ctxRoleString r))) ∧
      (¬ permitted post.UserID actor (ctxRoleString r) →
        (PostHandler.DeletePost env db r).2 = db)) ∧
    (∀ comment, Repository.GetCommentByID db id = some comment →
      ((CommentHandler.EditComment env db r).1.code = StatusForbidden ↔
        ¬ permitted comment.UserID actor (ctxRoleString r)) ∧
      (¬ permitted comment.UserID actor (ctxRoleString r) → (CommentHandler.EditComment env db r).2 = db) ∧
      ((CommentHandler.DeleteComment env db r).1.code = StatusForbidden ↔
        ¬ permitted comment.UserID actor (ctxRoleString r)) ∧
      (¬ permitted comment.UserID actor (ctxRoleString r) →
        (CommentHandler.DeleteComment env db r).2 = db)) := by
  constructor
  · intro post hp
    obtain ⟨e1, e2⟩ := EditPost_guard env db r actor id post hauth hid hpos hp
    obtain ⟨d1, d2⟩ := DeletePost_guard env db r actor id post hauth hid hpos hp
    exact ⟨e1, e2, d1, d2⟩
  · intro comment hp
    obtain ⟨e1, e2⟩ := EditComment_guard env db r actor id comment hauth hid hpos hp
    obtain ⟨d1, d2⟩ := DeleteComment_guard env db r actor id comment hauth hid hpos hp
    exact ⟨e1, e2, d1, d2⟩

/-- Instance of C1: alice, an ordinary user, addresses post 1 and comment 1,
which belong to bob; all four handlers answer 403 and leave the store alone. -/
theorem C1_ownership_guard_witness :
    (PostHandler.EditPost exEnv exStore exDeleteReq).1.code = StatusForbidden ∧
    (PostHandler.EditPost exEnv exStore exDeleteReq).2 = exStore ∧
    (PostHandler.DeletePost exEnv exStore exDeleteReq).1.code = StatusForbidden ∧
    (PostHandler.DeletePost exEnv exStore exDeleteReq).2 = exStore ∧
    (CommentHandler.EditComment exEnv exStore exDeleteReq).1.code = StatusForbidden ∧
    (CommentHandler.EditComment exEnv exStore exDeleteReq).2 = exStore ∧
    (CommentHandler.DeleteComment exEnv exStore exDeleteReq).1.code = StatusForbidden ∧
    (CommentHandler.DeleteComment exEnv exStore exDeleteReq).2 = exStore := by
  have hn : ¬ permitted 2 1 "user" := by unfold permitted; decide
  obtain ⟨hp, hc⟩ := C1_ownership_guard exEnv exStore exDeleteReq 1 1 rfl (by decide) (by decide)
  obtain ⟨e1, e2, d1, d2⟩ := hp ⟨1, 2, "Hello", "First post"⟩ (by decide)
  obtain ⟨c1, c2, c3, c4⟩ := hc ⟨1, 1, 2, "hi"⟩ (by decide)
  exact ⟨e1.2 hn, e2 hn, (d1 rfl).2 hn, d2 hn, c1.2 hn, c2 hn, c3.2 hn, c4 hn⟩

/-! ## Login throttle -/

theorem Sub_lt_block (now t : Int) : Sub now t < loginBlockDuration ↔ now - t < 10 * Minute := by
  unfold Sub loginBlockDuration Minute maxInt64 minInt64
  split_ifs <;> omega

theorem recentAttempts_eq (l : List Int) (now : Int) :
    recentAttempts l now = l.filter (fun t => decide (now - t < 10 * Minute)) := by
  unfold recentAttempts
  congr 1
  funext t
  simp only [Sub_lt_block]

theorem Login_post (lib : Lib) (env : Env) (st : State) (r : Request)
    (hm : r.Method = "POST") (hs : hasValidSession env st.db r = false) :
    AuthHandler.Login lib env st r = loginPost lib env st r := by
  unfold AuthHandler.Login
  simp [hm, hs]

theorem loginPost_blocked_iff (lib : Lib) (env : Env) (st : State) (r : Request) :
    (loginPost lib env st r).1 = .Redirect tooManyAttemptsURL StatusSeeOther ↔
      5 ≤ (recentAttempts (attemptsOf st.loginAttempts (loginUsername lib r)) env.now).length := by
  unfold loginPost
  simp only [maxLoginAttempts, ge_iff_le]
  by_cases h : 5 ≤ (recentAttempts (attemptsOf st.loginAttempts (loginUsername lib r)) env.now).length
  · rw [if_pos h]
    exact ⟨fun _ => h, fun _ => rfl⟩
  · rw [if_neg h]
    refine ⟨fun hc => ?_, fun hc => absurd hc h⟩
    exfalso
    revert hc
    have hne : badCredentialsURL ≠ tooManyAttemptsURL := by decide
    have hne2 : "/login?error=Ошибка входа" ≠ tooManyAttemptsURL := by decide
    split
    · simp [hne]
    · split_ifs
      · simp [hne]
      · split <;> simp [hne2]

theorem loginPost_blocked (lib : Lib) (env : Env) (st : State) (r : Request)
    (h : 5 ≤ (recentAttempts (attemptsOf st.loginAttempts (loginUsername lib r)) env.now).length) :
    loginPost lib env st r = (.Redirect tooManyAttemptsURL StatusSeeOther, st) := by
  unfold loginPost
  simp only [maxLoginAttempts, ge_iff_le, if_pos h]

/-- C2: a login `POST` (from a client that is not already logged in) is
rejected by the throttle exactly when the failure list stored for the
normalised user name holds at least 5 instants `t` with `now - t` under ten
minutes.  With exactly five recorded failures `t1 ≤ ... ≤ t5` the attempt is
rejected at every `now` with `now - t1` under ten minutes, and is not rejected
once `now - t1` has reached ten minutes. -/
theorem C2_throttle_window (lib : Lib) (env : Env) (st : State) (r : Request)
    (hm : r.Method = "POST") (hs : hasValidSession env st.db r = false) :
    ((AuthHandler.Login lib env st r).1 = .Redirect tooManyAttemptsURL StatusSeeOther ↔
      5 ≤ ((attemptsOf st.loginAttempts (loginUsername lib r)).filter
            (fun t => decide (env.now - t < 10 * Minute))).length) ∧
    (∀ t1 t2 t3 t4 t5 : Int,
      attemptsOf st.loginAttempts (loginUsername lib r) = [t1, t2, t3, t4, t5] →
      t1 ≤ t2 → t2 ≤ t3 → t3 ≤ t4 → t4 ≤ t5 →
      (env.now - t1 < 10 * Minute →
        (AuthHandler.Login lib env st r).1 = .Redirect tooManyAttemptsURL StatusSeeOther) ∧
      (10 * Minute ≤ env.now - t1 →
        (AuthHandler.Login lib env st r).1 ≠ .Redirect tooManyAttemptsURL StatusSeeOther)) := by
  rw [Login_post lib env st r hm hs]
  refine ⟨by rw [loginPost_blocked_iff, recentAttempts_eq], ?_⟩
  intro t1 t2 t3 t4 t5 hl h12 h23 h34 h45
  constructor
  · intro hin
    rw [loginPost_blocked_iff, recentAttempts_eq, hl]
    have e1 : decide (env.now - t1 < 10 * Minute) = true := by simpa using hin
    have e2 : decide (env.now - t2 < 10 * Minute) = true := by
      simp only [decide_eq_true_eq]; omega
    have e3 : decide (env.now - t3 < 10 * Minute) = true := by
      simp only [decide_eq_true_eq]; omega
    have e4 : decide (env.now - t4 < 10 * Minute) = true := by
      simp only [decide_eq_true_eq]; omega
    have e5 : decide (env.now - t5 < 10 * Minute) = true := by
      simp only [decide_eq_true_eq]; omega
    simp [List.filter, e1, e2, e3, e4, e5]
  · intro hout hc
    rw [loginPost_blocked_iff, recentAttempts_eq, hl] at hc
    have e1 : ¬ (decide (env.now - t1 < 10 * Minute) = true) := by
      simp only [decide_eq_true_eq]; omega
    have hle : ([t2, t3, t4, t5].filter (fun t => decide (env.now - t < 10 * Minute))).length ≤ 4 :=
      List.length_filter_le _ _
    rw [List.filter_cons, if_neg e1] at hc
    omega

/-- Instance of C2: five failures for bob at instants 0 to 4 and a login for
`" Bob"` at instant 5 is rejected. -/
theorem C2_throttle_window_witness :
    (AuthHandler.Login toyLib exEnv exThrottled exLoginBob).1 =
      .Redirect tooManyAttemptsURL StatusSeeOther :=
  ((C2_throttle_window toyLib exEnv exThrottled exLoginBob rfl rfl).2 0 1 2 3 4
    (by decide) (by decide) (by decide) (by decide) (by decide)).1 (by decide)

/-- C3: while the throttle is engaged for a user name, a login `POST` is
answered with the too-many-attempts redirect whatever password it carries and
whatever the password check would say; the server state, that is the database
(no session is created) and the whole failure table (nothing appended, nothing
pruned), is exactly what it was, so blocked attempts do not move the end of
the block. -/
theorem C3_blocked_attempt (lib : Lib) (env : Env) (st : State) (r : Request)
    (hm : r.Method = "POST") (hs : hasValidSession env st.db r = false)
    (hengaged : 5 ≤ ((attemptsOf st.loginAttempts (loginUsername lib r)).filter
            (fun t => decide (env.now - t < 10 * Minute))).length) :
    AuthHandler.Login lib env st r = (.Redirect tooManyAttemptsURL StatusSeeOther, st) := by
  rw [Login_post lib env st r hm hs]
  apply loginPost_blocked
  rw [recentAttempts_eq]
  exact hengaged

/-- Instance of C3: bob is throttled and submits his correct password. -/
theorem C3_blocked_attempt_witness :
    toyLib.CompareHashAndPassword "secret2" (exLoginBob.FormValue "password") = true ∧
    AuthHandler.Login toyLib exEnv exThrottled exLoginBob =
      (.Redirect tooManyAttemptsURL StatusSeeOther, exThrottled) :=
  ⟨by decide, C3_blocked_attempt toyLib exEnv exThrottled exLoginBob rfl rfl (by decide)⟩

/-! ## Sessions -/

theorem Time.textLess_asymm (a b : Time) (h : a.textLess b = true) : b.textLess a = false := by
  unfold Time.textLess at h ⊢
  simp only [Bool.or_eq_true, Bool.and_eq_true, decide_eq_true_eq, beq_iff_eq] at h
  simp only [Bool.or_eq_false_iff, Bool.and_eq_false_iff, decide_eq_false_iff_not, beq_eq_false_iff_ne]
  omega

/-- Times expressed with the same offset are ordered by their texts as by
their instants. -/
theorem Time.textLess_same_offset (a b : Time) (h : a.offset = b.offset) :
    a.textLess b = decide (a.ns < b.ns) := by
  have hz : a.zoneKey = b.zoneKey := by unfold Time.zoneKey; rw [h]
  unfold Time.textLess Time.wall
  rw [hz, h]
  by_cases hlt : a.ns < b.ns
  · have : a.ns + b.offset * 1000000000 < b.ns + b.offset * 1000000000 := by omega
    simp [hlt, this]
  · have : ¬ a.ns + b.offset * 1000000000 < b.ns + b.offset * 1000000000 := by omega
    simp [hlt, this]

theorem Login_success (lib : Lib) (env : Env) (st : State) (r : Request)
    (n T2 url : String) (exp : Int) (code : Nat)
    (hok : (AuthHandler.Login lib env st r).1 = .CookieRedirect n T2 exp url code) :
    ∃ user, Repository.GetUserByUsername lib st.db (loginUsername lib r) = some user ∧
      T2 = env.uuid ∧ exp = env.tIssue + 24 * Hour ∧
      st.db.sessions.any (fun s => s.SessionID == T2) = false ∧
      env.fault 0 = false ∧
      (AuthHandler.Login lib env st r).2.db =
        (Repository.DeleteUserSessions
          { st.db with sessions := st.db.sessions ++ [⟨T2, user.ID, env.localTime exp⟩] }
          user.ID T2 (env.fault 1)).2 := by
  have hs : hasValidSession env st.db r = false := by
    by_contra h
    simp [AuthHandler.Login, h] at hok
  have hm : r.Method = "POST" := by
    by_contra h
    unfold AuthHandler.Login at hok
    simp only [hs, h] at hok
    split_ifs at hok
  rw [Login_post lib env st r hm hs] at hok ⊢
  unfold loginPost at hok ⊢
  simp only at hok ⊢
  by_cases h4 : (recentAttempts (attemptsOf st.loginAttempts (loginUsername lib r))
      env.now).length ≥ maxLoginAttempts
  · rw [if_pos h4] at hok
    simp at hok
  · rw [if_neg h4] at hok ⊢
    cases huser : Repository.GetUserByUsername lib st.db (loginUsername lib r) with
    | none =>
      rw [huser] at hok
      simp at hok
    | some user =>
      rw [huser] at hok
      simp only at hok ⊢
      by_cases h5 : (!lib.CompareHashAndPassword user.PasswordHash (r.FormValue "password")) = true
      · rw [if_pos h5] at hok
        simp at hok
      · rw [if_neg h5] at hok ⊢
        unfold Repository.CreateSession at hok ⊢
        by_cases h6 : env.fault 0 = true
        · simp [h6, storageErr] at hok
        · by_cases h7 : (st.db.sessions.any (fun s => s.SessionID == env.uuid)) = true
          · simp [h6, h7] at hok
          · simp only [h6, h7, if_false, Bool.false_eq_true] at hok ⊢
            simp only [Response.CookieRedirect.injEq] at hok
            obtain ⟨_, hT, hE, _, _⟩ := hok
            subst hT hE
            refine ⟨user, rfl, rfl, rfl, ?_, ?_, rfl⟩
            · simpa using h7
            · trivial

/-- After a successful login of user `U` that issues token `T2` (the session
insert succeeded, the deletion of the other sessions did not fail), in a store
whose session ids are unique: `GetSession(T1)` fails at every reading of the
clock for every other token `T1` that was issued to `U`; `GetSession(T2)`
returns the new session exactly at the readings whose text sorts before the
text of the expiry; and the rows of `U` in the sessions table are exactly that
one new row. -/
theorem Login_single_session (lib : Lib) (env : Env) (st : State) (r : Request)
    (T2 url : String) (exp : Int) (code : Nat)
    (hwf : (st.db.sessions.map (fun s => s.SessionID)).Nodup)
    (hok : (AuthHandler.Login lib env st r).1 = .CookieRedirect "session_id" T2 exp url code)
    (hdel : env.fault 1 = false) :
    ∃ user, Repository.GetUserByUsername lib st.db (loginUsername lib r) = some user ∧
      T2 = env.uuid ∧ exp = env.tIssue + 24 * Hour ∧
      (∀ T1, T1 ≠ T2 → (∃ s ∈ st.db.sessions, s.SessionID = T1 ∧ s.UserID = user.ID) →
        ∀ t, Repository.GetSession (AuthHandler.Login lib env st r).2.db T1 t = none) ∧
      (∀ t : Time, Repository.GetSession (AuthHandler.Login lib env st r).2.db T2 t =
        if t.textLess (env.localTime exp) then some ⟨T2, user.ID, env.localTime exp⟩ else none) ∧
      (AuthHandler.Login lib env st r).2.db.sessions.filter (fun s => s.UserID == user.ID) =
        [⟨T2, user.ID, env.localTime exp⟩] := by
  obtain ⟨user, hu, hT, hE, hfresh, _, hdb⟩ := Login_success lib env st r _ T2 url exp code hok
  refine ⟨user, hu, hT, hE, ?_⟩
  rw [hdb]
  unfold Repository.DeleteUserSessions
  simp only [hdel, Bool.false_eq_true, if_false]
  have hfresh' : ∀ x ∈ st.db.sessions, x.SessionID ≠ T2 := by
    intro x hx
    have := List.any_eq_false.1 hfresh x hx
    simpa using this
  refine ⟨?_, ?_, ?_⟩
  · intro T1 hne ⟨s, hs, hsT, hsU⟩ t
    unfold Repository.GetSession
    rw [List.find?_eq_none]
    intro x hx
    simp only [List.mem_filter, List.mem_append, List.mem_singleton] at hx
    obtain ⟨hx1, hx2⟩ := hx
    rcases hx1 with hx1 | hx1
    · intro hp
      simp only [Bool.and_eq_true, beq_iff_eq] at hp
      have hxs : x = s := List.inj_on_of_nodup_map hwf hx1 hs (by simp [hp.1, hsT])
      subst hxs
      simp [hsU, hsT, hne] at hx2
    · subst hx1
      simp [Ne.symm hne]
  · intro t
    unfold Repository.GetSession
    simp only [List.filter_append, List.find?_append]
    have h1 : List.find? (fun s => s.SessionID == T2 && t.textLess s.Expires)
        (List.filter (fun s => !(s.UserID == user.ID && s.SessionID != T2)) st.db.sessions)
        = none := by
      rw [List.find?_eq_none]
      intro x hx
      have := hfresh' x (List.mem_filter.1 hx).1
      simp [this]
    rw [h1]
    cases hb : t.textLess (env.localTime exp) <;> simp [hb]
  · rw [List.filter_filter, List.filter_append]
    have h1 : List.filter (fun a => a.UserID == user.ID &&
        !(a.UserID == user.ID && a.SessionID != T2)) st.db.sessions = [] := by
      rw [List.filter_eq_nil_iff]
      intro x hx
      have := hfresh' x hx
      simp [this]
    rw [h1]
    simp

/-- C4, evaluation of the code at the failing input: on a server in the zone
`America/New_York`, alice, holding session `"t1"`, logs in at 2000-10-28
06:30:00 UTC.  The login succeeds: it issues `"t2"` with a cookie expiring 24
hours later, at 2000-10-29 06:30:00 UTC, the old token `"t1"` is no longer
accepted, and the row of `"t2"` is the only session row left.  At 2000-10-29
05:45:00 UTC, 45 minutes before that expiry, `GetSession("t2")` fails: the
stored text `2000-10-29 01:30:00-05:00` does not sort after the text
`2000-10-29 01:45:00-04:00` bound for `time.Now()`. -/
theorem C4_token_rejected_before_expiry :
    (AuthHandler.Login toyLib exAutumnEnv exState exLoginAlice).1 =
      .CookieRedirect "session_id" "t2" 972801000000000000 "/?success=Вход выполнен"
        StatusSeeOther ∧
    (AuthHandler.Login toyLib exAutumnEnv exState exLoginAlice).2.db.sessions =
      [⟨"t2", 1, ⟨972801000000000000, -18000⟩⟩] ∧
    Repository.GetSession (AuthHandler.Login toyLib exAutumnEnv exState exLoginAlice).2.db "t1"
      (exAutumnEnv.localTime 972798300000000000) = none ∧
    exAutumnEnv.localTime 972798300000000000 = ⟨972798300000000000, -14400⟩ ∧
    (972798300000000000 : Int) < 972801000000000000 ∧
    Repository.GetSession (AuthHandler.Login toyLib exAutumnEnv exState exLoginAlice).2.db "t2"
      (exAutumnEnv.localTime 972798300000000000) = none := by
  decide

theorem GetSession_isSome_iff (db : Store) (token : String) (now : Time) :
    (∃ s, Repository.GetSession db token now = some s) ↔
      ∃ s ∈ db.sessions, s.SessionID = token ∧ now.textLess s.Expires = true := by
  rw [← Option.isSome_iff_exists]
  unfold Repository.GetSession
  rw [List.find?_isSome]
  simp

/-- When the rows stored for the token carry the offset of `now`,
`GetSession` returns a session exactly when one of them expires at a later
instant than `now`. -/
theorem GetSession_same_offset (db : Store) (token : String) (now : Time)
    (hzone : ∀ s ∈ db.sessions, s.SessionID = token → s.Expires.offset = now.offset) :
    (∃ s, Repository.GetSession db token now = some s) ↔
      ∃ s ∈ db.sessions, s.SessionID = token ∧ now.ns < s.Expires.ns := by
  rw [GetSession_isSome_iff]
  constructor
  · rintro ⟨s, hs, ht, hlt⟩
    rw [Time.textLess_same_offset now s.Expires (hzone s hs ht).symm] at hlt
    exact ⟨s, hs, ht, by simpa using hlt⟩
  · rintro ⟨s, hs, ht, hlt⟩
    refine ⟨s, hs, ht, ?_⟩
    rw [Time.textLess_same_offset now s.Expires (hzone s hs ht).symm]
    simpa using hlt

/-- C5, evaluation of the code at two failing inputs, on a server in the zone
`America/New_York` when daylight saving time ends (2000-10-29 06:00:00 UTC).
A stored session that expires at 06:30:00 UTC is rejected by `GetSession` at
05:45:00 UTC, although its expiry is strictly later: the stored text
`2000-10-29 01:30:00-05:00` does not sort after `2000-10-29 01:45:00-04:00`.
A stored session that expired at 05:50:00 UTC is returned by `GetSession` at
06:10:00 UTC, twenty minutes after its expiry: the stored text
`2000-10-29 01:50:00-04:00` sorts after `2000-10-29 01:10:00-05:00`. -/
theorem C5_text_order_is_not_instant_order :
    exAutumnStore.sessions = [⟨"t1", 1, exAutumnEnv.localTime 972801000000000000⟩] ∧
    (972798300000000000 : Int) < 972801000000000000 ∧
    Repository.GetSession exAutumnStore "t1" (exAutumnEnv.localTime 972798300000000000) =
      none ∧
    exSummerStore.sessions = [⟨"t1", 1, exAutumnEnv.localTime 972798600000000000⟩] ∧
    (972798600000000000 : Int) ≤ 972799800000000000 ∧
    Repository.GetSession exSummerStore "t1" (exAutumnEnv.localTime 972799800000000000) =
      some ⟨"t1", 1, ⟨972798600000000000, -14400⟩⟩ := by
  decide

/-! ## Vote toggle -/

theorem le_maxID (ids : List Int) : ∀ x ∈ ids, x ≤ maxID ids := by
  unfold maxID
  have gen : ∀ (l : List Int) (a : Int), a ≤ l.foldl max a ∧ ∀ x ∈ l, x ≤ l.foldl max a := by
    intro l
    induction l with
    | nil => intro a; simp
    | cons y ys ih =>
      intro a
      simp only [List.foldl_cons, List.mem_cons]
      have h1 := ih (max a y)
      refine ⟨le_trans (le_max_left a y) h1.1, ?_⟩
      rintro x (hx | hx)
      · subst hx; exact le_trans (le_max_right a x) h1.1
      · exact h1.2 x hx
  exact (gen ids 0).2

theorem nextID_fresh (seq : Int) (ids : List Int) : ∀ x ∈ ids, x ≠ nextID seq ids := by
  intro x hx
  have := le_maxID ids x hx
  unfold nextID
  have h2 := le_max_right seq (maxID ids)
  omega

theorem likeQuery_voteFor (voter : Int) (target : Target) (wantLike : Bool) :
    likeQuery (voteFor voter target wantLike) = some (pairPred voter target) := by
  cases target <;> rfl

theorem filter_key_eq_singleton {α : Type} (f : α → Int) :
    ∀ (l : List α) (a : α), (l.map f).Nodup → a ∈ l →
      l.filter (fun x => f x == f a) = [a] := by
  intro l
  induction l with
  | nil => intro a _ ha; simp at ha
  | cons y ys ih =>
    intro a hnd ha
    simp only [List.map_cons, List.nodup_cons, List.mem_map, not_exists, not_and] at hnd
    simp only [List.mem_cons] at ha
    rcases ha with ha | ha
    · subst ha
      have : ys.filter (fun x => f x == f a) = [] := by
        rw [List.filter_eq_nil_iff]
        intro x hx
        simpa using hnd.1 x hx
      simp [List.filter_cons, this]
    · have hne : ¬ (f y == f a) = true := by
        simp only [beq_iff_eq]
        intro e
        exact hnd.1 a ha e.symm
      rw [List.filter_cons, if_neg hne]
      exact ih a hnd.2 ha

theorem length_filter_split {α : Type} (P R : α → Bool) (l : List α) :
    (l.filter P).length =
      ((l.filter (fun x => !R x)).filter P).length + ((l.filter R).filter P).length := by
  induction l with
  | nil => simp
  | cons y ys ih =>
    simp only [List.filter_cons]
    cases hR : R y <;> cases hP : P y <;> simp [hR, hP, ih] <;> omega

theorem CreateLike_insert (db : Store) (voter : Int) (target : Target) (wantLike : Bool)
    (h : pairRows db voter target = []) :
    Repository.CreateLike db (voteFor voter target wantLike) false =
      (none, { db with
        likes := db.likes ++ [{ voteFor voter target wantLike with
          ID := nextID db.seq.likes (db.likes.map (fun l => l.ID)) }],
        seq := { db.seq with likes := nextID db.seq.likes (db.likes.map (fun l => l.ID)) } }) := by
  have hf : db.likes.find? (pairPred voter target) = none := by
    rw [List.find?_eq_none]
    intro x hx
    have := List.filter_eq_nil_iff.1 h x hx
    simpa using this
  unfold Repository.CreateLike
  rw [likeQuery_voteFor]
  simp only [hf, Bool.false_eq_true, if_false]

theorem CreateLike_delete (db : Store) (voter : Int) (target : Target) (wantLike : Bool)
    (row : Like) (rest : List Like) (h : pairRows db voter target = row :: rest) :
    Repository.CreateLike db (voteFor voter target wantLike) false =
      (none, { db with likes := db.likes.filter (fun l => !(l.ID == row.ID)) }) := by
  have hf : db.likes.find? (pairPred voter target) = some row := by
    have := List.filter_head? (pairPred voter target) db.likes
    unfold pairRows at h
    rw [h] at this
    simpa using this.symm
  unfold Repository.CreateLike
  rw [likeQuery_voteFor]
  simp only [hf, Bool.false_eq_true, if_false]

theorem pairPred_voteFor (voter : Int) (target : Target) (wantLike : Bool) (id : Int) :
    pairPred voter target { voteFor voter target wantLike with ID := id } = true := by
  cases target <;> simp [pairPred, voteFor]

theorem double_toggle_from_NoVote (db : Store) (voter : Int) (target : Target) (wantLike : Bool)
    (h : pairRows db voter target = []) :
    (toggleTwice db voter target wantLike).likes = db.likes := by
  unfold toggleTwice
  rw [CreateLike_insert db voter target wantLike h]
  simp only
  have hrows : pairRows { db with
        likes := db.likes ++ [{ voteFor voter target wantLike with
          ID := nextID db.seq.likes (db.likes.map (fun l => l.ID)) }],
        seq := { db.seq with likes := nextID db.seq.likes (db.likes.map (fun l => l.ID)) } }
      voter target = [{ voteFor voter target wantLike with
          ID := nextID db.seq.likes (db.likes.map (fun l => l.ID)) }] := by
    unfold pairRows at h ⊢
    simp only [List.filter_append, h, List.nil_append]
    simp [List.filter_cons, pairPred_voteFor]
  rw [CreateLike_delete _ voter target wantLike _ [] hrows]
  simp only [List.filter_append]
  have h1 : db.likes.filter (fun l => !(l.ID == nextID db.seq.likes (db.likes.map (fun l => l.ID))))
      = db.likes := by
    rw [List.filter_eq_self]
    intro x hx
    have := nextID_fresh db.seq.likes (db.likes.map (fun l => l.ID)) x.ID
      (List.mem_map_of_mem _ hx)
    simpa using this
  rw [h1]
  simp

theorem double_toggle_from_vote (db : Store) (voter : Int) (target : Target) (wantLike : Bool)
    (row : Like) (h : pairRows db voter target = [row]) :
    ∃ id, (toggleTwice db voter target wantLike).likes =
        db.likes.filter (fun l => !(l.ID == row.ID)) ++
          [{ voteFor voter target wantLike with ID := id }] := by
  unfold toggleTwice
  rw [CreateLike_delete db voter target wantLike row [] h]
  simp only
  have hrows : pairRows { db with likes := db.likes.filter (fun l => !(l.ID == row.ID)) }
      voter target = [] := by
    unfold pairRows at h ⊢
    simp only
    rw [List.filter_eq_nil_iff]
    intro x hx hp
    have hx' := List.mem_filter.1 hx
    have hmem : x ∈ db.likes.filter (pairPred voter target) := List.mem_filter.2 ⟨hx'.1, hp⟩
    rw [h, List.mem_singleton] at hmem
    subst hmem
    simp at hx
  rw [CreateLike_insert _ voter target wantLike hrows]
  exact ⟨_, rfl⟩

theorem length_filter_replace (L : List Like) (row new : Like) (P : Like → Bool)
    (hids : (L.map (fun l => l.ID)).Nodup) (hrow : row ∈ L) :
    (((L.filter (fun l => !(l.ID == row.ID)) ++ [new]).filter P).length : Int) =
      (L.filter P).length - (if P row then 1 else 0) + (if P new then 1 else 0) := by
  have h1 := length_filter_split P (fun l => l.ID == row.ID) L
  have h2 : L.filter (fun l => l.ID == row.ID) = [row] :=
    filter_key_eq_singleton (fun l : Like => l.ID) L row hids hrow
  rw [h2] at h1
  rw [List.filter_append, List.length_append, h1]
  simp only [List.filter_cons, List.filter_nil]
  cases P row <;> cases P new <;> simp

/-- C6, as amended: in a store where the (voter, target) pair has at most one
vote row and vote ids are unique, two consecutive `CreateLike` calls with
identical arguments, neither failed by the storage layer, act as follows.  A
pair that starts in `NoVote` ends in `NoVote`, and the like and dislike counts
of the target equal their values before.  A pair that starts in `Liked` or
`Disliked` has its row removed by the first call and a fresh row inserted by
the second, so it ends in `Liked` when `wantLike` and in `Disliked` otherwise;
the counts equal their values before exactly when the stored direction was
the requested one. -/
theorem C6_double_toggle (db : Store) (voter : Int) (target : Target) (wantLike : Bool)
    (hone : (pairRows db voter target).length ≤ 1)
    (hids : (db.likes.map (fun l => l.ID)).Nodup) :
    (pairState db voter target = some .NoVote →
      pairState (toggleTwice db voter target wantLike) voter target = some .NoVote ∧
      targetCounts (toggleTwice db voter target wantLike) target = targetCounts db target) ∧
    (pairState db voter target ≠ some .NoVote →
      pairState (toggleTwice db voter target wantLike) voter target = some (votedState wantLike) ∧
      (targetCounts (toggleTwice db voter target wantLike) target = targetCounts db target ↔
        pairState db voter target = some (votedState wantLike))) := by
  cases hrows : pairRows db voter target with
  | nil =>
    have hl := double_toggle_from_NoVote db voter target wantLike hrows
    have hst : pairState db voter target = some .NoVote := by
      unfold pairState; rw [hrows]
    refine ⟨fun _ => ⟨?_, ?_⟩, fun hc => absurd hst hc⟩
    · unfold pairState pairRows
      rw [hl]
      unfold pairRows at hrows
      rw [hrows]
    · cases target <;>
        simp only [targetCounts, Repository.GetLikesDislikes, Repository.GetCommentLikesDislikes, hl]
  | cons row rest =>
    have hrest : rest = [] := by
      rw [hrows] at hone
      simp only [List.length_cons] at hone
      exact List.eq_nil_of_length_eq_zero (by omega)
    subst hrest
    have hst : pairState db voter target = some (if row.IsLike then .Liked else .Disliked) := by
      unfold pairState; rw [hrows]
    have hst' : pairState db voter target ≠ some .NoVote := by
      rw [hst]; cases row.IsLike <;> simp
    refine ⟨fun hc => absurd hc hst', fun _ => ?_⟩
    obtain ⟨id, hl⟩ := double_toggle_from_vote db voter target wantLike row hrows
    have hmemf : row ∈ db.likes.filter (pairPred voter target) := by
      unfold pairRows at hrows; rw [hrows]; simp
    have hrow : row ∈ db.likes := (List.mem_filter.1 hmemf).1
    have hprow : pairPred voter target row = true := (List.mem_filter.1 hmemf).2
    have hnone : (db.likes.filter (fun l => !(l.ID == row.ID))).filter (pairPred voter target)
        = [] := by
      rw [List.filter_eq_nil_iff]
      intro x hx hp
      have hx' := List.mem_filter.1 hx
      have hmem : x ∈ db.likes.filter (pairPred voter target) := List.mem_filter.2 ⟨hx'.1, hp⟩
      unfold pairRows at hrows
      rw [hrows, List.mem_singleton] at hmem
      subst hmem
      simp at hx'
    constructor
    · unfold pairState pairRows
      rw [hl, List.filter_append, hnone]
      simp only [List.nil_append, List.filter_cons, pairPred_voteFor, if_true, List.filter_nil]
      cases target <;> cases wantLike <;> simp [voteFor, votedState]
    · rw [hst]
      have hL := fun P => length_filter_replace db.likes row
        { voteFor voter target wantLike with ID := id } P hids hrow
      cases target with
      | post p =>
        have hp : row.PostID = some p := by
          simp only [pairPred, Bool.and_eq_true, beq_iff_eq] at hprow
          exact hprow.2
        simp only [targetCounts, Repository.GetLikesDislikes, hl, Prod.mk.injEq]
        rw [hL (fun l => l.PostID == some p && l.IsLike),
          hL (fun l => l.PostID == some p && !l.IsLike)]
        simp only [hp, voteFor, beq_self_eq_true, Bool.true_and]
        cases hr : row.IsLike <;> cases wantLike <;> simp [votedState]
      | comment c =>
        have hp : row.CommentID = some c := by
          simp only [pairPred, Bool.and_eq_true, beq_iff_eq] at hprow
          exact hprow.2
        simp only [targetCounts, Repository.GetCommentLikesDislikes, hl, Prod.mk.injEq]
        rw [hL (fun l => l.CommentID == some c && l.IsLike),
          hL (fun l => l.CommentID == some c && !l.IsLike)]
        simp only [hp, voteFor, beq_self_eq_true, Bool.true_and]
        cases hr : row.IsLike <;> cases wantLike <;> simp [votedState]

/-- Counterexample to C6 as stated: the pair (alice, post 1) has one vote row
and is in `Liked`; after two identical `CreateLike` calls with `wantLike`
true it is in `Liked`, not in `NoVote`; with `wantLike` false it is in
`Disliked` and the counts of the post have changed from (1, 0) to (0, 1). -/
theorem C6_counterexample :
    (pairRows exLikedStore 1 (.post 1)).length ≤ 1 ∧
    pairState exLikedStore 1 (.post 1) = some .Liked ∧
    pairState (toggleTwice exLikedStore 1 (.post 1) true) 1 (.post 1) ≠ some .NoVote ∧
    pairState (toggleTwice exLikedStore 1 (.post 1) false) 1 (.post 1) = some .Disliked ∧
    targetCounts exLikedStore (.post 1) = (1, 0) ∧
    targetCounts (toggleTwice exLikedStore 1 (.post 1) false) (.post 1) = (0, 1) := by
  decide

/-- Instance of the amended C6: alice has liked post 1 and sends two more
likes; the pair ends in `Liked`. -/
theorem C6_double_toggle_witness :
    pairState (toggleTwice exLikedStore 1 (.post 1) true) 1 (.post 1) = some (votedState true) ∧
    (pairState exStore 1 (.post 1) = some .NoVote →
      pairState (toggleTwice exStore 1 (.post 1) true) 1 (.post 1) = some .NoVote ∧
      targetCounts (toggleTwice exStore 1 (.post 1) true) (.post 1) = targetCounts exStore (.post 1)) :=
  ⟨((C6_double_toggle exLikedStore 1 (.post 1) true (by decide) (by decide)).2 (by decide)).1,
   (C6_double_toggle exStore 1 (.post 1) true (by decide) (by decide)).1⟩

/-! ## Cascade deletion -/

theorem DeletePost_eq (db : Store) (postID : Int) (fault : Nat → Bool) :
    Repository.DeletePost db postID fault =
      if fault 0 || fault 1 || fault 2 || fault 3 || fault 4 || fault 5 || fault 6 || fault 7
          || fault 8
      then (storageErr, db) else (none, cascade db postID) := by
  unfold Repository.DeletePost Begin
  cases fault 0
  swap
  · simp
  simp only [Tx.Exec, Tx.Rollback, Tx.Commit, storageErr, cascade]
  cases fault 1 <;> cases fault 2 <;> cases fault 3 <;> cases fault 4 <;> cases fault 5 <;>
    cases fault 6 <;> cases fault 7 <;> cases fault 8 <;> simp

/-- C7: after `DeletePost(p)` returns without error the store holds no post
with id `p` and no comment, vote, post-category link, image, notification or
report whose `post_id` is `p`. -/
theorem C7_cascade_complete (db : Store) (postID : Int) (fault : Nat → Bool)
    (hok : (Repository.DeletePost db postID fault).1 = none) :
    (∀ p ∈ (Repository.DeletePost db postID fault).2.posts, p.ID ≠ postID) ∧
    (∀ c ∈ (Repository.DeletePost db postID fault).2.comments, c.PostID ≠ postID) ∧
    (∀ l ∈ (Repository.DeletePost db postID fault).2.likes, l.PostID ≠ some postID) ∧
    (∀ c ∈ (Repository.DeletePost db postID fault).2.post_categories, c.PostID ≠ postID) ∧
    (∀ i ∈ (Repository.DeletePost db postID fault).2.images, i.PostID ≠ postID) ∧
    (∀ n ∈ (Repository.DeletePost db postID fault).2.notifications, n.PostID ≠ some postID) ∧
    (∀ r ∈ (Repository.DeletePost db postID fault).2.reports, r.PostID ≠ some postID) := by
  rw [DeletePost_eq] at hok ⊢
  split_ifs at hok ⊢ with h
  · simp [storageErr] at hok
  · simp only [cascade]
    refine ⟨?_, ?_, ?_, ?_, ?_, ?_, ?_⟩ <;>
    · intro x hx
      have := (List.mem_filter.1 hx).2
      simpa using this

/-- Instance of C7: post 1 of the example store, with its comment, category
link, image and report, is deleted without a storage failure. -/
theorem C7_cascade_complete_witness :
    (Repository.DeletePost exStore 1 (fun _ => false)).1 = none ∧
    (Repository.DeletePost exStore 1 (fun _ => false)).2.posts = [] ∧
    (∀ c ∈ (Repository.DeletePost exStore 1 (fun _ => false)).2.comments, c.PostID ≠ 1) :=
  ⟨by decide, by decide,
   (C7_cascade_complete exStore 1 (fun _ => false) (by decide)).2.1⟩

/-- C8: `DeletePost` is atomic.  If `Begin`, any of the seven `DELETE`
statements or the commit fails, `DeletePost` returns the storage error and the
store is the store before the call; more generally whenever it returns an
error the store is unchanged; and it returns without error only when none of
these steps failed. -/
theorem C8_delete_atomic (db : Store) (postID : Int) (fault : Nat → Bool) :
    ((∃ k, k ≤ 8 ∧ fault k = true) → Repository.DeletePost db postID fault = (storageErr, db)) ∧
    ((Repository.DeletePost db postID fault).1 ≠ none → (Repository.DeletePost db postID fault).2 = db) ∧
    ((Repository.DeletePost db postID fault).1 = none → ∀ k, k ≤ 8 → fault k = false) := by
  rw [DeletePost_eq]
  refine ⟨?_, ?_, ?_⟩
  · rintro ⟨k, hk, hf⟩
    have : k = 0 ∨ k = 1 ∨ k = 2 ∨ k = 3 ∨ k = 4 ∨ k = 5 ∨ k = 6 ∨ k = 7 ∨ k = 8 := by omega
    rcases this with h | h | h | h | h | h | h | h | h <;> subst h <;> simp [hf]
  · split_ifs <;> simp
  · split_ifs with h
    · simp [storageErr]
    · intro _ k hk
      have : k = 0 ∨ k = 1 ∨ k = 2 ∨ k = 3 ∨ k = 4 ∨ k = 5 ∨ k = 6 ∨ k = 7 ∨ k = 8 := by omega
      simp only [Bool.or_eq_true, not_or, Bool.not_eq_true] at h
      rcases this with h' | h' | h' | h' | h' | h' | h' | h' | h' <;> subst h' <;> simp [h]

/-! ## Notification fan-out -/

theorem CreateLike_frame (db : Store) (like : Like) (f : Bool) :
    (Repository.CreateLike db like f).2.posts = db.posts ∧
    (Repository.CreateLike db like f).2.comments = db.comments ∧
    (Repository.CreateLike db like f).2.notifications = db.notifications ∧
    (Repository.CreateLike db like f).2.seq.notifications = db.seq.notifications := by
  unfold Repository.CreateLike
  split
  · exact ⟨rfl, rfl, rfl, rfl⟩
  · split <;> split_ifs <;> exact ⟨rfl, rfl, rfl, rfl⟩

theorem PostExists_get (db : Store) (p : Int) (h : Repository.PostExists db p = true) :
    ∃ post, Repository.GetPostByID db p = some post := by
  unfold Repository.PostExists at h
  unfold Repository.GetPostByID
  rw [List.any_eq_true] at h
  obtain ⟨x, hx, hp⟩ := h
  have : (db.posts.find? (fun q => q.ID == p)).isSome := by
    rw [List.find?_isSome]
    exact ⟨x, hx, hp⟩
  exact Option.isSome_iff_exists.1 this

/-- The notification row that `CreateNotification` appends. -/
theorem CreateNotification_ok (db : Store) (userID : Int) (t : String)
    (fromUserID postID commentID : Option Int) :
    (Repository.CreateNotification db userID t fromUserID postID commentID false).2.notifications =
      db.notifications ++ [⟨nextID db.seq.notifications (db.notifications.map (fun n => n.ID)),
        userID, t, fromUserID, postID, commentID, false⟩] := by
  unfold Repository.CreateNotification
  simp

theorem likeProcess_post (env : Env) (db : Store) (actor p : Int) (isLike : Bool)
    (hnf : env.fault 1 = false) (likes dislikes : Int)
    (hok : (likeProcess env db actor
      { ID := 0, UserID := actor, PostID := some p, CommentID := none, IsLike := isLike }).1 =
        .JSON likes dislikes) :
    ∃ post, Repository.GetPostByID db p = some post ∧
      (likeProcess env db actor
        { ID := 0, UserID := actor, PostID := some p, CommentID := none, IsLike := isLike }).2.notifications =
        if post.UserID ≠ actor then
          db.notifications ++ [⟨nextID db.seq.notifications (db.notifications.map (fun n => n.ID)),
            post.UserID, likeNotifType isLike, some actor, some p, none, false⟩]
        else db.notifications := by
  unfold likeProcess at hok ⊢
  simp only at hok ⊢
  by_cases hex : Repository.PostExists db p = true
  · obtain ⟨post, hpost⟩ := PostExists_get db p hex
    refine ⟨post, hpost, ?_⟩
    simp only [hex, Bool.not_true, Bool.false_eq_true, if_false] at hok ⊢
    obtain ⟨f1, f2, f3, f4⟩ := CreateLike_frame db
      { ID := 0, UserID := actor, PostID := some p, CommentID := none, IsLike := isLike }
      (env.fault 0)
    cases hcl : Repository.CreateLike db
      { ID := 0, UserID := actor, PostID := some p, CommentID := none, IsLike := isLike }
      (env.fault 0) with
    | mk e db1 =>
      rw [hcl] at hok f1 f2 f3 f4
      simp only at f1 f2 f3 f4
      cases e with
      | some e => simp at hok
      | none =>
        simp only
        have hg : Repository.GetPostByID db1 p = some post := by
          unfold Repository.GetPostByID at hpost ⊢
          rw [f1]; exact hpost
        rw [hg]
        simp only
        by_cases hown : post.UserID ≠ actor
        · rw [if_pos hown, if_pos hown, hnf, CreateNotification_ok, f3, f4]
        · rw [if_neg hown, if_neg hown, f3]
  · simp [hex] at hok

theorem likeProcess_comment (env : Env) (db : Store) (actor c : Int) (isLike : Bool)
    (hnf : env.fault 1 = false) (likes dislikes : Int)
    (hok : (likeProcess env db actor
      { ID := 0, UserID := actor, PostID := none, CommentID := some c, IsLike := isLike }).1 =
        .JSON likes dislikes) :
    ∃ comment, Repository.GetCommentByID db c = some comment ∧
      (likeProcess env db actor
        { ID := 0, UserID := actor, PostID := none, CommentID := some c, IsLike := isLike }).2.notifications =
        if comment.UserID ≠ actor then
          db.notifications ++ [⟨nextID db.seq.notifications (db.notifications.map (fun n => n.ID)),
            comment.UserID, likeNotifType isLike, some actor, none, some c, false⟩]
        else db.notifications := by
  unfold likeProcess at hok ⊢
  simp only at hok ⊢
  cases hcm : Repository.GetCommentByID db c with
  | none =>
    rw [hcm] at hok
    simp at hok
  | some comment =>
    rw [hcm] at hok
    refine ⟨comment, rfl, ?_⟩
    simp only at hok ⊢
    by_cases hex : Repository.PostExists db comment.PostID = true
    · simp only [hex, Bool.not_true, Bool.false_eq_true, if_false] at hok ⊢
      obtain ⟨f1, f2, f3, f4⟩ := CreateLike_frame db
        { ID := 0, UserID := actor, PostID := none, CommentID := some c, IsLike := isLike }
        (env.fault 0)
      cases hcl : Repository.CreateLike db
        { ID := 0, UserID := actor, PostID := none, CommentID := some c, IsLike := isLike }
        (env.fault 0) with
      | mk e db1 =>
        rw [hcl] at hok f1 f2 f3 f4
        simp only at f1 f2 f3 f4
        cases e with
        | some e => simp at hok
        | none =>
          simp only
          have hg : Repository.GetCommentByID db1 c = some comment := by
            unfold Repository.GetCommentByID at hcm ⊢
            rw [f2]; exact hcm
          rw [hg]
          simp only
          by_cases hown : comment.UserID ≠ actor
          · rw [if_pos hown, if_pos hown, hnf, CreateNotification_ok, f3, f4]
          · rw [if_neg hown, if_neg hown, f3]
    · simp [hex] at hok

theorem AddComment_notifies (env : Env) (db : Store) (r : Request) (actor : Int)
    (hactor : r.ctxUserID = some actor) (hnf : env.fault 1 = false)
    (hcreated : (CommentHandler.AddComment env db r).2.comments ≠ db.comments) :
    ∃ postID post, Atoi (r.FormValue "post_id") = some postID ∧
      Repository.GetPostByID db postID = some post ∧
      (CommentHandler.AddComment env db r).2.comments =
        db.comments ++ [⟨nextID db.seq.comments (db.comments.map (fun c => c.ID)), postID, actor,
          TrimSpace (r.FormValue "content")⟩] ∧
      (CommentHandler.AddComment env db r).2.notifications =
        if post.UserID ≠ actor then
          db.notifications ++ [⟨nextID db.seq.notifications (db.notifications.map (fun n => n.ID)),
            post.UserID, "comment", some actor, some postID, none, false⟩]
        else db.notifications := by
  unfold CommentHandler.AddComment at hcreated ⊢
  simp only [hactor] at hcreated ⊢
  by_cases hm : r.Method ≠ "POST"
  · rw [if_pos hm] at hcreated; exact absurd rfl hcreated
  rw [if_neg hm] at hcreated ⊢
  cases hid : Atoi (r.FormValue "post_id") with
  | none => rw [hid] at hcreated; exact absurd rfl hcreated
  | some postID =>
    rw [hid] at hcreated
    simp only at hcreated ⊢
    by_cases h1 : postID ≤ 0
    · rw [if_pos h1] at hcreated; exact absurd rfl hcreated
    rw [if_neg h1] at hcreated ⊢
    by_cases h2 : TrimSpace (r.FormValue "content") = ""
    · rw [if_pos h2] at hcreated; exact absurd rfl hcreated
    rw [if_neg h2] at hcreated ⊢
    by_cases h3 : RuneCountInString (TrimSpace (r.FormValue "content")) < 2 ∨
        RuneCountInString (TrimSpace (r.FormValue "content")) > 1000
    · rw [if_pos h3] at hcreated; exact absurd rfl hcreated
    rw [if_neg h3] at hcreated ⊢
    by_cases h4 : (!Repository.PostExists db postID) = true
    · rw [if_pos h4] at hcreated; exact absurd rfl hcreated
    rw [if_neg h4] at hcreated ⊢
    have hex : Repository.PostExists db postID = true := by simpa using h4
    obtain ⟨post, hpost⟩ := PostExists_get db postID hex
    refine ⟨postID, post, rfl, hpost, ?_⟩
    unfold Repository.CreateComment at hcreated ⊢
    cases h5 : env.fault 0 with
    | true => simp [h5, storageErr] at hcreated
    | false =>
      simp only [Bool.false_eq_true, if_false]
      unfold Repository.GetPostByID at hpost ⊢
      simp only [hpost]
      by_cases hown : post.UserID ≠ actor
      · rw [if_pos hown, if_pos hown, hnf, CreateNotification_ok]
        exact ⟨by rfl, rfl⟩
      · rw [if_neg hown, if_neg hown]
        exact ⟨rfl, rfl⟩

theorem likeNotifType_eq (isLike : Bool) :
    likeNotifType isLike = if isLike then "like" else "dislike" := by
  cases isLike <;> rfl

theorem LikeHandler_notifies (env : Env) (db : Store) (r : Request) (actor : Int)
    (hactor : r.ctxUserID = some actor) (hnf : env.fault 1 = false) (likes dislikes : Int)
    (hok : (LikeHandler.Like env db r).1 = .JSON likes dislikes) :
    ∃ isLike, ParseBool (r.Query "is_like") = some isLike ∧
      ((r.Query "post_id" ≠ "" ∧ ∃ p post, Atoi (r.Query "post_id") = some p ∧
          Repository.GetPostByID db p = some post ∧
          (LikeHandler.Like env db r).2.notifications =
            if post.UserID ≠ actor then
              db.notifications ++
                [⟨nextID db.seq.notifications (db.notifications.map (fun n => n.ID)),
                  post.UserID, if isLike then "like" else "dislike", some actor, some p, none,
                  false⟩]
            else db.notifications) ∨
       (r.Query "post_id" = "" ∧ ∃ c comment, Atoi (r.Query "comment_id") = some c ∧
          Repository.GetCommentByID db c = some comment ∧
          (LikeHandler.Like env db r).2.notifications =
            if comment.UserID ≠ actor then
              db.notifications ++
                [⟨nextID db.seq.notifications (db.notifications.map (fun n => n.ID)),
                  comment.UserID, if isLike then "like" else "dislike", some actor, none, some c,
                  false⟩]
            else db.notifications)) := by
  unfold LikeHandler.Like at hok ⊢
  by_cases hm : r.Method ≠ "POST"
  · rw [if_pos hm] at hok; simp at hok
  rw [if_neg hm] at hok ⊢
  simp only [hactor] at hok ⊢
  cases hb : ParseBool (r.Query "is_like") with
  | none => rw [hb] at hok; simp at hok
  | some isLike =>
    rw [hb] at hok
    refine ⟨isLike, rfl, ?_⟩
    simp only at hok ⊢
    by_cases hp : r.Query "post_id" ≠ ""
    · rw [if_pos hp] at hok ⊢
      left
      refine ⟨hp, ?_⟩
      cases hid : Atoi (r.Query "post_id") with
      | none => rw [hid] at hok; simp at hok
      | some p =>
        rw [hid] at hok
        simp only at hok ⊢
        obtain ⟨post, h1, h2⟩ := likeProcess_post env db actor p isLike hnf likes dislikes hok
        rw [likeNotifType_eq] at h2
        exact ⟨p, post, rfl, h1, h2⟩
    · rw [if_neg hp] at hok ⊢
      right
      refine ⟨not_not.1 hp, ?_⟩
      by_cases hc : r.Query "comment_id" ≠ ""
      · rw [if_pos hc] at hok ⊢
        cases hid : Atoi (r.Query "comment_id") with
        | none => rw [hid] at hok; simp at hok
        | some c =>
          rw [hid] at hok
          simp only at hok ⊢
          obtain ⟨cm, h1, h2⟩ := likeProcess_comment env db actor c isLike hnf likes dislikes hok
          rw [likeNotifType_eq] at h2
          exact ⟨c, cm, rfl, h1, h2⟩
      · rw [if_neg hc] at hok; simp at hok

/-- C9: when `AddComment` has created a comment on a post, or the like handler
has answered a vote on a post or a comment with its JSON counts (the
notification insert not failed by the storage layer): if the owner of the
post, respectively of the comment, differs from the actor, the notifications
table is the old one followed by exactly one row with recipient the owner,
`from_user_id` the actor, type `comment` for a comment and `like` or `dislike`
according to `is_like` for a vote, and `post_id` (post target) or `comment_id`
(comment target) set to the target, the other one null; if the owner is the
actor, the notifications table is unchanged. -/
theorem C9_notification_fanout (env : Env) (db : Store) (r : Request) (actor : Int)
    (hactor : r.ctxUserID = some actor) (hnf : env.fault 1 = false) :
    ((CommentHandler.AddComment env db r).2.comments ≠ db.comments →
      ∃ postID post, Atoi (r.FormValue "post_id") = some postID ∧
        Repository.GetPostByID db postID = some post ∧
        (CommentHandler.AddComment env db r).2.comments =
          db.comments ++ [⟨nextID db.seq.comments (db.comments.map (fun c => c.ID)), postID,
            actor, TrimSpace (r.FormValue "content")⟩] ∧
        (CommentHandler.AddComment env db r).2.notifications =
          if post.UserID ≠ actor then
            db.notifications ++
              [⟨nextID db.seq.notifications (db.notifications.map (fun n => n.ID)),
                post.UserID, "comment", some actor, some postID, none, false⟩]
          else db.notifications) ∧
    (∀ likes dislikes, (LikeHandler.Like env db r).1 = .JSON likes dislikes →
      ∃ isLike, ParseBool (r.Query "is_like") = some isLike ∧
        ((r.Query "post_id" ≠ "" ∧ ∃ p post, Atoi (r.Query "post_id") = some p ∧
            Repository.GetPostByID db p = some post ∧
            (LikeHandler.Like env db r).2.notifications =
              if post.UserID ≠ actor then
                db.notifications ++
                  [⟨nextID db.seq.notifications (db.notifications.map (fun n => n.ID)),
                    post.UserID, if isLike then "like" else "dislike", some actor, some p, none,
                    false⟩]
              else db.notifications) ∨
         (r.Query "post_id" = "" ∧ ∃ c comment, Atoi (r.Query "comment_id") = some c ∧
            Repository.GetCommentByID db c = some comment ∧
            (LikeHandler.Like env db r).2.notifications =
              if comment.UserID ≠ actor then
                db.notifications ++
                  [⟨nextID db.seq.notifications (db.notifications.map (fun n => n.ID)),
                    comment.UserID, if isLike then "like" else "dislike", some actor, none,
                    some c, false⟩]
              else db.notifications))) :=
  ⟨AddComment_notifies env db r actor hactor hnf,
   fun likes dislikes hok => LikeHandler_notifies env db r actor hactor hnf likes dislikes hok⟩

/-- Instance of C9: alice comments on bob's post 1, and alice likes bob's
post 1; each time one notification for bob, of the matching type, is
inserted. -/
theorem C9_notification_fanout_witness :
    (CommentHandler.AddComment exEnv exStore exCommentReq).2.notifications =
      [⟨1, 2, "comment", some 1, some 1, none, false⟩] ∧
    (LikeHandler.Like exEnv exStore exLikeReq).2.notifications =
      [⟨1, 2, "like", some 1, some 1, none, false⟩] ∧
    (∃ postID post, Atoi (exCommentReq.FormValue "post_id") = some postID ∧
      Repository.GetPostByID exStore postID = some post ∧
      (CommentHandler.AddComment exEnv exStore exCommentReq).2.comments =
        exStore.comments ++
          [⟨nextID exStore.seq.comments (exStore.comments.map (fun c => c.ID)), postID, 1,
            TrimSpace (exCommentReq.FormValue "content")⟩] ∧
      (CommentHandler.AddComment exEnv exStore exCommentReq).2.notifications =
        if post.UserID ≠ 1 then
          exStore.notifications ++
            [⟨nextID exStore.seq.notifications (exStore.notifications.map (fun n => n.ID)),
              post.UserID, "comment", some 1, some postID, none, false⟩]
        else exStore.notifications) :=
  ⟨by decide, by decide,
   (C9_notification_fanout exEnv exStore exCommentReq 1 rfl rfl).1 (by decide)⟩

/-- C10, evaluation of the code at the failing input: alice has liked bob's
post 1 and sends the same like again.  The request succeeds, her vote row is
removed (the counts are back to 0 and 0), and yet a `like` notification for
bob is inserted: the notifications table grows from empty to one row. -/
theorem C10_undo_still_notifies :
    pairState exLikedStore 1 (.post 1) = some .Liked ∧
    exLikedStore.notifications = [] ∧
    (LikeHandler.Like exEnv exLikedStore exLikeReq).1 = .JSON 0 0 ∧
    pairState (LikeHandler.Like exEnv exLikedStore exLikeReq).2 1 (.post 1) = some .NoVote ∧
    (LikeHandler.Like exEnv exLikedStore exLikeReq).2.notifications =
      [⟨1, 2, "like", some 1, some 1, none, false⟩] := by
  decide

/-! ## Registration -/

/-- On success `Register` stores the row that `CreateUser` builds from the
normalised form values. -/
theorem Register_success_row (lib : Lib) (env : Env) (hash : String → Option String)
    (db : Store) (r : Request)
    (hok : (AuthHandler.Register lib env hash db r).1 =
      .Redirect "/login?success=Регистрация успешна" StatusSeeOther) :
    ∃ usr ∈ (AuthHandler.Register lib env hash db r).2.users,
      usr.Email = lib.ToLower (registerEmail lib r) ∧
      usr.Username = lib.ToLower (registerUsername lib r) := by
  have hs : hasValidSession env db r = false := by
    by_contra h
    simp [AuthHandler.Register, h] at hok
  have hm : r.Method = "POST" := by
    by_contra h
    unfold AuthHandler.Register at hok
    rw [hs] at hok
    simp only [Bool.false_eq_true, if_false, if_neg h] at hok
    split_ifs at hok
  have hne : ¬ (r.Method = "GET") := by rw [hm]; decide
  unfold AuthHandler.Register at hok ⊢
  rw [hs] at hok ⊢
  simp only [Bool.false_eq_true, if_false] at hok ⊢
  rw [if_neg hne, if_pos hm] at hok ⊢
  unfold registerPost at hok ⊢
  simp only at hok ⊢
  cases hc : registerCheck (registerEmail lib r) (registerUsername lib r)
      (TrimSpace (r.FormValue "password")) with
  | some url =>
    rw [hc] at hok
    have : url ≠ "/login?success=Регистрация успешна" := by
      intro e
      subst e
      unfold registerCheck at hc
      split_ifs at hc <;> simp at hc
    simp [this] at hok
  | none =>
    rw [hc] at hok
    simp only at hok ⊢
    by_cases ht : Repository.IsEmailOrUsernameTaken lib db (registerEmail lib r)
        (registerUsername lib r) = true
    · rw [if_pos ht] at hok
      have : takenURL ≠ "/login?success=Регистрация успешна" := by decide
      simp [this] at hok
    · rw [if_neg ht] at hok ⊢
      unfold Repository.CreateUser at hok ⊢
      simp only at hok ⊢
      cases hh : hash (TrimSpace (r.FormValue "password")) with
      | none => rw [hh] at hok; simp at hok
      | some ph =>
        rw [hh] at hok
        simp only at hok ⊢
        split_ifs at hok ⊢
        · simp [storageErr] at hok
        · simp at hok
        · exact ⟨_, List.mem_append_right _ (List.mem_singleton.2 rfl), rfl, rfl⟩

/-- C13: `CreateCategory` changes the categories table only when the role in
the request context is exactly `admin`.  With any other role, `moderator` and
an absent role included, the store is left as it was, and a `POST` is answered
403 Forbidden.  An administrator's `POST` with a new, non-empty name that the
storage layer does not fail appends that category. -/
theorem C13_admin_only (env : Env) (db : Store) (r : Request) :
    ((CategoryHandler.CreateCategory env db r).2.categories ≠ db.categories →
      r.ctxRole = some "admin") ∧
    (r.ctxRole ≠ some "admin" → (CategoryHandler.CreateCategory env db r).2 = db) ∧
    (r.Method = "POST" → r.ctxRole ≠ some "admin" →
      (CategoryHandler.CreateCategory env db r).1.code = StatusForbidden) ∧
    (r.Method = "POST" → (r.ctxRole = some "moderator" ∨ r.ctxRole = none) →
      (CategoryHandler.CreateCategory env db r).1.code = StatusForbidden ∧
      (CategoryHandler.CreateCategory env db r).2 = db) ∧
    (r.Method = "POST" → r.ctxRole = some "admin" → r.FormValue "name" ≠ "" →
      env.fault 0 = false → (∀ c ∈ db.categories, c.Name ≠ r.FormValue "name") →
      (CategoryHandler.CreateCategory env db r).2.categories =
        db.categories ++
          [⟨nextID db.seq.categories (db.categories.map (fun c => c.ID)),
            r.FormValue "name"⟩]) := by
  have hrole : ctxRoleString r = "admin" ↔ r.ctxRole = some "admin" := by
    unfold ctxRoleString
    cases r.ctxRole with
    | none => simp
    | some x => simp
  have hunch : r.ctxRole ≠ some "admin" → (CategoryHandler.CreateCategory env db r).2 = db := by
    intro h
    have h1 : ctxRoleString r ≠ "admin" := fun e => h (hrole.1 e)
    unfold CategoryHandler.CreateCategory
    simp only [h1, ne_eq, not_false_eq_true, if_true]
    split_ifs <;> rfl
  have hforb : r.Method = "POST" → r.ctxRole ≠ some "admin" →
      (CategoryHandler.CreateCategory env db r).1.code = StatusForbidden := by
    intro hm h
    have h1 : ctxRoleString r ≠ "admin" := fun e => h (hrole.1 e)
    unfold CategoryHandler.CreateCategory
    rw [if_neg (not_not.2 hm)]
    simp only [h1, ne_eq, not_false_eq_true, if_true, Response.code]
  refine ⟨?_, hunch, hforb, ?_, ?_⟩
  · intro hch
    by_contra h
    exact hch (by rw [hunch h])
  · intro hm h
    have hna : r.ctxRole ≠ some "admin" := by
      rcases h with h | h <;> rw [h] <;> simp
    exact ⟨hforb hm hna, hunch hna⟩
  · intro hm ha hname hf hfresh
    have h1 : ctxRoleString r = "admin" := hrole.2 ha
    have hany : db.categories.any (fun c => c.Name == r.FormValue "name") = false := by
      rw [List.any_eq_false]
      intro c hc
      simpa using hfresh c hc
    unfold CategoryHandler.CreateCategory Repository.CreateCategory
    rw [if_neg (not_not.2 hm)]
    simp [h1, hname, hf, hany]

/-- C14, evaluation of the code at the failing input: the store holds a
session that expires at instant 100 and the sweep runs at instant 100 (both
expressed in UTC).  `GetSession` at that instant no longer accepts the
session, yet the sweep succeeds and the row is still stored. -/
theorem C14_sweep_keeps_boundary_row :
    exStore.sessions = [⟨"t1", 1, ⟨100, 0⟩⟩] ∧
    Repository.GetSession exStore "t1" ⟨100, 0⟩ = none ∧
    (Repository.CleanExpiredSessions exStore ⟨100, 0⟩ false).1 = none ∧
    (Repository.CleanExpiredSessions exStore ⟨100, 0⟩ false).2.sessions =
      [⟨"t1", 1, ⟨100, 0⟩⟩] := by
  decide

/-! ## Vote toggle, one call -/

theorem pairRows_singleton_mem (db : Store) (voter : Int) (target : Target) (row : Like)
    (h : pairRows db voter target = [row]) :
    row ∈ db.likes ∧ pairPred voter target row = true := by
  have hmem : row ∈ db.likes.filter (pairPred voter target) := by
    unfold pairRows at h; rw [h]; simp
  exact List.mem_filter.1 hmem

theorem filter_id_eq_filter_pair (db : Store) (voter : Int) (target : Target) (row : Like)
    (hids : (db.likes.map (fun l => l.ID)).Nodup)
    (h : pairRows db voter target = [row]) :
    db.likes.filter (fun l => !(l.ID == row.ID)) =
      db.likes.filter (fun l => !pairPred voter target l) := by
  obtain ⟨hrow, hprow⟩ := pairRows_singleton_mem db voter target row h
  apply List.filter_congr
  intro l hl
  by_cases hp : pairPred voter target l = true
  · have hmem : l ∈ db.likes.filter (pairPred voter target) := List.mem_filter.2 ⟨hl, hp⟩
    unfold pairRows at h
    rw [h, List.mem_singleton] at hmem
    subst hmem
    simp [hp]
  · have hne : l.ID ≠ row.ID := by
      intro e
      have : l = row := List.inj_on_of_nodup_map hids hl hrow e
      subst this
      exact hp hprow
    simp [hp, hne]

/-- C15: when the (voter, target) pair has no vote row, `CreateLike` for that
voter and target (exactly one of post and comment set), not failed by the
storage layer, returns no error and appends exactly one row: a row of that
voter and target whose `is_like` is the requested direction.  All rows that
were stored are unchanged, and the pair is in `Liked` when `wantLike`, in
`Disliked` otherwise. -/
theorem C15_first_vote (db : Store) (voter : Int) (target : Target) (wantLike : Bool)
    (hnone : pairRows db voter target = []) :
    (Repository.CreateLike db (voteFor voter target wantLike) false).1 = none ∧
    ∃ row, (Repository.CreateLike db (voteFor voter target wantLike) false).2.likes =
        db.likes ++ [row] ∧
      row.UserID = voter ∧ row.IsLike = wantLike ∧
      (row.PostID, row.CommentID) =
        ((voteFor voter target wantLike).PostID, (voteFor voter target wantLike).CommentID) ∧
      pairRows (Repository.CreateLike db (voteFor voter target wantLike) false).2 voter target =
        [row] ∧
      pairState (Repository.CreateLike db (voteFor voter target wantLike) false).2 voter target =
        some (votedState wantLike) := by
  rw [CreateLike_insert db voter target wantLike hnone]
  refine ⟨rfl, _, rfl, ?_, ?_, rfl, ?_, ?_⟩
  · cases target <;> rfl
  · cases target <;> rfl
  · unfold pairRows at hnone ⊢
    simp only [List.filter_append, hnone, List.nil_append]
    simp [List.filter_cons, pairPred_voteFor]
  · unfold pairState pairRows
    unfold pairRows at hnone
    simp only [List.filter_append, hnone, List.nil_append]
    simp only [List.filter_cons, pairPred_voteFor, if_true, List.filter_nil]
    cases target <;> cases wantLike <;> simp [voteFor, votedState]

/-- Instance of C15: alice has no vote on post 1 and likes it. -/
theorem C15_first_vote_witness :
    (Repository.CreateLike exStore (voteFor 1 (.post 1) true) false).1 = none ∧
    ∃ row, (Repository.CreateLike exStore (voteFor 1 (.post 1) true) false).2.likes =
        exStore.likes ++ [row] ∧
      row.UserID = 1 ∧ row.IsLike = true ∧
      (row.PostID, row.CommentID) =
        ((voteFor 1 (.post 1) true).PostID, (voteFor 1 (.post 1) true).CommentID) ∧
      pairRows (Repository.CreateLike exStore (voteFor 1 (.post 1) true) false).2 1 (.post 1) =
        [row] ∧
      pairState (Repository.CreateLike exStore (voteFor 1 (.post 1) true) false).2 1 (.post 1) =
        some (votedState true) :=
  C15_first_vote exStore 1 (.post 1) true (by decide)

/-- C16: in a store whose vote ids are unique, when the (voter, target) pair
is in `Liked` and `wantLike` is true, or in `Disliked` and `wantLike` is false,
`CreateLike`, not failed by the storage layer, returns no error, leaves the
pair in `NoVote`, and the votes table is the old one without the row of the
pair: every row that does not belong to the pair is unchanged. -/
theorem C16_same_direction_undo (db : Store) (voter : Int) (target : Target) (wantLike : Bool)
    (hids : (db.likes.map (fun l => l.ID)).Nodup)
    (hstate : pairState db voter target = some (votedState wantLike)) :
    (Repository.CreateLike db (voteFor voter target wantLike) false).1 = none ∧
    pairState (Repository.CreateLike db (voteFor voter target wantLike) false).2 voter target =
      some .NoVote ∧
    (Repository.CreateLike db (voteFor voter target wantLike) false).2.likes =
      db.likes.filter (fun l => !pairPred voter target l) := by
  have hrows : ∃ row, pairRows db voter target = [row] := by
    unfold pairState at hstate
    split at hstate
    · cases wantLike <;> simp [votedState] at hstate
    · exact ⟨_, by assumption⟩
    · simp at hstate
  obtain ⟨row, hrow⟩ := hrows
  rw [CreateLike_delete db voter target wantLike row [] hrow]
  refine ⟨rfl, ?_, ?_⟩
  · unfold pairState pairRows
    simp only
    rw [filter_id_eq_filter_pair db voter target row hids hrow, List.filter_filter]
    simp
  · exact filter_id_eq_filter_pair db voter target row hids hrow

/-- Instance of C16: alice has liked post 1 and likes it again. -/
theorem C16_same_direction_undo_witness :
    (Repository.CreateLike exLikedStore (voteFor 1 (.post 1) true) false).1 = none ∧
    pairState (Repository.CreateLike exLikedStore (voteFor 1 (.post 1) true) false).2 1 (.post 1) =
      some .NoVote ∧
    (Repository.CreateLike exLikedStore (voteFor 1 (.post 1) true) false).2.likes =
      exLikedStore.likes.filter (fun l => !pairPred 1 (.post 1) l) :=
  C16_same_direction_undo exLikedStore 1 (.post 1) true (by decide) (by decide)

/-- C17, as amended: `CreateLike`, not failed by the storage layer, deletes the
existing vote row of the pair whenever the pair has one, whether the stored
`is_like` equals the incoming `wantLike` or not, and inserts nothing in that
case; it inserts a fresh vote row, of the requested direction, exactly when
the pair has no row. -/
theorem C17_toggle_on_existence (db : Store) (voter : Int) (target : Target) (wantLike : Bool) :
    (∀ row rest, pairRows db voter target = row :: rest →
      Repository.CreateLike db (voteFor voter target wantLike) false =
        (none, { db with likes := db.likes.filter (fun l => !(l.ID == row.ID)) })) ∧
    (pairRows db voter target = [] →
      ∃ row, (Repository.CreateLike db (voteFor voter target wantLike) false).2.likes =
          db.likes ++ [row] ∧
        pairPred voter target row = true ∧ row.IsLike = wantLike) ∧
    ((∃ row, (Repository.CreateLike db (voteFor voter target wantLike) false).2.likes =
        db.likes ++ [row]) ↔ pairRows db voter target = []) := by
  have hins : pairRows db voter target = [] →
      ∃ row, (Repository.CreateLike db (voteFor voter target wantLike) false).2.likes =
          db.likes ++ [row] ∧
        pairPred voter target row = true ∧ row.IsLike = wantLike := by
    intro h
    rw [CreateLike_insert db voter target wantLike h]
    refine ⟨_, rfl, pairPred_voteFor voter target wantLike _, ?_⟩
    cases target <;> rfl
  refine ⟨fun row rest h => CreateLike_delete db voter target wantLike row rest h, hins, ?_⟩
  constructor
  · rintro ⟨row, hrow⟩
    cases hp : pairRows db voter target with
    | nil => rfl
    | cons r0 rest =>
      exfalso
      rw [CreateLike_delete db voter target wantLike r0 rest hp] at hrow
      simp only at hrow
      have hlen := congrArg List.length hrow
      have hle := List.length_filter_le (fun l : Like => !(l.ID == r0.ID)) db.likes
      simp only [List.length_append, List.length_singleton] at hlen
      omega
  · intro h
    obtain ⟨row, hrow, _⟩ := hins h
    exact ⟨row, hrow⟩

/-- Counterexample to C17 as stated: alice has liked post 1 and now sends a
dislike, the opposite direction.  `CreateLike` deletes her row and inserts no
fresh one: the votes table is empty afterwards. -/
theorem C17_counterexample :
    pairState exLikedStore 1 (.post 1) = some .Liked ∧
    Repository.CreateLike exLikedStore (voteFor 1 (.post 1) false) false =
      (none, { exLikedStore with likes := [] }) := by
  decide

theorem votesUnique_filter (db : Store) (q : Like → Bool) (hinv : votesUnique db) :
    votesUnique { db with likes := db.likes.filter q } := by
  intro voter target
  have h := hinv voter target
  unfold pairRows at h ⊢
  simp only
  rw [List.filter_filter]
  have hle : (db.likes.filter (fun a => pairPred voter target a && q a)).length ≤
      (db.likes.filter (pairPred voter target)).length := by
    rw [← List.filter_filter]
    have := List.length_filter_le q (db.likes.filter (pairPred voter target))
    rw [List.filter_filter] at this
    have e : (fun a => q a && pairPred voter target a) =
        (fun a => pairPred voter target a && q a) := by
      funext a; exact Bool.and_comm _ _
    rw [e] at this
    rw [List.filter_filter]
    exact this
  omega

theorem votesUnique_insert (db : Store) (voter : Int) (target : Target) (new : Like)
    (seq : Sequence) (hinv : votesUnique db)
    (hnone : pairRows db voter target = [])
    (honly : ∀ v t, pairPred v t new = true → v = voter ∧ t = target) :
    votesUnique { db with likes := db.likes ++ [new], seq := seq } := by
  intro v t
  have h := hinv v t
  unfold pairRows at h hnone ⊢
  simp only [List.filter_append, List.length_append]
  by_cases hp : pairPred v t new = true
  · obtain ⟨hv, ht⟩ := honly v t hp
    subst hv ht
    rw [hnone]
    simp [List.filter_cons, hp]
  · simp [List.filter_cons, hp]
    exact h

/-- C18: `CreateLike` preserves vote uniqueness.  If every (voter, target)
pair has at most one vote row, then after a `CreateLike` call whose `Like` has
exactly one of `PostID` and `CommentID` set, failed by the storage layer or
not, every pair still has at most one vote row. -/
theorem C18_uniqueness_preserved (db : Store) (like : Like) (fail : Bool)
    (hinv : votesUnique db)
    (hone : like.PostID.isSome = !like.CommentID.isSome) :
    votesUnique (Repository.CreateLike db like fail).2 := by
  have key : ∀ target : Target, likeQuery like = some (pairPred like.UserID target) →
      (∀ v t id, pairPred v t { like with ID := id } = true → v = like.UserID ∧ t = target) →
      votesUnique (Repository.CreateLike db like fail).2 := by
    intro target hq honly
    unfold Repository.CreateLike
    rw [hq]
    simp only
    cases hf : db.likes.find? (pairPred like.UserID target) with
    | some existing =>
      simp only
      split_ifs
      · exact hinv
      · exact votesUnique_filter db _ hinv
    | none =>
      simp only
      split_ifs
      · exact hinv
      · apply votesUnique_insert db like.UserID target _ _ hinv
        · unfold pairRows
          rw [List.filter_eq_nil_iff]
          intro x hx
          have := List.find?_eq_none.1 hf x hx
          simpa using this
        · intro v t hp
          exact honly v t _ hp
  cases hp : like.PostID with
  | some p =>
    cases hc : like.CommentID with
    | some c => rw [hp, hc] at hone; simp at hone
    | none =>
      apply key (.post p)
      · unfold likeQuery
        rw [hp]
        rfl
      · intro v t id h
        cases t with
        | post q =>
          simp only [pairPred, hp, Bool.and_eq_true, beq_iff_eq, Option.some.injEq] at h
          exact ⟨h.1.symm, by rw [h.2]⟩
        | comment c =>
          simp [pairPred, hc] at h
  | none =>
    cases hc : like.CommentID with
    | none => rw [hp, hc] at hone; simp at hone
    | some c =>
      apply key (.comment c)
      · unfold likeQuery
        rw [hp, hc]
        rfl
      · intro v t id h
        cases t with
        | post q =>
          simp [pairPred, hp] at h
        | comment c2 =>
          simp only [pairPred, hc, Bool.and_eq_true, beq_iff_eq, Option.some.injEq] at h
          exact ⟨h.1.symm, by rw [h.2]⟩

/-- Instance of C18: alice's only vote is her like of post 1, and she now
votes on comment 1. -/
theorem C18_uniqueness_preserved_witness :
    votesUnique exLikedStore ∧
    votesUnique (Repository.CreateLike exLikedStore (voteFor 1 (.comment 1) false) false).2 := by
  have hinv : votesUnique exLikedStore := by
    intro voter target
    unfold pairRows
    have : exLikedStore.likes = [⟨1, 1, some 1, none, true⟩] := rfl
    rw [this]
    simp only [List.filter_cons, List.filter_nil]
    split_ifs <;> simp
  exact ⟨hinv, C18_uniqueness_preserved exLikedStore (voteFor 1 (.comment 1) false) false hinv
    (by decide)⟩

/-! ## Counts returned by the like handler -/

theorem CreateLike_ok_not_failed (db : Store) (like : Like) (f : Bool)
    (hq : likeQuery like ≠ none)
    (hok : (Repository.CreateLike db like f).1 = none) : f = false := by
  cases f with
  | false => rfl
  | true =>
    exfalso
    unfold Repository.CreateLike at hok
    cases hl : likeQuery like with
    | none => exact hq hl
    | some q =>
      rw [hl] at hok
      simp only at hok
      split at hok <;> simp [storageErr] at hok

theorem CreateNotification_likes (db : Store) (userID : Int) (t : String)
    (fromUserID postID commentID : Option Int) (f : Bool) :
    (Repository.CreateNotification db userID t fromUserID postID commentID f).2.likes =
      db.likes := by
  unfold Repository.CreateNotification
  split_ifs <;> rfl

theorem likeProcess_counts_post (env : Env) (db : Store) (actor p : Int) (isLike : Bool)
    (likes dislikes : Int)
    (hok : (likeProcess env db actor ⟨0, actor, some p, none, isLike⟩).1 =
      .JSON likes dislikes) :
    (likeProcess env db actor ⟨0, actor, some p, none, isLike⟩).2.likes =
      (Repository.CreateLike db ⟨0, actor, some p, none, isLike⟩ false).2.likes ∧
    likes = (((likeProcess env db actor ⟨0, actor, some p, none, isLike⟩).2.likes.filter
      (fun l => l.PostID == some p && l.IsLike)).length : Int) ∧
    dislikes = (((likeProcess env db actor ⟨0, actor, some p, none, isLike⟩).2.likes.filter
      (fun l => l.PostID == some p && !l.IsLike)).length : Int) := by
  unfold likeProcess at hok ⊢
  simp only at hok ⊢
  by_cases hex : Repository.PostExists db p = true
  · simp only [hex, Bool.not_true, Bool.false_eq_true, if_false] at hok ⊢
    cases hcl : Repository.CreateLike db ⟨0, actor, some p, none, isLike⟩ (env.fault 0) with
    | mk e db1 =>
      rw [hcl] at hok
      cases e with
      | some e => simp at hok
      | none =>
        have hf : env.fault 0 = false :=
          CreateLike_ok_not_failed db ⟨0, actor, some p, none, isLike⟩ (env.fault 0)
            (by simp [likeQuery]) (by rw [hcl])
        rw [hf] at hcl
        rw [hcl]
        simp only at hok ⊢
        simp only [Repository.GetLikesDislikes, Response.JSON.injEq] at hok
        cases hg : Repository.GetPostByID db1 p with
        | none =>
          rw [hg] at hok
          exact ⟨rfl, hok.1.symm, hok.2.symm⟩
        | some post =>
          rw [hg] at hok
          simp only at hok ⊢
          by_cases hown : post.UserID ≠ actor
          · rw [if_pos hown] at hok ⊢
            rw [CreateNotification_likes] at hok ⊢
            exact ⟨rfl, hok.1.symm, hok.2.symm⟩
          · rw [if_neg hown] at hok ⊢
            exact ⟨rfl, hok.1.symm, hok.2.symm⟩
  · simp [hex] at hok

theorem likeProcess_counts_comment (env : Env) (db : Store) (actor c : Int) (isLike : Bool)
    (likes dislikes : Int)
    (hok : (likeProcess env db actor ⟨0, actor, none, some c, isLike⟩).1 =
      .JSON likes dislikes) :
    (likeProcess env db actor ⟨0, actor, none, some c, isLike⟩).2.likes =
      (Repository.CreateLike db ⟨0, actor, none, some c, isLike⟩ false).2.likes ∧
    likes = (((likeProcess env db actor ⟨0, actor, none, some c, isLike⟩).2.likes.filter
      (fun l => l.CommentID == some c && l.IsLike)).length : Int) ∧
    dislikes = (((likeProcess env db actor ⟨0, actor, none, some c, isLike⟩).2.likes.filter
      (fun l => l.CommentID == some c && !l.IsLike)).length : Int) := by
  unfold likeProcess at hok ⊢
  simp only at hok ⊢
  cases hcm : Repository.GetCommentByID db c with
  | none =>
    rw [hcm] at hok
    simp at hok
  | some comment =>
    rw [hcm] at hok
    simp only at hok ⊢
    by_cases hex : Repository.PostExists db comment.PostID = true
    · simp only [hex, Bool.not_true, Bool.false_eq_true, if_false] at hok ⊢
      cases hcl : Repository.CreateLike db ⟨0, actor, none, some c, isLike⟩ (env.fault 0) with
      | mk e db1 =>
        rw [hcl] at hok
        cases e with
        | some e => simp at hok
        | none =>
          have hf : env.fault 0 = false :=
            CreateLike_ok_not_failed db ⟨0, actor, none, some c, isLike⟩ (env.fault 0)
              (by simp [likeQuery]) (by rw [hcl])
          rw [hf] at hcl
          rw [hcl]
          simp only at hok ⊢
          simp only [Repository.GetCommentLikesDislikes, Response.JSON.injEq] at hok
          cases hg : Repository.GetCommentByID db1 c with
          | none =>
            rw [hg] at hok
            exact ⟨rfl, hok.1.symm, hok.2.symm⟩
          | some cm =>
            rw [hg] at hok
            simp only at hok ⊢
            by_cases hown : cm.UserID ≠ actor
            · rw [if_pos hown] at hok ⊢
              rw [CreateNotification_likes] at hok ⊢
              exact ⟨rfl, hok.1.symm, hok.2.symm⟩
            · rw [if_neg hown] at hok ⊢
              exact ⟨rfl, hok.1.symm, hok.2.symm⟩
    · simp [hex] at hok

/-- C19: when the like handler answers a request with its JSON object, the
`likes` and `dislikes` values are the numbers of vote rows of the requested
target with `is_like` true and with `is_like` false in the store the handler
leaves behind, whose votes table is the one `CreateLike` produced for the
request: rows counted by `post_id` for a post target, by `comment_id` for a
comment target. -/
theorem C19_counts_returned (env : Env) (db : Store) (r : Request) (likes dislikes : Int)
    (hok : (LikeHandler.Like env db r).1 = .JSON likes dislikes) :
    ∃ actor isLike, r.ctxUserID = some actor ∧
      ParseBool (r.Query "is_like") = some isLike ∧
      ((r.Query "post_id" ≠ "" ∧ ∃ p, Atoi (r.Query "post_id") = some p ∧
          (LikeHandler.Like env db r).2.likes =
            (Repository.CreateLike db ⟨0, actor, some p, none, isLike⟩ false).2.likes ∧
          likes = (((LikeHandler.Like env db r).2.likes.filter
            (fun l => l.PostID == some p && l.IsLike)).length : Int) ∧
          dislikes = (((LikeHandler.Like env db r).2.likes.filter
            (fun l => l.PostID == some p && !l.IsLike)).length : Int)) ∨
       (r.Query "post_id" = "" ∧ ∃ c, Atoi (r.Query "comment_id") = some c ∧
          (LikeHandler.Like env db r).2.likes =
            (Repository.CreateLike db ⟨0, actor, none, some c, isLike⟩ false).2.likes ∧
          likes = (((LikeHandler.Like env db r).2.likes.filter
            (fun l => l.CommentID == some c && l.IsLike)).length : Int) ∧
          dislikes = (((LikeHandler.Like env db r).2.likes.filter
            (fun l => l.CommentID == some c && !l.IsLike)).length : Int))) := by
  unfold LikeHandler.Like at hok ⊢
  by_cases hm : r.Method ≠ "POST"
  · rw [if_pos hm] at hok; simp at hok
  rw [if_neg hm] at hok ⊢
  cases ha : r.ctxUserID with
  | none => rw [ha] at hok; simp at hok
  | some actor =>
    rw [ha] at hok
    simp only at hok ⊢
    cases hb : ParseBool (r.Query "is_like") with
    | none => rw [hb] at hok; simp at hok
    | some isLike =>
      rw [hb] at hok
      refine ⟨actor, isLike, rfl, rfl, ?_⟩
      simp only at hok ⊢
      by_cases hp : r.Query "post_id" ≠ ""
      · rw [if_pos hp] at hok ⊢
        left
        refine ⟨hp, ?_⟩
        cases hid : Atoi (r.Query "post_id") with
        | none => rw [hid] at hok; simp at hok
        | some p =>
          rw [hid] at hok
          simp only at hok ⊢
          exact ⟨p, rfl, likeProcess_counts_post env db actor p isLike likes dislikes hok⟩
      · rw [if_neg hp] at hok ⊢
        right
        refine ⟨not_not.1 hp, ?_⟩
        by_cases hc : r.Query "comment_id" ≠ ""
        · rw [if_pos hc] at hok ⊢
          cases hid : Atoi (r.Query "comment_id") with
          | none => rw [hid] at hok; simp at hok
          | some c =>
            rw [hid] at hok
            simp only at hok ⊢
            exact ⟨c, rfl, likeProcess_counts_comment env db actor c isLike likes dislikes hok⟩
        · rw [if_neg hc] at hok; simp at hok

/-- Instance of C19: alice likes post 1, which had no vote; the answer is
one like and no dislike. -/
theorem C19_counts_returned_witness :
    (LikeHandler.Like exEnv exStore exLikeReq).1 = .JSON 1 0 ∧
    ∃ actor isLike, exLikeReq.ctxUserID = some actor ∧
      ParseBool (exLikeReq.Query "is_like") = some isLike ∧
      ((exLikeReq.Query "post_id" ≠ "" ∧ ∃ p, Atoi (exLikeReq.Query "post_id") = some p ∧
          (LikeHandler.Like exEnv exStore exLikeReq).2.likes =
            (Repository.CreateLike exStore ⟨0, actor, some p, none, isLike⟩ false).2.likes ∧
          (1 : Int) = (((LikeHandler.Like exEnv exStore exLikeReq).2.likes.filter
            (fun l => l.PostID == some p && l.IsLike)).length : Int) ∧
          (0 : Int) = (((LikeHandler.Like exEnv exStore exLikeReq).2.likes.filter
            (fun l => l.PostID == some p && !l.IsLike)).length : Int)) ∨
       (exLikeReq.Query "post_id" = "" ∧ ∃ c, Atoi (exLikeReq.Query "comment_id") = some c ∧
          (LikeHandler.Like exEnv exStore exLikeReq).2.likes =
            (Repository.CreateLike exStore ⟨0, actor, none, some c, isLike⟩ false).2.likes ∧
          (1 : Int) = (((LikeHandler.Like exEnv exStore exLikeReq).2.likes.filter
            (fun l => l.CommentID == some c && l.IsLike)).length : Int) ∧
          (0 : Int) = (((LikeHandler.Like exEnv exStore exLikeReq).2.likes.filter
            (fun l => l.CommentID == some c && !l.IsLike)).length : Int))) :=
  ⟨by decide, C19_counts_returned exEnv exStore exLikeReq 1 0 (by decide)⟩

/-! ## Cascade deletion and votes on comments -/

/-- C20, evaluation of the code at the failing input: comment 1 belongs to
post 1 and alice has voted on comment 1.  `DeletePost(1)` succeeds, post 1 and
comment 1 are gone, and the vote row whose `comment_id` is 1 is still
stored. -/
theorem C20_comment_votes_survive :
    exCommentVoteStore.comments = [⟨1, 1, 2, "hi"⟩] ∧
    exCommentVoteStore.likes = [⟨1, 1, none, some 1, true⟩] ∧
    (Repository.DeletePost exCommentVoteStore 1 (fun _ => false)).1 = none ∧
    (Repository.DeletePost exCommentVoteStore 1 (fun _ => false)).2.posts = [] ∧
    (Repository.DeletePost exCommentVoteStore 1 (fun _ => false)).2.comments = [] ∧
    (Repository.DeletePost exCommentVoteStore 1 (fun _ => false)).2.likes =
      [⟨1, 1, none, some 1, true⟩] := by
  decide

/-! ## Login throttle: failures, success, reachable tables -/

theorem attemptsOf_setAttempts_same (m : String → Option (List Int)) (k : String) (v : List Int) :
    attemptsOf (setAttempts m k v) k = v := by
  simp [attemptsOf, setAttempts]

theorem attemptsOf_setAttempts_other (m : String → Option (List Int)) (k k' : String)
    (v : List Int) (h : k' ≠ k) : attemptsOf (setAttempts m k v) k' = attemptsOf m k' := by
  simp [attemptsOf, setAttempts, h]

theorem setAttempts_setAttempts (m : String → Option (List Int)) (k : String) (v w : List Int) :
    setAttempts (setAttempts m k v) k w = setAttempts m k w := by
  funext x
  unfold setAttempts
  by_cases h : x = k
  · rw [if_pos h, if_pos h]
  · rw [if_neg h, if_neg h, if_neg h]

theorem attemptsOf_deleteAttempts_same (m : String → Option (List Int)) (k : String) :
    attemptsOf (deleteAttempts m k) k = [] := by
  simp [attemptsOf, deleteAttempts]

theorem attemptsOf_deleteAttempts_other (m : String → Option (List Int)) (k k' : String)
    (h : k' ≠ k) : attemptsOf (deleteAttempts m k) k' = attemptsOf m k' := by
  simp [attemptsOf, deleteAttempts, h]

/-- A login `POST` that passes the throttle and fails, for either reason. -/
theorem loginPost_failure (lib : Lib) (env : Env) (st : State) (r : Request)
    (hopen : ¬ 5 ≤ (recentAttempts (attemptsOf st.loginAttempts (loginUsername lib r)) env.now).length)
    (hfail : Repository.GetUserByUsername lib st.db (loginUsername lib r) = none ∨
      ∃ user, Repository.GetUserByUsername lib st.db (loginUsername lib r) = some user ∧
        lib.CompareHashAndPassword user.PasswordHash (r.FormValue "password") = false) :
    loginPost lib env st r =
      (.Redirect badCredentialsURL StatusSeeOther,
        ⟨st.db, setAttempts st.loginAttempts (loginUsername lib r)
          (recentAttempts (attemptsOf st.loginAttempts (loginUsername lib r)) env.now
            ++ [env.now])⟩) := by
  unfold loginPost
  simp only [maxLoginAttempts, ge_iff_le]
  rw [if_neg hopen]
  rcases hfail with hnone | ⟨user, hsome, hcmp⟩
  · simp only [hnone, attemptsOf_setAttempts_same, setAttempts_setAttempts]
  · simp only [hsome, hcmp, Bool.not_false, if_true, attemptsOf_setAttempts_same,
      setAttempts_setAttempts]

/-- A login `POST` that passes the throttle with the right password removes
the entry of the user name, whatever happens to the session insert. -/
theorem loginPost_correct (lib : Lib) (env : Env) (st : State) (r : Request) (user : User)
    (hopen : ¬ 5 ≤ (recentAttempts (attemptsOf st.loginAttempts (loginUsername lib r)) env.now).length)
    (hsome : Repository.GetUserByUsername lib st.db (loginUsername lib r) = some user)
    (hcmp : lib.CompareHashAndPassword user.PasswordHash (r.FormValue "password") = true) :
    (loginPost lib env st r).2.loginAttempts =
      deleteAttempts (setAttempts st.loginAttempts (loginUsername lib r)
        (recentAttempts (attemptsOf st.loginAttempts (loginUsername lib r)) env.now))
        (loginUsername lib r) := by
  unfold loginPost
  simp only [maxLoginAttempts, ge_iff_le]
  rw [if_neg hopen]
  simp only [hsome, hcmp, Bool.not_true, Bool.false_eq_true, if_false]
  cases hc : Repository.CreateSession st.db
      ⟨env.uuid, user.ID, env.localTime (env.tIssue + 24 * Hour)⟩ (env.fault 0) with
  | mk e db1 =>
    cases e <;> rfl

/-- The three things `Login` can do to the throttle table: nothing; record a
failure after pruning; remove the (pruned) entry. -/
theorem Login_table (lib : Lib) (env : Env) (st : State) (r : Request) :
    (AuthHandler.Login lib env st r).2.loginAttempts = st.loginAttempts ∨
    ((recentAttempts (attemptsOf st.loginAttempts (loginUsername lib r)) env.now).length < 5 ∧
      (AuthHandler.Login lib env st r).2.loginAttempts =
        setAttempts st.loginAttempts (loginUsername lib r)
          (recentAttempts (attemptsOf st.loginAttempts (loginUsername lib r)) env.now
            ++ [env.now])) ∨
    (AuthHandler.Login lib env st r).2.loginAttempts =
      deleteAttempts (setAttempts st.loginAttempts (loginUsername lib r)
        (recentAttempts (attemptsOf st.loginAttempts (loginUsername lib r)) env.now))
        (loginUsername lib r) := by
  by_cases hs : hasValidSession env st.db r = true
  · left
    unfold AuthHandler.Login
    rw [if_pos hs]
  have hs' : hasValidSession env st.db r = false := by simpa using hs
  by_cases hm : r.Method = "POST"
  swap
  · left
    unfold AuthHandler.Login
    rw [if_neg hs, if_neg hm]
    split_ifs <;> rfl
  rw [Login_post lib env st r hm hs']
  by_cases hopen : 5 ≤ (recentAttempts (attemptsOf st.loginAttempts (loginUsername lib r)) env.now).length
  · left
    rw [loginPost_blocked lib env st r hopen]
  cases hu : Repository.GetUserByUsername lib st.db (loginUsername lib r) with
  | none =>
    right; left
    refine ⟨by omega, ?_⟩
    rw [loginPost_failure lib env st r hopen (Or.inl hu)]
  | some user =>
    cases hc : lib.CompareHashAndPassword user.PasswordHash (r.FormValue "password") with
    | false =>
      right; left
      refine ⟨by omega, ?_⟩
      rw [loginPost_failure lib env st r hopen (Or.inr ⟨user, hu, hc⟩)]
    | true =>
      right; right
      exact loginPost_correct lib env st r user hopen hu hc

theorem recentAttempts_length_le (l : List Int) (now : Int) :
    (recentAttempts l now).length ≤ l.length := by
  unfold recentAttempts
  exact List.length_filter_le _ _

/-- One `Login` request lengthens no failure list by more than one entry. -/
theorem Login_length_step (lib : Lib) (env : Env) (st : State) (r : Request) (u : String) :
    (attemptsOf (AuthHandler.Login lib env st r).2.loginAttempts u).length ≤
      (attemptsOf st.loginAttempts u).length + 1 := by
  rcases Login_table lib env st r with h | ⟨_, h⟩ | h
  · rw [h]; omega
  · rw [h]
    by_cases hu : u = loginUsername lib r
    · subst hu
      rw [attemptsOf_setAttempts_same, List.length_append]
      have := recentAttempts_length_le (attemptsOf st.loginAttempts (loginUsername lib r)) env.now
      simp only [List.length_singleton]
      omega
    · rw [attemptsOf_setAttempts_other _ _ _ _ hu]; omega
  · rw [h]
    by_cases hu : u = loginUsername lib r
    · subst hu
      rw [attemptsOf_deleteAttempts_same]; simp
    · rw [attemptsOf_deleteAttempts_other _ _ _ hu, attemptsOf_setAttempts_other _ _ _ _ hu]
      omega

theorem loginTable_length (lib : Lib) (u : String) :
    ∀ (steps : List (Env × Store × Request)) (m : String → Option (List Int)),
      (attemptsOf (loginTable lib m steps) u).length ≤ (attemptsOf m u).length + steps.length := by
  intro steps
  induction steps with
  | nil => intro m; simp [loginTable]
  | cons s rest ih =>
    intro m
    obtain ⟨env, db, r⟩ := s
    simp only [loginTable, List.length_cons]
    have h1 := ih (AuthHandler.Login lib env ⟨db, m⟩ r).2.loginAttempts
    have h2 := Login_length_step lib env ⟨db, m⟩ r u
    simp only at h2
    omega

/-- The invariant of the throttle table: every list has at most five
entries, is in non-decreasing order, and holds no instant after `c`. -/
theorem Login_invariant_step (lib : Lib) (env : Env) (st : State) (r : Request) (c : Int)
    (hc : c ≤ env.now)
    (hinv : ∀ u, (attemptsOf st.loginAttempts u).length ≤ 5 ∧
      (attemptsOf st.loginAttempts u).Pairwise (fun a b => a ≤ b) ∧
      ∀ t ∈ attemptsOf st.loginAttempts u, t ≤ c) :
    ∀ u, (attemptsOf (AuthHandler.Login lib env st r).2.loginAttempts u).length ≤ 5 ∧
      (attemptsOf (AuthHandler.Login lib env st r).2.loginAttempts u).Pairwise (fun a b => a ≤ b) ∧
      ∀ t ∈ attemptsOf (AuthHandler.Login lib env st r).2.loginAttempts u, t ≤ env.now := by
  intro u
  obtain ⟨h1, h2, h3⟩ := hinv u
  have hold : (attemptsOf st.loginAttempts u).length ≤ 5 ∧
      (attemptsOf st.loginAttempts u).Pairwise (fun a b => a ≤ b) ∧
      ∀ t ∈ attemptsOf st.loginAttempts u, t ≤ env.now :=
    ⟨h1, h2, fun t ht => le_trans (h3 t ht) hc⟩
  rcases Login_table lib env st r with h | ⟨hlen, h⟩ | h
  · rw [h]; exact hold
  · rw [h]
    by_cases hu : u = loginUsername lib r
    · subst hu
      rw [attemptsOf_setAttempts_same]
      have hsub : ∀ t ∈ recentAttempts (attemptsOf st.loginAttempts (loginUsername lib r)) env.now,
          t ≤ env.now := by
        intro t ht
        unfold recentAttempts at ht
        exact hold.2.2 t (List.mem_filter.1 ht).1
      refine ⟨?_, ?_, ?_⟩
      · rw [List.length_append, List.length_singleton]; omega
      · rw [List.pairwise_append]
        refine ⟨?_, List.pairwise_singleton _ _, ?_⟩
        · unfold recentAttempts
          exact List.Pairwise.filter _ h2
        · intro a ha b hb
          rw [List.mem_singleton] at hb
          subst hb
          exact hsub a ha
      · intro t ht
        rw [List.mem_append, List.mem_singleton] at ht
        rcases ht with ht | ht
        · exact hsub t ht
        · rw [ht]
    · rw [attemptsOf_setAttempts_other _ _ _ _ hu]; exact hold
  · rw [h]
    by_cases hu : u = loginUsername lib r
    · subst hu
      rw [attemptsOf_deleteAttempts_same]
      simp
    · rw [attemptsOf_deleteAttempts_other _ _ _ hu, attemptsOf_setAttempts_other _ _ _ _ hu]
      exact hold

theorem loginTable_invariant (lib : Lib) :
    ∀ (steps : List (Env × Store × Request)) (m : String → Option (List Int)) (c : Int),
      (steps.map (fun s => s.1.now)).Pairwise (fun a b => a ≤ b) →
      (∀ s ∈ steps, c ≤ s.1.now) →
      (∀ u, (attemptsOf m u).length ≤ 5 ∧ (attemptsOf m u).Pairwise (fun a b => a ≤ b) ∧
        ∀ t ∈ attemptsOf m u, t ≤ c) →
      ∀ u, (attemptsOf (loginTable lib m steps) u).length ≤ 5 ∧
        (attemptsOf (loginTable lib m steps) u).Pairwise (fun a b => a ≤ b) := by
  intro steps
  induction steps with
  | nil =>
    intro m c _ _ hinv u
    exact ⟨(hinv u).1, (hinv u).2.1⟩
  | cons s rest ih =>
    intro m c hsorted hlow hinv
    obtain ⟨env, db, r⟩ := s
    simp only [loginTable]
    rw [List.map_cons, List.pairwise_cons] at hsorted
    refine ih _ env.now hsorted.2 ?_ ?_
    · intro s hs
      exact hsorted.1 _ (List.mem_map_of_mem _ hs)
    · exact Login_invariant_step lib env ⟨db, m⟩ r c (hlow _ (List.mem_cons_self _ _)) hinv

/-- C21: a login `POST` (from a client that is not already logged in) that
passes the throttle and fails is answered and recorded alike for an unknown
user name and for a wrong password.  Run against a store where the name is
unknown and against a store where it is known but the password does not
match, from the same throttle table at the same clock reading, both runs
answer with the bad-credentials redirect, leave the database as it is, and end
with the same table: the entry of the name becomes its instants `t` with
`now - t` under ten minutes, followed by `now`. -/
theorem C21_failure_modes_alike (lib : Lib) (env : Env) (m : String → Option (List Int))
    (db1 db2 : Store) (r1 r2 : Request) (user : User)
    (hm1 : r1.Method = "POST") (hm2 : r2.Method = "POST")
    (hs1 : hasValidSession env db1 r1 = false) (hs2 : hasValidSession env db2 r2 = false)
    (hname : loginUsername lib r2 = loginUsername lib r1)
    (hopen : ((attemptsOf m (loginUsername lib r1)).filter
      (fun t => decide (env.now - t < 10 * Minute))).length < 5)
    (hunknown : Repository.GetUserByUsername lib db1 (loginUsername lib r1) = none)
    (hknown : Repository.GetUserByUsername lib db2 (loginUsername lib r2) = some user)
    (hwrong : lib.CompareHashAndPassword user.PasswordHash (r2.FormValue "password") = false) :
    AuthHandler.Login lib env ⟨db1, m⟩ r1 =
      (.Redirect badCredentialsURL StatusSeeOther,
        ⟨db1, setAttempts m (loginUsername lib r1)
          ((attemptsOf m (loginUsername lib r1)).filter
            (fun t => decide (env.now - t < 10 * Minute)) ++ [env.now])⟩) ∧
    AuthHandler.Login lib env ⟨db2, m⟩ r2 =
      (.Redirect badCredentialsURL StatusSeeOther,
        ⟨db2, setAttempts m (loginUsername lib r1)
          ((attemptsOf m (loginUsername lib r1)).filter
            (fun t => decide (env.now - t < 10 * Minute)) ++ [env.now])⟩) ∧
    (AuthHandler.Login lib env ⟨db1, m⟩ r1).1 = (AuthHandler.Login lib env ⟨db2, m⟩ r2).1 ∧
    (AuthHandler.Login lib env ⟨db1, m⟩ r1).2.loginAttempts =
      (AuthHandler.Login lib env ⟨db2, m⟩ r2).2.loginAttempts := by
  rw [← recentAttempts_eq] at hopen
  have hopen1 : ¬ 5 ≤ (recentAttempts (attemptsOf (State.mk db1 m).loginAttempts
      (loginUsername lib r1)) env.now).length := by
    simp only; omega
  have hopen2 : ¬ 5 ≤ (recentAttempts (attemptsOf (State.mk db2 m).loginAttempts
      (loginUsername lib r2)) env.now).length := by
    rw [hname]; simp only; omega
  have e1 := loginPost_failure lib env ⟨db1, m⟩ r1 hopen1 (Or.inl hunknown)
  have e2 := loginPost_failure lib env ⟨db2, m⟩ r2 hopen2 (Or.inr ⟨user, hknown, hwrong⟩)
  rw [Login_post lib env ⟨db1, m⟩ r1 hm1 hs1, Login_post lib env ⟨db2, m⟩ r2 hm2 hs2, e1, e2]
  simp only [hname, recentAttempts_eq, and_self]

/-- Instance of C21: "bob" with a wrong password, against a store without
users and against the example store. -/
theorem C21_failure_modes_alike_witness :
    (AuthHandler.Login toyLib exEnv ⟨exNoUsers, emptyTable⟩ exLoginBobWrong).1 =
      (AuthHandler.Login toyLib exEnv ⟨exStore, emptyTable⟩ exLoginBobWrong).1 ∧
    (AuthHandler.Login toyLib exEnv ⟨exNoUsers, emptyTable⟩ exLoginBobWrong).2.loginAttempts =
      (AuthHandler.Login toyLib exEnv ⟨exStore, emptyTable⟩ exLoginBobWrong).2.loginAttempts :=
  (C21_failure_modes_alike toyLib exEnv emptyTable exNoUsers exStore exLoginBobWrong
    exLoginBobWrong ⟨2, "b@x.com", "bob", "secret2", ""⟩ (by decide) (by decide) (by decide)
    (by decide) rfl (by decide) (by decide) (by decide) (by decide)).2.2

theorem Login_blocked_imp (lib : Lib) (env : Env) (st : State) (r : Request)
    (h : (AuthHandler.Login lib env st r).1 = .Redirect tooManyAttemptsURL StatusSeeOther) :
    5 ≤ (recentAttempts (attemptsOf st.loginAttempts (loginUsername lib r)) env.now).length := by
  by_cases hs : hasValidSession env st.db r = true
  · exfalso
    unfold AuthHandler.Login at h
    rw [if_pos hs] at h
    have hne : "/" ≠ tooManyAttemptsURL := by decide
    simp only [Response.Redirect.injEq] at h
    exact hne h.1
  have hs' : hasValidSession env st.db r = false := by simpa using hs
  by_cases hm : r.Method = "POST"
  · rw [Login_post lib env st r hm hs'] at h
    exact (loginPost_blocked_iff lib env st r).1 h
  · exfalso
    unfold AuthHandler.Login at h
    rw [if_neg hs, if_neg hm] at h
    split_ifs at h

/-- C22: a login `POST` (from a client that is not already logged in) that
passes the throttle with the right password leaves the user name without an
entry in the throttle table and leaves every other name's entry as it was;
this holds whether or not the session insert that follows succeeds.  After any
sequence of at most 4 further `Login` requests (failed or not, for any names),
a `Login` request for that name is not turned away by the throttle. -/
theorem C22_success_clears_entry (lib : Lib) (env : Env) (st : State) (r : Request) (user : User)
    (hm : r.Method = "POST") (hs : hasValidSession env st.db r = false)
    (hopen : ((attemptsOf st.loginAttempts (loginUsername lib r)).filter
      (fun t => decide (env.now - t < 10 * Minute))).length < 5)
    (hsome : Repository.GetUserByUsername lib st.db (loginUsername lib r) = some user)
    (hcmp : lib.CompareHashAndPassword user.PasswordHash (r.FormValue "password") = true) :
    (AuthHandler.Login lib env st r).2.loginAttempts (loginUsername lib r) = none ∧
    (∀ u, u ≠ loginUsername lib r →
      (AuthHandler.Login lib env st r).2.loginAttempts u = st.loginAttempts u) ∧
    ∀ (steps : List (Env × Store × Request)) (env2 : Env) (db2 : Store) (r2 : Request),
      steps.length ≤ 4 → loginUsername lib r2 = loginUsername lib r →
      (AuthHandler.Login lib env2
        ⟨db2, loginTable lib (AuthHandler.Login lib env st r).2.loginAttempts steps⟩ r2).1 ≠
        .Redirect tooManyAttemptsURL StatusSeeOther := by
  rw [← recentAttempts_eq] at hopen
  have hopen1 : ¬ 5 ≤ (recentAttempts (attemptsOf st.loginAttempts (loginUsername lib r))
      env.now).length := by omega
  have e := loginPost_correct lib env st r user hopen1 hsome hcmp
  rw [Login_post lib env st r hm hs, e]
  refine ⟨?_, ?_, ?_⟩
  · simp [deleteAttempts]
  · intro u hu
    simp [deleteAttempts, setAttempts, hu]
  · intro steps env2 db2 r2 hlen hname hblocked
    have h5 := Login_blocked_imp lib env2 _ r2 hblocked
    simp only at h5
    have hle := recentAttempts_length_le
      (attemptsOf (loginTable lib (deleteAttempts (setAttempts st.loginAttempts (loginUsername lib r)
        (recentAttempts (attemptsOf st.loginAttempts (loginUsername lib r)) env.now))
        (loginUsername lib r)) steps) (loginUsername lib r2)) env2.now
    have hgrow := loginTable_length lib (loginUsername lib r2) steps
      (deleteAttempts (setAttempts st.loginAttempts (loginUsername lib r)
        (recentAttempts (attemptsOf st.loginAttempts (loginUsername lib r)) env.now))
        (loginUsername lib r))
    rw [hname, attemptsOf_deleteAttempts_same] at hgrow
    rw [hname] at hle h5
    simp only [List.length_nil] at hgrow
    omega

/-- Instance of C22: bob has four failures on record and logs in with his
password. -/
theorem C22_success_clears_entry_witness :
    (AuthHandler.Login toyLib exEnv
      ⟨exStore, fun u => if u = "bob" then some [1, 2, 3, 4] else none⟩ exLoginBob).2.loginAttempts
      "bob" = none :=
  (C22_success_clears_entry toyLib exEnv
    ⟨exStore, fun u => if u = "bob" then some [1, 2, 3, 4] else none⟩ exLoginBob
    ⟨2, "b@x.com", "bob", "secret2", ""⟩ (by decide) (by decide) (by decide) (by decide)
    (by decide)).1

/-- C27: start from the empty throttle table and serve any sequence of `Login`
requests one after the other, the clock readings of successive requests never
decreasing (each request with its own environment, against any database).
In the resulting table every user name's failure list holds at most 5
instants and is in non-decreasing order. -/
theorem C27_throttle_lists_bounded_sorted (lib : Lib) (steps : List (Env × Store × Request))
    (hclock : (steps.map (fun s => s.1.now)).Pairwise (fun a b => a ≤ b)) (u : String) :
    (attemptsOf (loginTable lib emptyTable steps) u).length ≤ 5 ∧
    (attemptsOf (loginTable lib emptyTable steps) u).Pairwise (fun a b => a ≤ b) := by
  cases steps with
  | nil => simp [loginTable, emptyTable, attemptsOf]
  | cons s rest =>
    refine loginTable_invariant lib (s :: rest) emptyTable s.1.now hclock ?_ ?_ u
    · intro s2 hs2
      rw [List.map_cons, List.pairwise_cons] at hclock
      rcases List.mem_cons.1 hs2 with h | h
      · rw [h]
      · exact hclock.1 _ (List.mem_map_of_mem _ h)
    · intro u2
      simp [emptyTable, attemptsOf]

/-- Instance of C27: six failed attempts for carol at instants 0 to 5 leave
five instants on record. -/
theorem C27_throttle_lists_bounded_sorted_witness :
    attemptsOf (loginTable toyLib emptyTable exSixAttempts) "carol" = [0, 1, 2, 3, 4] ∧
    (attemptsOf (loginTable toyLib emptyTable exSixAttempts) "carol").length ≤ 5 ∧
    (attemptsOf (loginTable toyLib emptyTable exSixAttempts) "carol").Pairwise
      (fun a b => a ≤ b) :=
  ⟨by decide, C27_throttle_lists_bounded_sorted toyLib exSixAttempts (by decide) "carol"⟩

/-! ## Reports -/

/-- C23: `SubmitReport` stores a report with both `post_id` and `comment_id`
set when the form carries both: with `post_id=1`, `comment_id=1` and a reason,
submitted by user 1 on the example store, the handler answers that the report
was sent and the new row names post 1 and comment 1. -/
theorem C23_report_with_both_targets :
    ReportHandler.SubmitReport exEnv "/report" exStore exReportBoth =
      (.Redirect "/?success=Жалоба отправлена" StatusSeeOther,
        { exStore with
          reports := exStore.reports ++ [⟨2, 1, some 1, some 1, "spam", "open"⟩],
          seq := { exStore.seq with reports := 2 } }) ∧
    ∃ row ∈ (ReportHandler.SubmitReport exEnv "/report" exStore exReportBoth).2.reports,
      row ∉ exStore.reports ∧ row.PostID ≠ none ∧ row.CommentID ≠ none := by
  refine ⟨by decide, ⟨2, 1, some 1, some 1, "spam", "open"⟩, by decide, by decide, by decide,
    by decide⟩

theorem run_reports (lib : Lib) (db : Store) (op : RepoWrite) :
    ∀ x ∈ (op.run lib db).reports,
      (x ∈ db.reports ∨ ∃ y ∈ db.reports, y.ID = x.ID ∧ x.Status = "closed") ∨
      (x.Status = "open" ∧ x.ID = nextID db.seq.reports (db.reports.map (fun r => r.ID))) := by
  intro x hx
  cases op with
  | CreateUser user plainPassword hash fail =>
    left; left
    have e : (Repository.CreateUser lib db user plainPassword hash fail).2.reports =
        db.reports := by
      unfold Repository.CreateUser
      cases hash plainPassword
      · rfl
      · simp only
        split_ifs <;> rfl
    rw [RepoWrite.run, e] at hx
    exact hx
  | CreateSession session fail =>
    left; left
    simp only [RepoWrite.run, Repository.CreateSession] at hx
    split_ifs at hx <;> exact hx
  | DeleteSession sessionID fail =>
    left; left
    simp only [RepoWrite.run, Repository.DeleteSession] at hx
    split_ifs at hx <;> exact hx
  | DeleteUserSessions userID exceptSessionID fail =>
    left; left
    simp only [RepoWrite.run, Repository.DeleteUserSessions] at hx
    split_ifs at hx <;> exact hx
  | CleanExpiredSessions now fail =>
    left; left
    simp only [RepoWrite.run, Repository.CleanExpiredSessions] at hx
    split_ifs at hx <;> exact hx
  | CreatePost post fail =>
    left; left
    simp only [RepoWrite.run, Repository.CreatePost] at hx
    split_ifs at hx <;> exact hx
  | AddPostCategory postID categoryID fail =>
    left; left
    simp only [RepoWrite.run, Repository.AddPostCategory] at hx
    split_ifs at hx <;> exact hx
  | CreateLike like fail =>
    left; left
    have e : (Repository.CreateLike db like fail).2.reports = db.reports := by
      unfold Repository.CreateLike
      split
      · rfl
      · split <;> split_ifs <;> rfl
    rw [RepoWrite.run, e] at hx
    exact hx
  | CreateComment comment fail =>
    left; left
    simp only [RepoWrite.run, Repository.CreateComment] at hx
    split_ifs at hx <;> exact hx
  | DeleteComment commentID fail =>
    left; left
    simp only [RepoWrite.run, Repository.DeleteComment] at hx
    split_ifs at hx <;> exact hx
  | UpdateComment commentID newContent fail =>
    left; left
    simp only [RepoWrite.run, Repository.UpdateComment] at hx
    split_ifs at hx <;> exact hx
  | CreateCategory name fail =>
    left; left
    simp only [RepoWrite.run, Repository.CreateCategory] at hx
    split_ifs at hx <;> exact hx
  | UpdatePost postID title content fail =>
    left; left
    simp only [RepoWrite.run, Repository.UpdatePost] at hx
    split_ifs at hx <;> exact hx
  | DeletePost postID fault =>
    left; left
    rw [RepoWrite.run, DeletePost_eq] at hx
    split_ifs at hx
    · exact hx
    · simp only [cascade] at hx
      exact (List.mem_filter.1 hx).1
  | AddImage postID filePath fail =>
    left; left
    simp only [RepoWrite.run, Repository.AddImage] at hx
    split_ifs at hx <;> exact hx
  | CreateNotification userID notifType fromUserID postID commentID fail =>
    left; left
    simp only [RepoWrite.run, Repository.CreateNotification] at hx
    split_ifs at hx <;> exact hx
  | MarkNotificationRead notificationID fail =>
    left; left
    simp only [RepoWrite.run, Repository.MarkNotificationRead] at hx
    split_ifs at hx <;> exact hx
  | CreateReport reporterID postID commentID reason fail =>
    simp only [RepoWrite.run, Repository.CreateReport] at hx
    split_ifs at hx
    · left; left; exact hx
    · simp only [List.mem_append, List.mem_singleton] at hx
      rcases hx with hx | hx
      · left; left; exact hx
      · right
        rw [hx]
        exact ⟨rfl, rfl⟩
  | CloseReport reportID fail =>
    left
    simp only [RepoWrite.run, Repository.CloseReport] at hx
    split_ifs at hx
    · left; exact hx
    · obtain ⟨y, hy, hyx⟩ := List.mem_map.1 hx
      by_cases hid : (y.ID == reportID) = true
      · rw [if_pos hid] at hyx
        right
        exact ⟨y, hy, by rw [← hyx], by rw [← hyx]⟩
      · rw [if_neg hid] at hyx
        left
        rw [← hyx]; exact hy
  | RunMigrations fault =>
    left; left
    simp only [RepoWrite.run, Repository.RunMigrations, insertCategoryOrIgnore] at hx
    split_ifs at hx <;> exact hx

/-- C24: `CreateReport` (its insert not failing) succeeds and appends the
report with a fresh id and status `open`, leaving the stored reports as they
were.  `CloseReport` (its update not failing) succeeds, leaves every report
with another id as it was and gives the addressed one the status `closed`,
also when it was closed already.  And no repository write, with whatever
arguments, failed or not, reopens a report: if the reports with id `i` are all
closed before the call, the reports with id `i` are all closed after it. -/
theorem C24_report_status_monotone (lib : Lib) (db : Store) :
    (∀ reporterID postID commentID reason,
      (Repository.CreateReport db reporterID postID commentID reason false).1 = none ∧
      (Repository.CreateReport db reporterID postID commentID reason false).2.reports =
        db.reports ++ [⟨nextID db.seq.reports (db.reports.map (fun r => r.ID)), reporterID,
          postID, commentID, reason, "open"⟩] ∧
      ∀ y ∈ db.reports, y.ID ≠ nextID db.seq.reports (db.reports.map (fun r => r.ID))) ∧
    (∀ reportID,
      (Repository.CloseReport db reportID false).1 = none ∧
      (Repository.CloseReport db reportID false).2.reports =
        db.reports.map (fun r => if r.ID = reportID then { r with Status := "closed" } else r) ∧
      (Repository.CloseReport db reportID false).2.reports.filter (fun r => !(r.ID == reportID)) =
        db.reports.filter (fun r => !(r.ID == reportID)) ∧
      ∀ x ∈ (Repository.CloseReport db reportID false).2.reports,
        x.ID = reportID → x.Status = "closed") ∧
    (∀ (op : RepoWrite) (i : Int),
      (∃ y ∈ db.reports, y.ID = i) → (∀ y ∈ db.reports, y.ID = i → y.Status = "closed") →
      ∀ x ∈ (op.run lib db).reports, x.ID = i → x.Status = "closed") := by
  refine ⟨?_, ?_, ?_⟩
  · intro reporterID postID commentID reason
    refine ⟨rfl, rfl, ?_⟩
    intro y hy
    exact nextID_fresh db.seq.reports _ y.ID (List.mem_map_of_mem _ hy)
  · intro reportID
    refine ⟨rfl, ?_, ?_, ?_⟩
    · simp only [Repository.CloseReport, Bool.false_eq_true, if_false, beq_iff_eq]
    · simp only [Repository.CloseReport, Bool.false_eq_true, if_false]
      induction db.reports with
      | nil => rfl
      | cons y rest ih =>
        by_cases hid : y.ID = reportID
        · simp [hid, List.filter_cons] at ih ⊢
          exact ih
        · simp [hid, List.filter_cons] at ih ⊢
          exact ih
    · intro x hx hid
      simp only [Repository.CloseReport, Bool.false_eq_true, if_false] at hx
      obtain ⟨y, _, hyx⟩ := List.mem_map.1 hx
      by_cases hy : (y.ID == reportID) = true
      · rw [if_pos hy] at hyx
        rw [← hyx]
      · rw [if_neg hy] at hyx
        rw [← hyx] at hid
        exact absurd (by simpa using hid) hy
  · intro op i hex hclosed x hx hid
    rcases run_reports lib db op x hx with (h | ⟨y, _, _, h⟩) | ⟨_, h⟩
    · exact hclosed x h hid
    · exact h
    · exfalso
      obtain ⟨y, hy, hyi⟩ := hex
      refine nextID_fresh db.seq.reports (db.reports.map (fun r => r.ID)) y.ID
        (List.mem_map_of_mem _ hy) ?_
      rw [hyi, ← hid, h]

/-! ## Creating a user and looking it up -/

theorem not_taken_rows (lib : Lib) (db : Store) (email username : String)
    (hfree : Repository.IsEmailOrUsernameTaken lib db email username = false) :
    ∀ u ∈ db.users, (nocase u.Email == nocase (lib.ToLower email) ||
      nocase u.Username == nocase (lib.ToLower username)) = false := by
  intro u hu
  cases hc2 : (nocase u.Email == nocase (lib.ToLower email) ||
      nocase u.Username == nocase (lib.ToLower username)) with
  | false => rfl
  | true =>
    exfalso
    have hmem : u ∈ db.users.filter (fun u => nocase u.Email == nocase (lib.ToLower email) ||
        nocase u.Username == nocase (lib.ToLower username)) := List.mem_filter.2 ⟨hu, hc2⟩
    have hpos := List.length_pos_of_mem hmem
    unfold Repository.IsEmailOrUsernameTaken at hfree
    simp only [gt_iff_lt, decide_eq_false_iff_not] at hfree
    exact hfree hpos

theorem find?_append_new {α : Type} (p : α → Bool) (l : List α) (a : α)
    (hold : ∀ x ∈ l, p x = false) (hnew : p a = true) : (l ++ [a]).find? p = some a := by
  induction l with
  | nil => simp [List.find?, hnew]
  | cons y rest ih =>
    have hy := hold y (List.mem_cons_self _ _)
    rw [List.cons_append, List.find?_cons_of_neg _ (by simp [hy])]
    exact ih (fun x hx => hold x (List.mem_cons_of_mem _ hx))

/-- C25: when neither the email nor the user name is taken (the repository's
own case-insensitive check) and the password can be hashed, `CreateUser` (its
insert not failing) succeeds and appends a row that holds the lower-cased
email and user name under a fresh id.  On the resulting store
`GetUserByEmail` returns that row for every argument equal to the email up to
letter case, and `GetUserByUsername` returns its id, email, user name and
password hash (the columns it selects; the role is left empty) for every
argument equal to the user name up to letter case. -/
theorem C25_create_then_lookup (lib : Lib) (db : Store) (user : User)
    (plainPassword h : String) (hash : String → Option String)
    (hfree : Repository.IsEmailOrUsernameTaken lib db user.Email user.Username = false)
    (hhash : hash plainPassword = some h) :
    (Repository.CreateUser lib db user plainPassword hash false).1 = none ∧
    (Repository.CreateUser lib db user plainPassword hash false).2.users =
      db.users ++ [⟨nextID db.seq.users (db.users.map (fun u => u.ID)),
        lib.ToLower user.Email, lib.ToLower user.Username, h, "user"⟩] ∧
    (∀ e, sameUpToCase lib e user.Email →
      Repository.GetUserByEmail lib
        (Repository.CreateUser lib db user plainPassword hash false).2 e =
        some ⟨nextID db.seq.users (db.users.map (fun u => u.ID)),
          lib.ToLower user.Email, lib.ToLower user.Username, h, "user"⟩) ∧
    (∀ u, sameUpToCase lib u user.Username →
      Repository.GetUserByUsername lib
        (Repository.CreateUser lib db user plainPassword hash false).2 u =
        some ⟨nextID db.seq.users (db.users.map (fun u => u.ID)),
          lib.ToLower user.Email, lib.ToLower user.Username, h, ""⟩) := by
  have hrows := not_taken_rows lib db user.Email user.Username hfree
  have hany : db.users.any (fun u => nocase u.Email == nocase (lib.ToLower user.Email) ||
      nocase u.Username == nocase (lib.ToLower user.Username)) = false := by
    rw [List.any_eq_false]
    intro u hu
    rw [hrows u hu]
    simp
  have hcreate : Repository.CreateUser lib db user plainPassword hash false =
      (none, { db with
        users := db.users ++ [⟨nextID db.seq.users (db.users.map (fun u => u.ID)),
          lib.ToLower user.Email, lib.ToLower user.Username, h, "user"⟩],
        seq := { db.seq with users := nextID db.seq.users (db.users.map (fun u => u.ID)) } }) := by
    unfold Repository.CreateUser
    simp only [hhash, Bool.false_eq_true, if_false, hany]
  rw [hcreate]
  refine ⟨rfl, rfl, ?_, ?_⟩
  · intro e he
    unfold sameUpToCase at he
    unfold Repository.GetUserByEmail
    simp only [he]
    apply find?_append_new
    · intro x hx
      have := hrows x hx
      rw [Bool.or_eq_false_iff] at this
      exact this.1
    · simp
  · intro u hu
    unfold sameUpToCase at hu
    unfold Repository.GetUserByUsername
    simp only [hu]
    rw [find?_append_new]
    · rfl
    · intro x hx
      have := hrows x hx
      rw [Bool.or_eq_false_iff] at this
      exact this.2
    · simp

/-- Instance of C25: carol is created in the example store and found again
under "CAROL". -/
theorem C25_create_then_lookup_witness :
    Repository.GetUserByUsername toyLib
      (Repository.CreateUser toyLib exStore ⟨0, "C@x.com", "Carol", "", ""⟩ "secret3"
        toyHash false).2 "CAROL" =
      some ⟨3, "c@x.com", "carol", "secret3", ""⟩ :=
  (C25_create_then_lookup toyLib exStore ⟨0, "C@x.com", "Carol", "", ""⟩ "secret3" "secret3"
    toyHash (by decide) (by decide)).2.2.2 "CAROL" (by unfold sameUpToCase; decide)

/-! ## Session sweep and validation -/

/-- C28: for every store, token and reading `now` of the clock, `GetSession`
at `now` gives the same result on the store left by `CleanExpiredSessions` run
at `now` (failed or not) as on the store before it: the sweep removes only
rows with `expires < now`, none of which validation accepts. -/
theorem C28_sweep_keeps_valid (db : Store) (token : String) (now : Time) (fail : Bool) :
    Repository.GetSession (Repository.CleanExpiredSessions db now fail).2 token now =
      Repository.GetSession db token now := by
  unfold Repository.GetSession Repository.CleanExpiredSessions
  cases fail
  swap
  · rfl
  simp only [Bool.false_eq_true, if_false]
  induction db.sessions with
  | nil => rfl
  | cons s rest ih =>
    cases h : s.Expires.textLess now with
    | true =>
      have h2 : (s.SessionID == token && now.textLess s.Expires) = false := by
        rw [Time.textLess_asymm s.Expires now h]
        simp
      rw [List.filter_cons_of_neg (by simp [h]), List.find?_cons_of_neg _ (by simp [h2]), ih]
    | false =>
      rw [List.filter_cons_of_pos (by simp [h])]
      simp only [List.find?_cons, ih]

/-! ## Registration followed by login -/

/-- C29: registration trims the password before hashing it, login compares
the form value as it is.  With a stand-in hash whose comparison succeeds
exactly for the hashed plaintext, the form password `" secret1 "` is accepted
by `Register`, which stores user `dave` with the hash of `"secret1"`; a `Login`
`POST` with the same user name and the same password form value, the throttle
table empty, is answered with the bad-credentials redirect and no session is
created. -/
theorem C29_register_trims_login_does_not :
    (∀ p h q, toyHash p = some h → (toyLib.CompareHashAndPassword h q = true ↔ q = p)) ∧
    exLoginDave.FormValue "username" = exRegisterDave.FormValue "username" ∧
    exLoginDave.FormValue "password" = exRegisterDave.FormValue "password" ∧
    AuthHandler.Register toyLib exEnv toyHash exStore exRegisterDave =
      (.Redirect "/login?success=Регистрация успешна" StatusSeeOther,
        { exStore with
          users := exStore.users ++ [⟨3, "d@x.com", "dave", "secret1", "user"⟩],
          seq := { exStore.seq with users := 3 } }) ∧
    (AuthHandler.Login toyLib exEnv
      ⟨(AuthHandler.Register toyLib exEnv toyHash exStore exRegisterDave).2, emptyTable⟩
      exLoginDave).1 = .Redirect badCredentialsURL StatusSeeOther ∧
    (AuthHandler.Login toyLib exEnv
      ⟨(AuthHandler.Register toyLib exEnv toyHash exStore exRegisterDave).2, emptyTable⟩
      exLoginDave).2.db.sessions = exStore.sessions := by
  refine ⟨?_, by decide, by decide, by decide, by decide, by decide⟩
  intro p h q hp
  simp only [toyHash, Option.some.injEq] at hp
  subst hp
  show (p == q) = true ↔ q = p
  rw [beq_iff_eq]
  exact eq_comm

/-! ## Frame of post deletion -/

/-- C30: a successful `DeletePost` of `p` leaves the users, the sessions and
the categories as they were, and in each of the tables of posts, comments,
votes, post-category links, images, notifications and reports the rows that do
not reference `p` (rows with a null `post_id` among them) are the same rows in
the same order before and after. -/
theorem C30_delete_frame (db : Store) (p : Int) (fault : Nat → Bool)
    (hok : (Repository.DeletePost db p fault).1 = none) :
    (Repository.DeletePost db p fault).2.users = db.users ∧
    (Repository.DeletePost db p fault).2.sessions = db.sessions ∧
    (Repository.DeletePost db p fault).2.categories = db.categories ∧
    (Repository.DeletePost db p fault).2.posts.filter (fun x => !(x.ID == p)) =
      db.posts.filter (fun x => !(x.ID == p)) ∧
    (Repository.DeletePost db p fault).2.comments.filter (fun x => !(x.PostID == p)) =
      db.comments.filter (fun x => !(x.PostID == p)) ∧
    (Repository.DeletePost db p fault).2.likes.filter (fun x => !(x.PostID == some p)) =
      db.likes.filter (fun x => !(x.PostID == some p)) ∧
    (Repository.DeletePost db p fault).2.post_categories.filter (fun x => !(x.PostID == p)) =
      db.post_categories.filter (fun x => !(x.PostID == p)) ∧
    (Repository.DeletePost db p fault).2.images.filter (fun x => !(x.PostID == p)) =
      db.images.filter (fun x => !(x.PostID == p)) ∧
    (Repository.DeletePost db p fault).2.notifications.filter (fun x => !(x.PostID == some p)) =
      db.notifications.filter (fun x => !(x.PostID == some p)) ∧
    (Repository.DeletePost db p fault).2.reports.filter (fun x => !(x.PostID == some p)) =
      db.reports.filter (fun x => !(x.PostID == some p)) := by
  rw [DeletePost_eq] at hok ⊢
  split_ifs at hok ⊢ with h
  · simp [storageErr] at hok
  · simp only [cascade, List.filter_filter, Bool.and_self, and_self]

/-- Instance of C30: deleting post 1 of the example store. -/
theorem C30_delete_frame_witness :
    (Repository.DeletePost exStore 1 (fun _ => false)).2.users = exStore.users ∧
    (Repository.DeletePost exStore 1 (fun _ => false)).2.sessions = exStore.sessions :=
  have h := C30_delete_frame exStore 1 (fun _ => false) (by decide)
  ⟨h.1, h.2.1⟩

end Forum
